import Mathlib

/-!
FULLCONENAT iptables target: option codec.

A shallow embedding of `libipt_FULLCONENAT.c`: the target's descriptor
(`struct nf_nat_ipv4_multi_range_compat_withtype`), its initializer, the three
field validators (`parse_to`, `parse_ports`, `parse_nat_type`), the option
dispatcher `FULLCONENAT_parse` and the two renderers `FULLCONENAT_print` and
`FULLCONENAT_save`.

Conventions.

* A C string is the list of its characters before the terminating NUL.
* `printf` output is the list of characters written.
* `xtables_error` and `xtables_param_act` do not return (they leave the
  process); a run that reaches one ends in `Run.exit`, which records the error
  and the memory as it stands at that point.
* The host byte order is a parameter `le` (`true` on a little-endian host).
* The functions of libxtables and libc that the file calls (`xtables_strtoui`,
  `xtables_numeric_to_ipaddr`, `xtables_ipaddr_to_numeric`,
  `xtables_option_parse`, `strtoumax`, `htons`, `ntohs`) are embedded from their
  library definitions, since the sources of this target only call them.
-/

namespace FullConeNat

/-- A C string: its characters up to the terminating NUL. -/
abbrev CStr := List Char

/-! ## libc: character classes, `strtoumax`, `%u` -/

/-- The `isspace` class of the C locale. -/
def isspace (c : Char) : Bool :=
  c.toNat = 32 ∨ (9 ≤ c.toNat ∧ c.toNat ≤ 13)

/-- Value of a character as a digit in bases up to 36, as `strtoul` reads it. -/
def digit_value (c : Char) : Option Nat :=
  if 48 ≤ c.toNat ∧ c.toNat ≤ 57 then some (c.toNat - 48)
  else if 97 ≤ c.toNat ∧ c.toNat ≤ 122 then some (c.toNat - 97 + 10)
  else if 65 ≤ c.toNat ∧ c.toNat ≤ 90 then some (c.toNat - 65 + 10)
  else none

/-- The digit loop of `strtoul`: consumes the longest run of digits below
`base`, accumulating the value; `any` records that a digit was consumed. -/
def scan_digits (base : Nat) : CStr → Nat → Bool → Nat × Bool × CStr
  | [], acc, any => (acc, any, [])
  | c :: cs, acc, any =>
    match digit_value c with
    | some d => if d < base then scan_digits base cs (acc * base + d) true else (acc, any, c :: cs)
    | none => (acc, any, c :: cs)

/-- `UINTMAX_MAX` for a 64-bit `uintmax_t`. -/
def UINTMAX_MAX : Nat := 2 ^ 64 - 1

/-- What `strtoumax(nptr, &end, 0)` reports: the value, the text at `end`,
whether nothing was converted (`end == nptr`), and whether `errno` became
`ERANGE`. -/
structure strto_result where
  value : Nat
  endp : CStr
  noconv : Bool
  erange : Bool
deriving DecidableEq, Repr

/-- The optional sign of `strtoumax`: whether a `-` was read, and the text
after the sign. -/
def strtoumax_sign : CStr → Bool × CStr
  | '-' :: t => (true, t)
  | '+' :: t => (false, t)
  | s => (false, s)

/-- The result of `strtoumax` after the digit loop `r`: with a digit consumed,
the value (`UINTMAX_MAX` and `ERANGE` on overflow, negated modulo 2^64 after a
`-`) and the text after the digits; with none, the result `noconv`. -/
def strtoumax_conv (neg : Bool) (r : Nat × Bool × CStr) (noconv : strto_result) : strto_result :=
  if r.2.1 then
    if UINTMAX_MAX < r.1 then ⟨UINTMAX_MAX, r.2.2, false, true⟩
    else ⟨if neg then (2 ^ 64 - r.1) % 2 ^ 64 else r.1, r.2.2, false, false⟩
  else noconv

/-- Base detection and conversion of `strtoumax` with base 0, on the text `s1`
after white space and sign: `0x`/`0X` starts a hexadecimal number, another
leading `0` an octal one, anything else a decimal one. A `0x` with no
hexadecimal digit after it converts the `0` alone and leaves `end` at the `x`;
otherwise, with no digit, nothing is converted and `end` is `nptr`. -/
def strtoumax_body (nptr : CStr) (neg : Bool) (s1 : CStr) : strto_result :=
  match s1 with
  | '0' :: x :: t =>
    if x = 'x' ∨ x = 'X' then
      strtoumax_conv neg (scan_digits 16 t 0 false) ⟨0, x :: t, false, false⟩
    else strtoumax_conv neg (scan_digits 8 s1 0 false) ⟨0, nptr, true, false⟩
  | '0' :: [] => strtoumax_conv neg (scan_digits 8 s1 0 false) ⟨0, nptr, true, false⟩
  | _ => strtoumax_conv neg (scan_digits 10 s1 0 false) ⟨0, nptr, true, false⟩

/-- `strtoumax(nptr, &end, 0)`: leading white space, an optional sign, then base
detection and the digit loop. -/
def strtoumax (nptr : CStr) : strto_result :=
  strtoumax_body nptr (strtoumax_sign (nptr.dropWhile isspace)).1
    (strtoumax_sign (nptr.dropWhile isspace)).2

/-- The conversions `%u` and `%hu` of `printf`: the decimal digits of the value. -/
def utoa (n : Nat) : CStr := Nat.toDigits 10 n

/-! ## libxtables: number and address conversion -/

/-- `xtables_strtoul(s, end, &value, min, max)`. `end_null` says that the caller
passed `end == NULL`, in which case the whole string must be consumed. The
result is `none` when the function returns `false`, else the value and the text
at `end`. -/
def xtables_strtoul (s : CStr) (end_null : Bool) (min max : Nat) : Option (Nat × CStr) :=
  if (s.dropWhile isspace).head? = some '-' then none
  else
    let r := strtoumax s
    if r.noconv then none
    else if !r.erange ∧ min ≤ r.value ∧ (max = 0 ∨ r.value ≤ max) then
      if end_null then (if r.endp = [] then some (r.value, r.endp) else none)
      else some (r.value, r.endp)
    else none

/-- `xtables_strtoui`: `xtables_strtoul` with the value stored in an
`unsigned int`. -/
def xtables_strtoui (s : CStr) (end_null : Bool) (min max : Nat) : Option (Nat × CStr) :=
  (xtables_strtoul s end_null min max).map fun r => (r.1 % 2 ^ 32, r.2)

/-- The cut `q = strchr(p, c); *q = '\0'`: the text before the first `c` and the
text after it (`q + 1`), or `none` when `c` does not occur. -/
def strchr_cut (c : Char) : CStr → Option (CStr × CStr)
  | [] => none
  | x :: xs =>
    if x = c then some ([], xs)
    else (strchr_cut c xs).map fun r => (x :: r.1, r.2)

/-- The 32-bit value whose in-memory bytes are `b0 b1 b2 b3`, on a host of the
given byte order. -/
def in_addr_of_bytes (le : Bool) (b0 b1 b2 b3 : Nat) : Nat :=
  if le then b0 + 256 * b1 + 65536 * b2 + 16777216 * b3
  else b3 + 256 * b2 + 65536 * b1 + 16777216 * b0

/-- The byte at memory offset `i` (0 to 3) of a 32-bit value. -/
def in_addr_byte (le : Bool) (a : Nat) (i : Nat) : Nat :=
  if le then a / 256 ^ i % 256 else a / 256 ^ (3 - i) % 256

/-- One component of a dotted address:
`xtables_strtoui(p, NULL, &onebyte, 0, UINT8_MAX)`. -/
def onebyte (p : CStr) : Option Nat :=
  (xtables_strtoui p true 0 255).map Prod.fst

/-- `xtables_numeric_to_ipaddr(dotted)`: the first 19 characters are copied to
a buffer, cut at up to three dots, and each component is read with
`xtables_strtoui` in [0,255]; a token with fewer than four components is
completed with zero bytes. `none` is the `NULL` result. The value is the
`s_addr` whose memory bytes are the components in order. -/
def xtables_numeric_to_ipaddr (le : Bool) (dotted : CStr) : Option Nat :=
  let buf := dotted.take 19
  match strchr_cut '.' buf with
  | none => (onebyte buf).map fun b0 => in_addr_of_bytes le b0 0 0 0
  | some (p0, q0) =>
    match onebyte p0 with
    | none => none
    | some b0 =>
      match strchr_cut '.' q0 with
      | none => (onebyte q0).map fun b1 => in_addr_of_bytes le b0 b1 0 0
      | some (p1, q1) =>
        match onebyte p1 with
        | none => none
        | some b1 =>
          match strchr_cut '.' q1 with
          | none => (onebyte q1).map fun b2 => in_addr_of_bytes le b0 b1 b2 0
          | some (p2, q2) =>
            match onebyte p2 with
            | none => none
            | some b2 => (onebyte q2).map fun b3 => in_addr_of_bytes le b0 b1 b2 b3

/-- `xtables_ipaddr_to_numeric(&a)`: `"%u.%u.%u.%u"` of the four memory bytes
of `a.s_addr`. -/
def xtables_ipaddr_to_numeric (le : Bool) (a : Nat) : CStr :=
  utoa (in_addr_byte le a 0) ++ '.' :: utoa (in_addr_byte le a 1)
    ++ '.' :: utoa (in_addr_byte le a 2) ++ '.' :: utoa (in_addr_byte le a 3)

/-- `htons`: on a little-endian host the two bytes of the 16-bit value are
swapped, on a big-endian host the value is unchanged. -/
def htons (le : Bool) (x : Nat) : Nat :=
  if le then x % 256 * 256 + x / 256 % 256 else x % 65536

/-- `ntohs`: the same byte swap as `htons`. -/
def ntohs (le : Bool) (x : Nat) : Nat :=
  if le then x % 256 * 256 + x / 256 % 256 else x % 65536

/-! ## The descriptor -/

/-- Modelled from the spec: the "map-addresses" flag bit, `NF_NAT_RANGE_MAP_IPS`
of linux/netfilter/nf_nat.h (not among the sources), with the header's value
`1 << 0`. -/
def NF_NAT_RANGE_MAP_IPS : Nat := 1

/-- Modelled from the spec: the "port-specified" flag bit,
`NF_NAT_RANGE_PROTO_SPECIFIED` of linux/netfilter/nf_nat.h (not among the
sources), with the header's value `1 << 1`. -/
def NF_NAT_RANGE_PROTO_SPECIFIED : Nat := 2

/-- Modelled from the spec: the "randomize-port" flag bit,
`NF_NAT_RANGE_PROTO_RANDOM` of linux/netfilter/nf_nat.h (not among the
sources), with the header's value `1 << 2`. -/
def NF_NAT_RANGE_PROTO_RANDOM : Nat := 4

/-- `#define NF_NAT_RANGE_PROTO_RANDOM_FULLY (1 << 4)`. -/
def NF_NAT_RANGE_PROTO_RANDOM_FULLY : Nat := 1 <<< 4

/-- `NAT_TYPE_FULL_CONE` of the anonymous enum. -/
def NAT_TYPE_FULL_CONE : Int := 0

/-- `NAT_TYPE_Address_Restricted` of the anonymous enum. -/
def NAT_TYPE_Address_Restricted : Int := 1

/-- `NAT_TYPE_Port_Restricted` of the anonymous enum. -/
def NAT_TYPE_Port_Restricted : Int := 2

/-- `struct nf_nat_ipv4_range`: the flag word, the two `__be32` addresses and
the two 16-bit port unions (`min.tcp.port`, `max.tcp.port`), each field as the
unsigned value the host reads from it. -/
structure nf_nat_ipv4_range where
  flags : Nat
  min_ip : Nat
  max_ip : Nat
  min_tcp_port : Nat
  max_tcp_port : Nat
deriving DecidableEq, Repr

/-- `struct nf_nat_ipv4_multi_range_compat_withtype`, with `range[1]` as its
single element. -/
structure nf_nat_ipv4_multi_range_compat_withtype where
  rangesize : Nat
  range : nf_nat_ipv4_range
  nattype : Int
deriving DecidableEq, Repr

/-- The zero-filled descriptor the framework allocates for a new target. -/
def zero_filled : nf_nat_ipv4_multi_range_compat_withtype :=
  ⟨0, ⟨0, 0, 0, 0, 0⟩, 0⟩

/-! ## Errors and runs -/

/-- The error reports of this target and of the option framework, one
constructor for each call that leaves the process:
* `bad_nat_type a`: `xtables_error(PARAMETER_PROBLEM, "Bad nat-type \"%s\"\n", a)`;
* `bad_ip_address a`: `xtables_error(PARAMETER_PROBLEM, "Bad IP address \"%s\"\n", a)`;
* `bad_value t o a`: `xtables_param_act(XTF_BAD_VALUE, t, o, a)`;
* `need_port_protocol`: `xtables_error(PARAMETER_PROBLEM, "Need TCP, UDP, SCTP
  or DCCP with port specification")`;
* `only_once n`, `cannot_invert n`: the two reports of `xtables_option_parse`
  for an option `n` used twice, or inverted. -/
inductive xt_error where
  | bad_nat_type (arg : CStr)
  | bad_ip_address (arg : CStr)
  | bad_value (target option arg : CStr)
  | need_port_protocol
  | only_once (name : CStr)
  | cannot_invert (name : CStr)
deriving DecidableEq, Repr

/-- Outcome of running a function over memory of type `σ`: it returns with the
memory `done s`, or it leaves the process through an error report, the memory
standing at `s` at that point. -/
inductive Run (σ : Type) where
  | done (s : σ)
  | exit (e : xt_error) (s : σ)
deriving DecidableEq, Repr

/-- Carry a run over a part of the memory to the whole. -/
def Run.lift {σ τ : Type} (f : σ → τ) : Run σ → Run τ
  | Run.done s => Run.done (f s)
  | Run.exit e s => Run.exit e (f s)

/-- Sequencing: the second function runs only when the first returned. -/
def Run.andThen {σ : Type} (r : Run σ) (f : σ → Run σ) : Run σ :=
  match r with
  | Run.done s => f s
  | Run.exit e s => Run.exit e s

/-- The run returned. -/
def Run.isDone {σ : Type} : Run σ → Bool
  | Run.done _ => true
  | Run.exit _ _ => false

/-! ## The option table and the option call -/

/-- The option types used by the table: `XTTYPE_NONE`, `XTTYPE_STRING`. -/
inductive xt_option_type where
  | XTTYPE_NONE
  | XTTYPE_STRING
deriving DecidableEq, Repr

/-- `struct xt_option_entry`, with the fields the table sets. -/
structure xt_option_entry where
  name : CStr
  id : Nat
  type : xt_option_type
deriving DecidableEq, Repr

/-- `O_TO_PORTS = 0`. -/
def O_TO_PORTS : Nat := 0

/-- `O_RANDOM`. -/
def O_RANDOM : Nat := 1

/-- `O_RANDOM_FULLY`. -/
def O_RANDOM_FULLY : Nat := 2

/-- `O_TO_SRC`. -/
def O_TO_SRC : Nat := 3

/-- `O_NAT_TYPE`. -/
def O_NAT_TYPE : Nat := 4

/-- The entry `{.name = "to-ports", .id = O_TO_PORTS, .type = XTTYPE_STRING}`. -/
def opt_to_ports : xt_option_entry :=
  ⟨"to-ports".toList, O_TO_PORTS, xt_option_type.XTTYPE_STRING⟩

/-- The entry `{.name = "random", .id = O_RANDOM, .type = XTTYPE_NONE}`. -/
def opt_random : xt_option_entry :=
  ⟨"random".toList, O_RANDOM, xt_option_type.XTTYPE_NONE⟩

/-- The entry `{.name = "random-fully", .id = O_RANDOM_FULLY, .type = XTTYPE_NONE}`. -/
def opt_random_fully : xt_option_entry :=
  ⟨"random-fully".toList, O_RANDOM_FULLY, xt_option_type.XTTYPE_NONE⟩

/-- The entry `{.name = "to-source", .id = O_TO_SRC, .type = XTTYPE_STRING}`. -/
def opt_to_source : xt_option_entry :=
  ⟨"to-source".toList, O_TO_SRC, xt_option_type.XTTYPE_STRING⟩

/-- The entry `{.name = "nat-type", .id = O_NAT_TYPE, .type = XTTYPE_STRING}`. -/
def opt_nat_type : xt_option_entry :=
  ⟨"nat-type".toList, O_NAT_TYPE, xt_option_type.XTTYPE_STRING⟩

/-- The table `FULLCONENAT_opts` (without its end marker). -/
def FULLCONENAT_opts : List xt_option_entry :=
  [opt_to_ports, opt_random, opt_random_fully, opt_to_source, opt_nat_type]

/-- `struct xt_option_call`, with the fields this target and
`xtables_option_parse` read or write: the table entry of the option, its
argument, whether it was inverted, the framework's mask of the options already
used, the protocol of the rule (`xt_entry->ip.proto`) and the descriptor
(`data`). -/
structure xt_option_call where
  entry : xt_option_entry
  arg : CStr
  invert : Bool
  xflags : Nat
  proto : Nat
  data : nf_nat_ipv4_multi_range_compat_withtype
deriving DecidableEq, Repr

/-- `xtables_option_parse(cb)` for an entry of this table (no `XTOPT_MULTI`, no
`XTOPT_INVERT`, no exclusions, no `XTOPT_PUT`): a second use of the option and
an inverted option are reported; otherwise the option's bit is added to
`xflags`. The descriptor is not touched. -/
def xtables_option_parse (cb : xt_option_call) : Run xt_option_call :=
  if cb.xflags &&& (1 <<< cb.entry.id) ≠ 0 then Run.exit (xt_error.only_once cb.entry.name) cb
  else if cb.invert then Run.exit (xt_error.cannot_invert cb.entry.name) cb
  else Run.done { cb with xflags := cb.xflags ||| (1 <<< cb.entry.id) }

/-! ## The target: validators, initializer, dispatcher -/

/-- `parse_nat_type`. -/
def parse_nat_type (orig_arg : CStr) (mr : nf_nat_ipv4_multi_range_compat_withtype) :
    Run nf_nat_ipv4_multi_range_compat_withtype :=
  if orig_arg = "fc".toList then Run.done { mr with nattype := NAT_TYPE_FULL_CONE }
  else if orig_arg = "ar".toList then Run.done { mr with nattype := NAT_TYPE_Address_Restricted }
  else if orig_arg = "pr".toList then Run.done { mr with nattype := NAT_TYPE_Port_Restricted }
  else Run.exit (xt_error.bad_nat_type orig_arg) mr

/-- `parse_to`. The duplicate made by `strdup` is taken to be allocated. -/
def parse_to (le : Bool) (orig_arg : CStr) (mr : nf_nat_ipv4_multi_range_compat_withtype) :
    Run nf_nat_ipv4_multi_range_compat_withtype :=
  let mr1 := { mr with range := { mr.range with flags := mr.range.flags ||| NF_NAT_RANGE_MAP_IPS } }
  match strchr_cut '-' orig_arg with
  | none =>
    match xtables_numeric_to_ipaddr le orig_arg with
    | none => Run.exit (xt_error.bad_ip_address orig_arg) mr1
    | some ip => Run.done { mr1 with range := { mr1.range with min_ip := ip, max_ip := ip } }
  | some (arg, dash1) =>
    match xtables_numeric_to_ipaddr le arg with
    | none => Run.exit (xt_error.bad_ip_address arg) mr1
    | some ip =>
      let mr2 := { mr1 with range := { mr1.range with min_ip := ip } }
      match xtables_numeric_to_ipaddr le dash1 with
      | none => Run.exit (xt_error.bad_ip_address dash1) mr2
      | some ip2 => Run.done { mr2 with range := { mr2.range with max_ip := ip2 } }

/-- `FULLCONENAT_init`. -/
def FULLCONENAT_init (mr : nf_nat_ipv4_multi_range_compat_withtype) :
    nf_nat_ipv4_multi_range_compat_withtype :=
  { mr with rangesize := 1 }

/-- The report `xtables_param_act(XTF_BAD_VALUE, "FULLCONENAT", "--to-ports", arg)`. -/
def bad_to_ports (arg : CStr) : xt_error :=
  xt_error.bad_value "FULLCONENAT".toList "--to-ports".toList arg

/-- `parse_ports`. -/
def parse_ports (le : Bool) (arg : CStr) (mr : nf_nat_ipv4_multi_range_compat_withtype) :
    Run nf_nat_ipv4_multi_range_compat_withtype :=
  let mr1 := { mr with range := { mr.range with flags := mr.range.flags ||| NF_NAT_RANGE_PROTO_SPECIFIED } }
  match xtables_strtoui arg false 0 65535 with
  | none => Run.exit (bad_to_ports arg) mr1
  | some (port, e) =>
    match e with
    | [] =>
      Run.done { mr1 with range := { mr1.range with min_tcp_port := htons le port, max_tcp_port := htons le port } }
    | '-' :: e1 =>
      match xtables_strtoui e1 true 0 65535 with
      | none => Run.exit (bad_to_ports arg) mr1
      | some (maxport, _) =>
        if maxport < port then Run.exit (bad_to_ports arg) mr1
        else
          Run.done { mr1 with range := { mr1.range with min_tcp_port := htons le port, max_tcp_port := htons le maxport } }
    | _ :: _ => Run.exit (bad_to_ports arg) mr1

/-- `IPPROTO_ICMP`. -/
def IPPROTO_ICMP : Nat := 1

/-- `IPPROTO_TCP`. -/
def IPPROTO_TCP : Nat := 6

/-- `IPPROTO_UDP`. -/
def IPPROTO_UDP : Nat := 17

/-- `IPPROTO_DCCP`. -/
def IPPROTO_DCCP : Nat := 33

/-- `IPPROTO_SCTP`. -/
def IPPROTO_SCTP : Nat := 132

/-- The local `portok` of `FULLCONENAT_parse`. -/
def portok (proto : Nat) : Bool :=
  proto = IPPROTO_TCP ∨ proto = IPPROTO_UDP ∨ proto = IPPROTO_SCTP ∨ proto = IPPROTO_DCCP
    ∨ proto = IPPROTO_ICMP

/-- Store a descriptor in the call's `data`. -/
def xt_option_call.withData (cb : xt_option_call) (mr : nf_nat_ipv4_multi_range_compat_withtype) :
    xt_option_call :=
  { cb with data := mr }

/-- `FULLCONENAT_parse`. -/
def FULLCONENAT_parse (le : Bool) (cb0 : xt_option_call) : Run xt_option_call :=
  match xtables_option_parse cb0 with
  | Run.exit e cb => Run.exit e cb
  | Run.done cb =>
    if cb.entry.id = O_TO_PORTS then
      if !portok cb.proto then Run.exit xt_error.need_port_protocol cb
      else (parse_ports le cb.arg cb.data).lift cb.withData
    else if cb.entry.id = O_TO_SRC then (parse_to le cb.arg cb.data).lift cb.withData
    else if cb.entry.id = O_NAT_TYPE then (parse_nat_type cb.arg cb.data).lift cb.withData
    else if cb.entry.id = O_RANDOM then
      Run.done (cb.withData { cb.data with range := { cb.data.range with flags := cb.data.range.flags ||| NF_NAT_RANGE_PROTO_RANDOM } })
    else if cb.entry.id = O_RANDOM_FULLY then
      Run.done (cb.withData { cb.data with range := { cb.data.range with flags := cb.data.range.flags ||| NF_NAT_RANGE_PROTO_RANDOM_FULLY } })
    else Run.done cb

/-! ## The renderers -/

/-- `FULLCONENAT_print`: the characters written to the output. -/
def FULLCONENAT_print (le : Bool) (mr : nf_nat_ipv4_multi_range_compat_withtype) : CStr :=
  (if mr.range.flags &&& NF_NAT_RANGE_MAP_IPS ≠ 0 then
      " to:".toList ++ xtables_ipaddr_to_numeric le mr.range.min_ip
        ++ (if mr.range.max_ip ≠ mr.range.min_ip then
              '-' :: xtables_ipaddr_to_numeric le mr.range.max_ip
            else [])
    else [])
  ++ (if mr.range.flags &&& NF_NAT_RANGE_PROTO_SPECIFIED ≠ 0 then
      " masq ports: ".toList ++ utoa (ntohs le mr.range.min_tcp_port)
        ++ (if mr.range.max_tcp_port ≠ mr.range.min_tcp_port then
              '-' :: utoa (ntohs le mr.range.max_tcp_port)
            else [])
    else [])
  ++ (if mr.range.flags &&& NF_NAT_RANGE_PROTO_RANDOM ≠ 0 then " random".toList else [])
  ++ (if mr.range.flags &&& NF_NAT_RANGE_PROTO_RANDOM_FULLY ≠ 0 then " random-fully".toList else [])
  ++ (if mr.nattype = NAT_TYPE_FULL_CONE then " full-cone".toList
      else if mr.nattype = NAT_TYPE_Address_Restricted then " address-restricted".toList
      else if mr.nattype = NAT_TYPE_Port_Restricted then " port-restricted".toList
      else [])

/-- `FULLCONENAT_save`: the characters written to the output. -/
def FULLCONENAT_save (le : Bool) (mr : nf_nat_ipv4_multi_range_compat_withtype) : CStr :=
  (if mr.range.flags &&& NF_NAT_RANGE_MAP_IPS ≠ 0 then
      " --to-source ".toList ++ xtables_ipaddr_to_numeric le mr.range.min_ip
        ++ (if mr.range.max_ip ≠ mr.range.min_ip then
              '-' :: xtables_ipaddr_to_numeric le mr.range.max_ip
            else [])
    else [])
  ++ (if mr.range.flags &&& NF_NAT_RANGE_PROTO_SPECIFIED ≠ 0 then
      " --to-ports ".toList ++ utoa (ntohs le mr.range.min_tcp_port)
        ++ (if mr.range.max_tcp_port ≠ mr.range.min_tcp_port then
              '-' :: utoa (ntohs le mr.range.max_tcp_port)
            else [])
    else [])
  ++ (if mr.range.flags &&& NF_NAT_RANGE_PROTO_RANDOM ≠ 0 then " --random".toList else [])
  ++ (if mr.range.flags &&& NF_NAT_RANGE_PROTO_RANDOM_FULLY ≠ 0 then " --random-fully".toList else [])
  ++ (if mr.nattype = NAT_TYPE_FULL_CONE then " full-cone".toList
      else if mr.nattype = NAT_TYPE_Address_Restricted then " address-restricted".toList
      else if mr.nattype = NAT_TYPE_Port_Restricted then " port-restricted".toList
      else [])

/-! ## The framework around the target: option sequences -/

/-- One option as given for a rule: its table entry, its argument (unused for
`XTTYPE_NONE`) and whether it was inverted. -/
structure option_use where
  entry : xt_option_entry
  arg : CStr
  invert : Bool
deriving DecidableEq, Repr

/-- The state the framework keeps for the target while a rule is read: the mask
of options used so far (`tflags`) and the descriptor. -/
structure target_state where
  tflags : Nat
  data : nf_nat_ipv4_multi_range_compat_withtype
deriving DecidableEq, Repr

/-- The state at the start of a rule: no option used, the zero-filled
descriptor after `FULLCONENAT_init`. -/
def initial_state : target_state :=
  ⟨0, FULLCONENAT_init zero_filled⟩

/-- The framework's call of the target's parser for one option
(`xtables_option_tpcall`): the call structure is filled from the state and the
option, `FULLCONENAT_parse` runs, `xflags` is copied back. -/
def xtables_option_tpcall (le : Bool) (proto : Nat) (u : option_use) (st : target_state) :
    Run target_state :=
  (FULLCONENAT_parse le ⟨u.entry, u.arg, u.invert, st.tflags, proto, st.data⟩).lift
    fun cb => ⟨cb.xflags, cb.data⟩

/-- The options of a rule, applied in command-line order; the first error
report ends the run. -/
def apply_options (le : Bool) (proto : Nat) : List option_use → target_state → Run target_state
  | [], st => Run.done st
  | u :: us, st => (xtables_option_tpcall le proto u st).andThen (apply_options le proto us)

/-! ## The parts of the renderers' output

Each renderer writes five parts in sequence; they are named here so that
statements can speak of one part. `FULLCONENAT_print_parts` and
`FULLCONENAT_save_parts` below state that the output is their concatenation. -/

/-- What `FULLCONENAT_print` writes for the address range. -/
def print_ips (le : Bool) (mr : nf_nat_ipv4_multi_range_compat_withtype) : CStr :=
  if mr.range.flags &&& NF_NAT_RANGE_MAP_IPS ≠ 0 then
    " to:".toList ++ xtables_ipaddr_to_numeric le mr.range.min_ip
      ++ (if mr.range.max_ip ≠ mr.range.min_ip then
            '-' :: xtables_ipaddr_to_numeric le mr.range.max_ip
          else [])
  else []

/-- What `FULLCONENAT_save` writes for the address range. -/
def save_ips (le : Bool) (mr : nf_nat_ipv4_multi_range_compat_withtype) : CStr :=
  if mr.range.flags &&& NF_NAT_RANGE_MAP_IPS ≠ 0 then
    " --to-source ".toList ++ xtables_ipaddr_to_numeric le mr.range.min_ip
      ++ (if mr.range.max_ip ≠ mr.range.min_ip then
            '-' :: xtables_ipaddr_to_numeric le mr.range.max_ip
          else [])
  else []

/-- What `FULLCONENAT_print` writes for the port range. -/
def print_ports (le : Bool) (mr : nf_nat_ipv4_multi_range_compat_withtype) : CStr :=
  if mr.range.flags &&& NF_NAT_RANGE_PROTO_SPECIFIED ≠ 0 then
    " masq ports: ".toList ++ utoa (ntohs le mr.range.min_tcp_port)
      ++ (if mr.range.max_tcp_port ≠ mr.range.min_tcp_port then
            '-' :: utoa (ntohs le mr.range.max_tcp_port)
          else [])
  else []

/-- What `FULLCONENAT_save` writes for the port range. -/
def save_ports (le : Bool) (mr : nf_nat_ipv4_multi_range_compat_withtype) : CStr :=
  if mr.range.flags &&& NF_NAT_RANGE_PROTO_SPECIFIED ≠ 0 then
    " --to-ports ".toList ++ utoa (ntohs le mr.range.min_tcp_port)
      ++ (if mr.range.max_tcp_port ≠ mr.range.min_tcp_port then
            '-' :: utoa (ntohs le mr.range.max_tcp_port)
          else [])
  else []

/-- What `FULLCONENAT_print` writes for the two randomization flags. -/
def print_random (mr : nf_nat_ipv4_multi_range_compat_withtype) : CStr :=
  (if mr.range.flags &&& NF_NAT_RANGE_PROTO_RANDOM ≠ 0 then " random".toList else [])
  ++ (if mr.range.flags &&& NF_NAT_RANGE_PROTO_RANDOM_FULLY ≠ 0 then " random-fully".toList else [])

/-- What `FULLCONENAT_save` writes for the two randomization flags. -/
def save_random (mr : nf_nat_ipv4_multi_range_compat_withtype) : CStr :=
  (if mr.range.flags &&& NF_NAT_RANGE_PROTO_RANDOM ≠ 0 then " --random".toList else [])
  ++ (if mr.range.flags &&& NF_NAT_RANGE_PROTO_RANDOM_FULLY ≠ 0 then " --random-fully".toList else [])

/-- What the `switch (mr->nattype)` of either renderer writes. -/
def nattype_text (nattype : Int) : CStr :=
  if nattype = NAT_TYPE_FULL_CONE then " full-cone".toList
  else if nattype = NAT_TYPE_Address_Restricted then " address-restricted".toList
  else if nattype = NAT_TYPE_Port_Restricted then " port-restricted".toList
  else []

/-- The port token of the specification: `p-q` for `p < q`, the single-port
form `p` otherwise. -/
def port_token (p q : Nat) : CStr :=
  if p < q then utoa p ++ '-' :: utoa q else utoa p

/-- The descriptor `mr` with the port-specified flag added and the two ports
`p`, `q` stored in network byte order. -/
def with_ports (le : Bool) (mr : nf_nat_ipv4_multi_range_compat_withtype) (p q : Nat) :
    nf_nat_ipv4_multi_range_compat_withtype :=
  { mr with range := { mr.range with
      flags := mr.range.flags ||| NF_NAT_RANGE_PROTO_SPECIFIED,
      min_tcp_port := htons le p, max_tcp_port := htons le q } }

/-- The descriptor `mr` with the map-addresses flag added and the two addresses
`a`, `b` stored. -/
def with_ips (mr : nf_nat_ipv4_multi_range_compat_withtype) (a b : Nat) :
    nf_nat_ipv4_multi_range_compat_withtype :=
  { mr with range := { mr.range with
      flags := mr.range.flags ||| NF_NAT_RANGE_MAP_IPS, min_ip := a, max_ip := b } }

/-- The descriptor `mr` with one flag bit added and nothing else changed. -/
def with_flag (mr : nf_nat_ipv4_multi_range_compat_withtype) (bit : Nat) :
    nf_nat_ipv4_multi_range_compat_withtype :=
  { mr with range := { mr.range with flags := mr.range.flags ||| bit } }

/-- The text after a number: the end of the string, or a character that is no
digit in any base. -/
def ends_number (rest : CStr) : Prop :=
  rest = [] ∨ ∃ c t, rest = c :: t ∧ digit_value c = none

/-! ## Words of an output text -/

/-- Close the word being collected: it joins the list unless it is empty. -/
def push_word (cur : CStr) (ws : List CStr) : List CStr :=
  if cur = [] then ws else cur :: ws

/-- Scan of a text from its end: the word that reaches the start of the text
(empty when the text starts with a space) and the words after it. -/
def words_state : CStr → CStr × List CStr
  | [] => ([], [])
  | c :: cs =>
    if c = ' ' then ([], push_word (words_state cs).1 (words_state cs).2)
    else (c :: (words_state cs).1, (words_state cs).2)

/-- The words (tokens) of a text: its maximal runs of characters other than the
space, in order. -/
def words (s : CStr) : List CStr :=
  push_word (words_state s).1 (words_state s).2

/-- The three NAT-class tokens of the renderers. -/
def is_class_token (w : CStr) : Bool :=
  w = "full-cone".toList ∨ w = "address-restricted".toList ∨ w = "port-restricted".toList

/-- The token that names a class value: `full-cone` for 0, `address-restricted`
for 1, `port-restricted` for 2. -/
def class_token (nattype : Int) : CStr :=
  if nattype = NAT_TYPE_FULL_CONE then "full-cone".toList
  else if nattype = NAT_TYPE_Address_Restricted then "address-restricted".toList
  else "port-restricted".toList

/-- A text that is empty or starts with a space: a word ends before it. -/
def at_boundary (rest : CStr) : Prop :=
  rest = [] ∨ ∃ t, rest = ' ' :: t

/-- The canonical dotted-decimal token of the address with bytes `b0 b1 b2 b3`,
as `xtables_ipaddr_to_numeric` writes it. -/
def dotted (b0 b1 b2 b3 : Nat) : CStr :=
  utoa b0 ++ '.' :: utoa b1 ++ '.' :: utoa b2 ++ '.' :: utoa b3

/-- The address token either renderer writes after its label: the minimum,
and `-` and the maximum when the two differ. -/
def ips_token (le : Bool) (mr : nf_nat_ipv4_multi_range_compat_withtype) : CStr :=
  xtables_ipaddr_to_numeric le mr.range.min_ip
    ++ (if mr.range.max_ip ≠ mr.range.min_ip then
          '-' :: xtables_ipaddr_to_numeric le mr.range.max_ip
        else [])

/-- The port token either renderer writes after its label. -/
def ports_token (le : Bool) (mr : nf_nat_ipv4_multi_range_compat_withtype) : CStr :=
  utoa (ntohs le mr.range.min_tcp_port)
    ++ (if mr.range.max_tcp_port ≠ mr.range.min_tcp_port then
          '-' :: utoa (ntohs le mr.range.max_tcp_port)
        else [])

/-- The words `FULLCONENAT_print` writes before the class token. -/
def print_words (le : Bool) (mr : nf_nat_ipv4_multi_range_compat_withtype) : List CStr :=
  (if mr.range.flags &&& NF_NAT_RANGE_MAP_IPS ≠ 0 then ["to:".toList ++ ips_token le mr] else [])
  ++ (if mr.range.flags &&& NF_NAT_RANGE_PROTO_SPECIFIED ≠ 0 then
        ["masq".toList, "ports:".toList, ports_token le mr] else [])
  ++ (if mr.range.flags &&& NF_NAT_RANGE_PROTO_RANDOM ≠ 0 then ["random".toList] else [])
  ++ (if mr.range.flags &&& NF_NAT_RANGE_PROTO_RANDOM_FULLY ≠ 0 then ["random-fully".toList] else [])

/-- The words `FULLCONENAT_save` writes before the class token. -/
def save_words (le : Bool) (mr : nf_nat_ipv4_multi_range_compat_withtype) : List CStr :=
  (if mr.range.flags &&& NF_NAT_RANGE_MAP_IPS ≠ 0 then ["--to-source".toList, ips_token le mr] else [])
  ++ (if mr.range.flags &&& NF_NAT_RANGE_PROTO_SPECIFIED ≠ 0 then
        ["--to-ports".toList, ports_token le mr] else [])
  ++ (if mr.range.flags &&& NF_NAT_RANGE_PROTO_RANDOM ≠ 0 then ["--random".toList] else [])
  ++ (if mr.range.flags &&& NF_NAT_RANGE_PROTO_RANDOM_FULLY ≠ 0 then ["--random-fully".toList] else [])

/-! ## Reading a saved rule back -/

/-- The table entry named by an option word `--name`, if any. -/
def find_option (w : CStr) : Option xt_option_entry :=
  FULLCONENAT_opts.find? fun e => w = '-' :: '-' :: e.name

/-- The words of a saved rule read back as options of this target: a word
`--name` with `name` in `FULLCONENAT_opts` is that option and, when its type is
`XTTYPE_STRING`, takes the next word as its argument; a word in option position
that names no option of the table cannot be read (`none`). -/
def read_options : List CStr → Option (List option_use)
  | [] => some []
  | [w] =>
    match find_option w with
    | none => none
    | some e =>
      if e.type = xt_option_type.XTTYPE_NONE then some [⟨e, [], false⟩] else none
  | w :: a :: ws =>
    match find_option w with
    | none => none
    | some e =>
      if e.type = xt_option_type.XTTYPE_NONE then
        (read_options (a :: ws)).map fun us => ⟨e, [], false⟩ :: us
      else (read_options ws).map fun us => ⟨e, a, false⟩ :: us

/-! ## The verdict of each validator on its argument alone

Whether a validator accepts its argument, and what it then stores, does not
depend on the descriptor it is given. The functions below compute that verdict;
`parse_ports_eq`, `parse_to_eq` and `parse_nat_type_eq` relate them to the
validators. -/

/-- The two ports `parse_ports` stores for an argument (in host order), or
`none` when it rejects the argument. -/
def ports_of_arg (arg : CStr) : Option (Nat × Nat) :=
  match xtables_strtoui arg false 0 65535 with
  | none => none
  | some (port, e) =>
    match e with
    | [] => some (port, port)
    | '-' :: e1 =>
      match xtables_strtoui e1 true 0 65535 with
      | none => none
      | some (maxport, _) => if maxport < port then none else some (port, maxport)
    | _ :: _ => none

/-- The two addresses `parse_to` stores for an argument, or `none` when it
rejects the argument. -/
def ips_of_arg (le : Bool) (arg : CStr) : Option (Nat × Nat) :=
  match strchr_cut '-' arg with
  | none => (xtables_numeric_to_ipaddr le arg).map fun ip => (ip, ip)
  | some (a, dash1) =>
    match xtables_numeric_to_ipaddr le a with
    | none => none
    | some ip => (xtables_numeric_to_ipaddr le dash1).map fun ip2 => (ip, ip2)

/-- The class value `parse_nat_type` stores for an argument, or `none` when it
rejects the argument. -/
def nattype_of_arg (arg : CStr) : Option Int :=
  if arg = "fc".toList then some NAT_TYPE_FULL_CONE
  else if arg = "ar".toList then some NAT_TYPE_Address_Restricted
  else if arg = "pr".toList then some NAT_TYPE_Port_Restricted
  else none

/-- The descriptor `mr` with the class value `n` stored and nothing else
changed. -/
def with_nattype (mr : nf_nat_ipv4_multi_range_compat_withtype) (n : Int) :
    nf_nat_ipv4_multi_range_compat_withtype :=
  { mr with nattype := n }

/-- The flag bit that belongs to an option: map-addresses for to-source,
port-specified for to-ports, the two randomize bits for random and
random-fully, none for nat-type (and for an identifier outside the table). -/
def own_bit (id : Nat) : Nat :=
  if id = O_TO_PORTS then NF_NAT_RANGE_PROTO_SPECIFIED
  else if id = O_TO_SRC then NF_NAT_RANGE_MAP_IPS
  else if id = O_NAT_TYPE then 0
  else if id = O_RANDOM then NF_NAT_RANGE_PROTO_RANDOM
  else if id = O_RANDOM_FULLY then NF_NAT_RANGE_PROTO_RANDOM_FULLY
  else 0

/-- What an option with identifier `id` and argument `arg` does to the
descriptor when the switch of `FULLCONENAT_parse` accepts it on a rule of
protocol `proto`, or `none` when the switch ends in an error report. -/
def option_effect (le : Bool) (proto id : Nat) (arg : CStr) :
    Option (nf_nat_ipv4_multi_range_compat_withtype → nf_nat_ipv4_multi_range_compat_withtype) :=
  if id = O_TO_PORTS then
    if portok proto then (ports_of_arg arg).map fun pq mr => with_ports le mr pq.1 pq.2
    else none
  else if id = O_TO_SRC then (ips_of_arg le arg).map fun ab mr => with_ips mr ab.1 ab.2
  else if id = O_NAT_TYPE then (nattype_of_arg arg).map fun n mr => with_nattype mr n
  else if id = O_RANDOM then some fun mr => with_flag mr NF_NAT_RANGE_PROTO_RANDOM
  else if id = O_RANDOM_FULLY then some fun mr => with_flag mr NF_NAT_RANGE_PROTO_RANDOM_FULLY
  else some fun mr => mr

/-- The descriptor `mr` with a flag bit added and, where given, the two
addresses, the two ports (as stored) and the class value replaced: the general
shape of what one option does to the descriptor. -/
def descr_update (mr : nf_nat_ipv4_multi_range_compat_withtype) (bit : Nat)
    (ips ports : Option (Nat × Nat)) (nt : Option Int) :
    nf_nat_ipv4_multi_range_compat_withtype :=
  ⟨mr.rangesize,
    ⟨mr.range.flags ||| bit,
      (ips.getD (mr.range.min_ip, mr.range.max_ip)).1,
      (ips.getD (mr.range.min_ip, mr.range.max_ip)).2,
      (ports.getD (mr.range.min_tcp_port, mr.range.max_tcp_port)).1,
      (ports.getD (mr.range.min_tcp_port, mr.range.max_tcp_port)).2⟩,
    nt.getD mr.nattype⟩

/-- `ntohl` of an address field: the number its four memory bytes spell in
network order, by which addresses are ordered. -/
def ntohl (le : Bool) (a : Nat) : Nat :=
  in_addr_of_bytes false (in_addr_byte le a 0) (in_addr_byte le a 1) (in_addr_byte le a 2)
    (in_addr_byte le a 3)

/-- The two memory bytes of a 16-bit value, in address order, on a host of the
given byte order. -/
def u16_bytes (le : Bool) (v : Nat) : Nat × Nat :=
  if le then (v % 256, v / 256 % 256) else (v / 256 % 256, v % 256)

/-! ## Decimal text: what `%u` writes, `strtoumax` reads back -/

theorem digit_value_digitChar (d : Nat) (h : d < 10) : digit_value (Nat.digitChar d) = some d := by
  interval_cases d <;> decide

theorem isspace_digitChar (d : Nat) (h : d < 10) : isspace (Nat.digitChar d) = false := by
  interval_cases d <;> decide

theorem digitChar_ne_sign (d : Nat) (h : d < 10) :
    Nat.digitChar d ≠ '-' ∧ Nat.digitChar d ≠ '+' ∧ Nat.digitChar d ≠ '.' ∧ Nat.digitChar d ≠ ' ' := by
  interval_cases d <;> decide

theorem digitChar_ne_zero (d : Nat) (h0 : 0 < d) (h : d < 10) : Nat.digitChar d ≠ '0' := by
  interval_cases d <;> decide

theorem scan_digits_toDigitsCore (fuel : Nat) :
    ∀ (n : Nat) (ds rest : CStr), n < fuel →
      scan_digits 10 (Nat.toDigitsCore 10 fuel n ds ++ rest) 0 false
        = scan_digits 10 (ds ++ rest) n true := by
  induction fuel with
  | zero => intro n ds rest h; omega
  | succ fuel ih =>
    intro n ds rest h
    unfold Nat.toDigitsCore
    by_cases h0 : n / 10 = 0
    · have hn : n < 10 := by omega
      have hm : n % 10 = n := Nat.mod_eq_of_lt hn
      simp [h0, hm, scan_digits, digit_value_digitChar n hn, hn]
    · have hlt : n / 10 < fuel := by omega
      have hd : n % 10 < 10 := Nat.mod_lt _ (by norm_num)
      simp only [h0, if_false]
      rw [ih (n / 10) _ rest hlt]
      simp only [List.cons_append, scan_digits, digit_value_digitChar _ hd, hd, if_true]
      rw [Nat.div_add_mod' n 10]
      rfl

theorem scan_digits_stop (base acc : Nat) (any : Bool) (rest : CStr) (h : ends_number rest) :
    scan_digits base rest acc any = (acc, any, rest) := by
  rcases h with h | ⟨c, t, h, hc⟩
  · subst h; rfl
  · subst h; simp [scan_digits, hc]

theorem scan_digits_utoa (n : Nat) (rest : CStr) (h : ends_number rest) :
    scan_digits 10 (utoa n ++ rest) 0 false = (n, true, rest) := by
  unfold utoa Nat.toDigits
  rw [scan_digits_toDigitsCore (n + 1) n [] rest (by omega)]
  simpa using scan_digits_stop 10 n true rest h

theorem toDigitsCore_head (fuel : Nat) :
    ∀ (n : Nat) (ds : CStr), n < fuel → 0 < n →
      ∃ d t, 0 < d ∧ d < 10 ∧ Nat.toDigitsCore 10 fuel n ds = Nat.digitChar d :: t := by
  induction fuel with
  | zero => intro n ds h; omega
  | succ fuel ih =>
    intro n ds h hpos
    unfold Nat.toDigitsCore
    by_cases h0 : n / 10 = 0
    · have hn : n < 10 := by omega
      have hm : n % 10 = n := Nat.mod_eq_of_lt hn
      exact ⟨n, ds, hpos, hn, by simp [h0, hm]⟩
    · have hlt : n / 10 < fuel := by omega
      obtain ⟨d, t, hd0, hd, he⟩ := ih (n / 10) (Nat.digitChar (n % 10) :: ds) hlt (by omega)
      exact ⟨d, t, hd0, hd, by simp [h0, he]⟩

theorem utoa_head (n : Nat) (hpos : 0 < n) :
    ∃ d t, 0 < d ∧ d < 10 ∧ utoa n = Nat.digitChar d :: t :=
  toDigitsCore_head (n + 1) n [] (by omega) hpos

theorem utoa_zero : utoa 0 = ['0'] := by decide

theorem digit_value_ne_x (c : Char) (h : digit_value c = none) : c ≠ 'x' ∧ c ≠ 'X' := by
  constructor <;> (rintro rfl; revert h; decide)

theorem strtoumax_utoa (n : Nat) (rest : CStr) (h : ends_number rest) :
    strtoumax (utoa n ++ rest)
      = if UINTMAX_MAX < n then ⟨UINTMAX_MAX, rest, false, true⟩ else ⟨n, rest, false, false⟩ := by
  have hscan := scan_digits_utoa n rest h
  rcases Nat.eq_zero_or_pos n with h0 | hpos
  · subst h0
    rw [utoa_zero]
    rcases h with h | ⟨c, t, h, hc⟩
    · subst h; decide
    · subst h
      obtain ⟨hx, hX⟩ := digit_value_ne_x c hc
      have h8 : scan_digits 8 ('0' :: c :: t) 0 false = (0, true, c :: t) := by
        have hz : digit_value '0' = some 0 := by decide
        simp [scan_digits, hc, hz]
      simp [strtoumax, strtoumax_sign, strtoumax_body, strtoumax_conv, isspace, hx, hX, h8,
        UINTMAX_MAX]
  · obtain ⟨d, t, hd0, hd, he⟩ := utoa_head n hpos
    rw [he] at hscan ⊢
    by_cases hn : UINTMAX_MAX < n <;>
    interval_cases d <;>
      simp [strtoumax, strtoumax_sign, strtoumax_body, strtoumax_conv, isspace, Nat.digitChar,
        hn] at hscan ⊢ <;> simp [hscan, hn]

theorem utoa_head_digit (n : Nat) : ∃ d t, d < 10 ∧ utoa n = Nat.digitChar d :: t := by
  rcases Nat.eq_zero_or_pos n with h0 | hpos
  · exact ⟨0, [], by norm_num, by subst h0; decide⟩
  · obtain ⟨d, t, _, hd, he⟩ := utoa_head n hpos
    exact ⟨d, t, hd, he⟩

theorem dropWhile_isspace_utoa (n : Nat) (rest : CStr) :
    (utoa n ++ rest).dropWhile isspace = utoa n ++ rest := by
  obtain ⟨d, t, hd, he⟩ := utoa_head_digit n
  rw [he]
  simp [List.dropWhile, isspace_digitChar d hd]

theorem head_utoa_ne_minus (n : Nat) (rest : CStr) :
    ((utoa n ++ rest).dropWhile isspace).head? ≠ some '-' := by
  rw [dropWhile_isspace_utoa]
  obtain ⟨d, t, hd, he⟩ := utoa_head_digit n
  rw [he]
  simpa using (digitChar_ne_sign d hd).1

/-- Reading back a decimal number with `xtables_strtoui` between 0 and a
positive `max`: the number itself when it is at most `max` (and, for a `NULL`
end pointer, nothing follows it), a failure otherwise. -/
theorem xtables_strtoui_utoa (n : Nat) (rest : CStr) (h : ends_number rest) (end_null : Bool)
    (max : Nat) (hmax : 0 < max) (hmax32 : max < 2 ^ 32) :
    xtables_strtoui (utoa n ++ rest) end_null 0 max
      = if n ≤ max ∧ (end_null = true → rest = []) then some (n, rest) else none := by
  have hm : max ≠ 0 := by omega
  unfold xtables_strtoui xtables_strtoul
  rw [if_neg (head_utoa_ne_minus n rest), strtoumax_utoa n rest h]
  by_cases hn : UINTMAX_MAX < n
  · have : ¬ n ≤ max := by unfold UINTMAX_MAX at hn; omega
    simp [hn, this]
  · by_cases hle : n ≤ max
    · have h32 : n % 2 ^ 32 = n := Nat.mod_eq_of_lt (by omega)
      have h32' : n < 4294967296 := by omega
      cases end_null <;> by_cases hr : rest = [] <;> simp [hn, hle, hm, hr, h32']
    · simp [hn, hle, hm]

/-! ## Flag bits -/

theorem and_two_pow_ne_zero (f i : Nat) : f &&& 2 ^ i ≠ 0 ↔ f.testBit i = true := by
  rw [Nat.and_two_pow]
  cases f.testBit i <;> simp

theorem or_two_pow_and_same (f i : Nat) : (f ||| 2 ^ i) &&& 2 ^ i ≠ 0 := by
  rw [and_two_pow_ne_zero, Nat.testBit_or, Nat.testBit_two_pow_self, Bool.or_true]

theorem or_two_pow_and_other (f i j : Nat) (h : i ≠ j) : (f ||| 2 ^ i) &&& 2 ^ j = f &&& 2 ^ j := by
  rw [Nat.and_two_pow, Nat.and_two_pow, Nat.testBit_or, Nat.testBit_two_pow]
  simp [h]

theorem flag_consts :
    NF_NAT_RANGE_MAP_IPS = 2 ^ 0 ∧ NF_NAT_RANGE_PROTO_SPECIFIED = 2 ^ 1
      ∧ NF_NAT_RANGE_PROTO_RANDOM = 2 ^ 2 ∧ NF_NAT_RANGE_PROTO_RANDOM_FULLY = 2 ^ 4 := by
  decide

/-! ## Byte order -/

theorem ntohs_htons (le : Bool) (x : Nat) (h : x ≤ 65535) : ntohs le (htons le x) = x := by
  cases le
  · simp only [ntohs, htons, if_false, Bool.false_eq_true]
    omega
  · simp only [ntohs, htons, if_true]
    have h1 : x / 256 % 256 = x / 256 := Nat.mod_eq_of_lt (by omega)
    have h2 : (x % 256 * 256 + x / 256) % 256 = x / 256 := by omega
    have h3 : (x % 256 * 256 + x / 256) / 256 = x % 256 := by omega
    rw [h1, h2, h3]
    omega

theorem htons_inj (le : Bool) (x y : Nat) (hx : x ≤ 65535) (hy : y ≤ 65535)
    (h : htons le x = htons le y) : x = y := by
  rw [← ntohs_htons le x hx, ← ntohs_htons le y hy, h]

/-! ## The renderers as concatenations of their parts -/

theorem FULLCONENAT_print_parts (le : Bool) (mr : nf_nat_ipv4_multi_range_compat_withtype) :
    FULLCONENAT_print le mr
      = print_ips le mr ++ print_ports le mr ++ print_random mr ++ nattype_text mr.nattype := by
  simp [FULLCONENAT_print, print_ips, print_ports, print_random, nattype_text]

theorem FULLCONENAT_save_parts (le : Bool) (mr : nf_nat_ipv4_multi_range_compat_withtype) :
    FULLCONENAT_save le mr
      = save_ips le mr ++ save_ports le mr ++ save_random mr ++ nattype_text mr.nattype := by
  simp [FULLCONENAT_save, save_ips, save_ports, save_random, nattype_text]

/-! ## `parse_ports` on decimal tokens -/

theorem ends_number_nil : ends_number [] := Or.inl rfl

theorem ends_number_dash (t : CStr) : ends_number ('-' :: t) :=
  Or.inr ⟨'-', t, rfl, by decide⟩

theorem ends_number_dot (t : CStr) : ends_number ('.' :: t) :=
  Or.inr ⟨'.', t, rfl, by decide⟩

theorem xtables_strtoui_utoa_all (n max : Nat) (hmax : 0 < max) (hmax32 : max < 2 ^ 32) :
    xtables_strtoui (utoa n) true 0 max = if n ≤ max then some (n, []) else none := by
  have h := xtables_strtoui_utoa n [] ends_number_nil true max hmax hmax32
  simpa using h

theorem parse_ports_single (le : Bool) (mr : nf_nat_ipv4_multi_range_compat_withtype) (p : Nat) :
    parse_ports le (utoa p) mr
      = if p ≤ 65535 then Run.done (with_ports le mr p p)
        else Run.exit (bad_to_ports (utoa p)) (with_flag mr NF_NAT_RANGE_PROTO_SPECIFIED) := by
  have h := xtables_strtoui_utoa p [] ends_number_nil false 65535 (by norm_num) (by norm_num)
  rw [List.append_nil] at h
  unfold parse_ports
  rw [h]
  by_cases hp : p ≤ 65535
  · simp [hp, with_ports]
  · simp [hp, with_flag]

theorem parse_ports_range (le : Bool) (mr : nf_nat_ipv4_multi_range_compat_withtype) (p q : Nat) :
    parse_ports le (utoa p ++ '-' :: utoa q) mr
      = if p ≤ 65535 ∧ q ≤ 65535 ∧ p ≤ q then Run.done (with_ports le mr p q)
        else Run.exit (bad_to_ports (utoa p ++ '-' :: utoa q))
          (with_flag mr NF_NAT_RANGE_PROTO_SPECIFIED) := by
  have h := xtables_strtoui_utoa p ('-' :: utoa q) (ends_number_dash _) false 65535
    (by norm_num) (by norm_num)
  have h2 := xtables_strtoui_utoa_all q 65535 (by norm_num) (by norm_num)
  unfold parse_ports
  rw [h]
  by_cases hp : p ≤ 65535
  · by_cases hq : q ≤ 65535
    · by_cases hpq : p ≤ q
      · have : ¬ q < p := by omega
        simp [hp, hq, hpq, h2, this, with_ports]
      · have : q < p := by omega
        simp [hp, hq, hpq, h2, this, with_flag]
    · simp [hp, hq, h2, with_flag]
  · simp [hp, with_flag]

theorem print_ports_with_ports (le : Bool) (mr : nf_nat_ipv4_multi_range_compat_withtype)
    (p q : Nat) (hpq : p ≤ q) (hq : q ≤ 65535) :
    print_ports le (with_ports le mr p q) = " masq ports: ".toList ++ port_token p q
    ∧ save_ports le (with_ports le mr p q) = " --to-ports ".toList ++ port_token p q := by
  have hp : p ≤ 65535 := by omega
  have hflag : (mr.range.flags ||| NF_NAT_RANGE_PROTO_SPECIFIED) &&& NF_NAT_RANGE_PROTO_SPECIFIED ≠ 0 :=
    or_two_pow_and_same mr.range.flags 1
  have hne : htons le q ≠ htons le p ↔ p < q := by
    constructor
    · intro h
      by_contra hc
      exact h (by rw [show q = p by omega])
    · intro h he
      have := htons_inj le q p hq hp he
      omega
  unfold print_ports save_ports with_ports port_token
  simp only [hflag, ne_eq, not_false_eq_true, if_true, ntohs_htons le p hp, ntohs_htons le q hq]
  by_cases h : p < q
  · have h1 : ¬ htons le q = htons le p := hne.mpr h
    simp [h, h1]
  · have h1 : htons le q = htons le p := by
      by_contra hc
      exact h (hne.mp hc)
    simp [h, h1]

theorem parts_with_ports (le : Bool) (mr : nf_nat_ipv4_multi_range_compat_withtype) (p q : Nat) :
    print_ips le (with_ports le mr p q) = print_ips le mr
    ∧ save_ips le (with_ports le mr p q) = save_ips le mr
    ∧ print_random (with_ports le mr p q) = print_random mr
    ∧ save_random (with_ports le mr p q) = save_random mr
    ∧ (with_ports le mr p q).nattype = mr.nattype := by
  have h0 : (mr.range.flags ||| NF_NAT_RANGE_PROTO_SPECIFIED) &&& NF_NAT_RANGE_MAP_IPS
      = mr.range.flags &&& NF_NAT_RANGE_MAP_IPS := or_two_pow_and_other mr.range.flags 1 0 (by decide)
  have h2 : (mr.range.flags ||| NF_NAT_RANGE_PROTO_SPECIFIED) &&& NF_NAT_RANGE_PROTO_RANDOM
      = mr.range.flags &&& NF_NAT_RANGE_PROTO_RANDOM := or_two_pow_and_other mr.range.flags 1 2 (by decide)
  have h4 : (mr.range.flags ||| NF_NAT_RANGE_PROTO_SPECIFIED) &&& NF_NAT_RANGE_PROTO_RANDOM_FULLY
      = mr.range.flags &&& NF_NAT_RANGE_PROTO_RANDOM_FULLY :=
    or_two_pow_and_other mr.range.flags 1 4 (by decide)
  simp only [print_ips, save_ips, print_random, save_random, with_ports, h0, h2, h4, and_self]

/-- C2. Port round trip: for `p ≤ q ≤ 65535`, `parse_ports` accepts the decimal
token `p-q`, and on the descriptor it returns both renderers write, between the
unchanged address part and the unchanged flag and class parts, the port label
followed by `p-q` when `p < q` and by the single port `p` when `p = q`; the
single token `p` is accepted too and is written back as `p`. -/
theorem C2_port_round_trip (le : Bool) (mr : nf_nat_ipv4_multi_range_compat_withtype)
    (p q : Nat) (hpq : p ≤ q) (hq : q ≤ 65535) :
    (∃ d, parse_ports le (utoa p ++ '-' :: utoa q) mr = Run.done d
      ∧ FULLCONENAT_print le d
          = print_ips le mr ++ (" masq ports: ".toList ++ port_token p q)
              ++ print_random mr ++ nattype_text mr.nattype
      ∧ FULLCONENAT_save le d
          = save_ips le mr ++ (" --to-ports ".toList ++ port_token p q)
              ++ save_random mr ++ nattype_text mr.nattype)
    ∧ (∃ d, parse_ports le (utoa p) mr = Run.done d
      ∧ FULLCONENAT_print le d
          = print_ips le mr ++ (" masq ports: ".toList ++ utoa p)
              ++ print_random mr ++ nattype_text mr.nattype
      ∧ FULLCONENAT_save le d
          = save_ips le mr ++ (" --to-ports ".toList ++ utoa p)
              ++ save_random mr ++ nattype_text mr.nattype)
    ∧ port_token p q = (if p = q then utoa p else utoa p ++ '-' :: utoa q) := by
  have hp : p ≤ 65535 := by omega
  refine ⟨⟨with_ports le mr p q, ?_, ?_, ?_⟩, ⟨with_ports le mr p p, ?_, ?_, ?_⟩, ?_⟩
  · rw [parse_ports_range, if_pos ⟨hp, hq, hpq⟩]
  · obtain ⟨h1, _, h3, _, h5⟩ := parts_with_ports le mr p q
    rw [FULLCONENAT_print_parts, h1, h3, h5, (print_ports_with_ports le mr p q hpq hq).1]
  · obtain ⟨_, h2, _, h4, h5⟩ := parts_with_ports le mr p q
    rw [FULLCONENAT_save_parts, h2, h4, h5, (print_ports_with_ports le mr p q hpq hq).2]
  · rw [parse_ports_single, if_pos hp]
  · obtain ⟨h1, _, h3, _, h5⟩ := parts_with_ports le mr p p
    have hs := (print_ports_with_ports le mr p p (le_refl p) hp).1
    simp only [port_token, lt_irrefl, if_false] at hs
    rw [FULLCONENAT_print_parts, h1, h3, h5, hs]
  · obtain ⟨_, h2, _, h4, h5⟩ := parts_with_ports le mr p p
    have hs := (print_ports_with_ports le mr p p (le_refl p) hp).2
    simp only [port_token, lt_irrefl, if_false] at hs
    rw [FULLCONENAT_save_parts, h2, h4, h5, hs]
  · unfold port_token
    by_cases h : p = q
    · simp [h]
    · have : p < q := by omega
      simp [h, this]

/-- C2 at `p = 1024`, `q = 2048` on the initialized descriptor of a
little-endian host. -/
theorem C2_port_round_trip_witness :
    (∃ d, parse_ports true (utoa 1024 ++ '-' :: utoa 2048) (FULLCONENAT_init zero_filled) = Run.done d
      ∧ FULLCONENAT_print true d
          = print_ips true (FULLCONENAT_init zero_filled)
              ++ (" masq ports: ".toList ++ port_token 1024 2048)
              ++ print_random (FULLCONENAT_init zero_filled)
              ++ nattype_text (FULLCONENAT_init zero_filled).nattype
      ∧ FULLCONENAT_save true d
          = save_ips true (FULLCONENAT_init zero_filled)
              ++ (" --to-ports ".toList ++ port_token 1024 2048)
              ++ save_random (FULLCONENAT_init zero_filled)
              ++ nattype_text (FULLCONENAT_init zero_filled).nattype)
    ∧ (∃ d, parse_ports true (utoa 1024) (FULLCONENAT_init zero_filled) = Run.done d
      ∧ FULLCONENAT_print true d
          = print_ips true (FULLCONENAT_init zero_filled)
              ++ (" masq ports: ".toList ++ utoa 1024)
              ++ print_random (FULLCONENAT_init zero_filled)
              ++ nattype_text (FULLCONENAT_init zero_filled).nattype
      ∧ FULLCONENAT_save true d
          = save_ips true (FULLCONENAT_init zero_filled)
              ++ (" --to-ports ".toList ++ utoa 1024)
              ++ save_random (FULLCONENAT_init zero_filled)
              ++ nattype_text (FULLCONENAT_init zero_filled).nattype)
    ∧ port_token 1024 2048 = (if 1024 = 2048 then utoa 1024 else utoa 1024 ++ '-' :: utoa 2048) :=
  C2_port_round_trip true (FULLCONENAT_init zero_filled) 1024 2048 (by decide) (by decide)

/-- C4. Inverted port range is rejected: for `p < q` (in [0,65535] or beyond),
`parse_ports` on the decimal token `q-p` does not return; it leaves through the bad-value report
for `--to-ports` carrying the token, with no port stored (the descriptor at that
point differs from the one it was given only by the port-specified flag). -/
theorem C4_inverted_port_range_rejected (le : Bool)
    (mr : nf_nat_ipv4_multi_range_compat_withtype) (p q : Nat) (hpq : p < q) :
    parse_ports le (utoa q ++ '-' :: utoa p) mr
      = Run.exit (bad_to_ports (utoa q ++ '-' :: utoa p)) (with_flag mr NF_NAT_RANGE_PROTO_SPECIFIED)
    ∧ (with_flag mr NF_NAT_RANGE_PROTO_SPECIFIED).range.min_tcp_port = mr.range.min_tcp_port
    ∧ (with_flag mr NF_NAT_RANGE_PROTO_SPECIFIED).range.max_tcp_port = mr.range.max_tcp_port := by
  refine ⟨?_, rfl, rfl⟩
  rw [parse_ports_range, if_neg]
  omega

/-- C4 at the token `2048-1024`. -/
theorem C4_inverted_port_range_rejected_witness :
    parse_ports true (utoa 2048 ++ '-' :: utoa 1024) (FULLCONENAT_init zero_filled)
      = Run.exit (bad_to_ports (utoa 2048 ++ '-' :: utoa 1024))
          (with_flag (FULLCONENAT_init zero_filled) NF_NAT_RANGE_PROTO_SPECIFIED)
    ∧ (with_flag (FULLCONENAT_init zero_filled) NF_NAT_RANGE_PROTO_SPECIFIED).range.min_tcp_port
        = (FULLCONENAT_init zero_filled).range.min_tcp_port
    ∧ (with_flag (FULLCONENAT_init zero_filled) NF_NAT_RANGE_PROTO_SPECIFIED).range.max_tcp_port
        = (FULLCONENAT_init zero_filled).range.max_tcp_port :=
  C4_inverted_port_range_rejected true (FULLCONENAT_init zero_filled) 1024 2048 (by decide)

/-! ## `parse_ports` on arbitrary tokens -/

theorem xtables_strtoui_some (s : CStr) (end_null : Bool) (max v : Nat) (r : CStr)
    (hmax : 0 < max) (h : xtables_strtoui s end_null 0 max = some (v, r)) :
    v ≤ max ∧ (end_null = true → r = []) ∧ (strtoumax s).noconv = false
      ∧ (strtoumax s).endp = r := by
  unfold xtables_strtoui at h
  obtain ⟨⟨v', r'⟩, h', hv⟩ := Option.map_eq_some'.mp h
  simp only [Prod.mk.injEq] at hv
  obtain ⟨hv, hr⟩ := hv
  subst hr
  unfold xtables_strtoul at h'
  have key : (strtoumax s).noconv = false → (strtoumax s).value ≤ max →
      (strtoumax s).value = v' → (strtoumax s).endp = r' → (end_null = true → r' = []) →
      v ≤ max ∧ (end_null = true → r' = []) ∧ (strtoumax s).noconv = false
        ∧ (strtoumax s).endp = r' := by
    intro k1 k2 k3 k4 k5
    refine ⟨?_, k5, k1, k4⟩
    rw [← hv, ← k3]
    exact le_trans (Nat.mod_le _ _) k2
  by_cases h1 : (s.dropWhile isspace).head? = some '-'
  · rw [if_pos h1] at h'
    cases h'
  · rw [if_neg h1] at h'
    simp only at h'
    by_cases h2 : (strtoumax s).noconv = true
    · rw [if_pos h2] at h'
      cases h'
    · rw [if_neg h2] at h'
      by_cases h3 : (!(strtoumax s).erange) = true ∧ 0 ≤ (strtoumax s).value
          ∧ (max = 0 ∨ (strtoumax s).value ≤ max)
      · rw [if_pos h3] at h'
        have hle : (strtoumax s).value ≤ max := by
          rcases h3.2.2 with hc | hc
          · omega
          · exact hc
        cases end_null
        · simp only [Bool.false_eq_true, if_false, Option.some.injEq, Prod.mk.injEq] at h'
          exact key (by simpa using h2) hle h'.1 h'.2 (fun hc => absurd hc (by decide))
        · by_cases h4 : (strtoumax s).endp = []
          · simp only [if_true, h4, Option.some.injEq, Prod.mk.injEq] at h'
            exact key (by simpa using h2) hle h'.1 (h4.trans h'.2) (fun _ => h'.2.symm)
          · simp only [if_true, h4, if_false] at h'
            cases h'
      · rw [if_neg h3] at h'
        cases h'

theorem strtoumax_no_number (c : Char) (t : CStr) (hsp : isspace c = false) (hplus : c ≠ '+')
    (hminus : c ≠ '-') (hd : ∀ d, digit_value c = some d → 10 ≤ d) :
    (strtoumax (c :: t)).noconv = true := by
  have h0 : c ≠ '0' := by
    rintro rfl
    have := hd 0 (by decide)
    omega
  have hscan : scan_digits 10 (c :: t) 0 false = (0, false, c :: t) := by
    unfold scan_digits
    cases hq : digit_value c with
    | none => rfl
    | some d =>
      have := hd d hq
      simp only
      rw [if_neg (by omega)]
  have hsign : strtoumax_sign (c :: t) = (false, c :: t) := by
    unfold strtoumax_sign
    split
    · rename_i heq; cases heq; exact absurd rfl hminus
    · rename_i heq; cases heq; exact absurd rfl hplus
    · rfl
  have hbody : strtoumax_body (c :: t) false (c :: t)
      = strtoumax_conv false (scan_digits 10 (c :: t) 0 false) ⟨0, c :: t, true, false⟩ := by
    unfold strtoumax_body
    split
    · rename_i heq; cases heq; exact absurd rfl h0
    · rename_i heq; cases heq; exact absurd rfl h0
    · rfl
  unfold strtoumax
  simp only [List.dropWhile, hsp, hsign, hbody, hscan, strtoumax_conv]
  rfl

/-- A token whose first character is neither white space, nor `+`, nor a
decimal digit does not start with a number. -/
theorem xtables_strtoui_no_number (c : Char) (t : CStr) (end_null : Bool) (min max : Nat)
    (hsp : isspace c = false) (hplus : c ≠ '+') (hd : ∀ d, digit_value c = some d → 10 ≤ d) :
    xtables_strtoui (c :: t) end_null min max = none := by
  unfold xtables_strtoui xtables_strtoul
  by_cases hm : c = '-'
  · subst hm
    simp [List.dropWhile, hsp]
  · have h1 : ((c :: t).dropWhile isspace).head? ≠ some '-' := by
      simp [List.dropWhile, hsp, hm]
    rw [if_neg h1]
    simp [strtoumax_no_number c t hsp hplus hm hd]

theorem parse_ports_exit (le : Bool) (mr : nf_nat_ipv4_multi_range_compat_withtype) (arg : CStr) :
    ∀ e m, parse_ports le arg mr = Run.exit e m →
      e = bad_to_ports arg ∧ m = with_flag mr NF_NAT_RANGE_PROTO_SPECIFIED := by
  intro e m h
  unfold parse_ports at h
  revert h
  split
  · intro h; cases h; exact ⟨rfl, rfl⟩
  · rename_i port e' _
    split
    · intro h; cases h
    · split
      · intro h; cases h; exact ⟨rfl, rfl⟩
      · split
        · intro h; cases h; exact ⟨rfl, rfl⟩
        · intro h; cases h
    · intro h; cases h; exact ⟨rfl, rfl⟩

theorem parse_ports_done_nattype (le : Bool) (mr d : nf_nat_ipv4_multi_range_compat_withtype)
    (arg : CStr) (h : parse_ports le arg mr = Run.done d) : d.nattype = mr.nattype := by
  unfold parse_ports at h
  revert h
  split
  · intro h; cases h
  · split
    · intro h; cases h; rfl
    · split
      · intro h; cases h
      · split
        · intro h; cases h
        · intro h; cases h; rfl
    · intro h; cases h

theorem parse_to_done_nattype (le : Bool) (mr d : nf_nat_ipv4_multi_range_compat_withtype)
    (arg : CStr) (h : parse_to le arg mr = Run.done d) : d.nattype = mr.nattype := by
  unfold parse_to at h
  revert h
  simp only
  split
  · split
    · intro h; cases h
    · intro h; cases h; rfl
  · split
    · intro h; cases h
    · split
      · intro h; cases h
      · intro h; cases h; rfl

/-- C5. Port value validation. For every token `arg`:
* `parse_ports` either returns or leaves through the bad-value report for
  `--to-ports` carrying `arg`, with no port stored;
* it returns exactly when `arg` reads as a number `P` in [0,65535] followed by
  nothing (ports `P`, `P` stored), or as a number `P` in [0,65535], a dash, and
  text that reads in full as a number `Q` in [0,65535] with `Q ≥ P` (ports `P`,
  `Q` stored);
* hence it fails when no number starts `arg` (an empty token, or a first
  character that is neither white space, `+`, nor a decimal digit), when a
  character other than `-` follows `P`, when the text after the dash is empty, is no number or is a
  number followed by more characters, and, on decimal tokens, when a value
  exceeds 65535. -/
theorem C5_port_value_validation (le : Bool) (mr : nf_nat_ipv4_multi_range_compat_withtype)
    (arg : CStr) :
    (∀ e m, parse_ports le arg mr = Run.exit e m →
        e = bad_to_ports arg ∧ m = with_flag mr NF_NAT_RANGE_PROTO_SPECIFIED)
    ∧ (∀ d, parse_ports le arg mr = Run.done d ↔
        (∃ P, P ≤ 65535 ∧ xtables_strtoui arg false 0 65535 = some (P, [])
            ∧ d = with_ports le mr P P)
        ∨ (∃ P Q t, P ≤ 65535 ∧ Q ≤ 65535 ∧ P ≤ Q
            ∧ xtables_strtoui arg false 0 65535 = some (P, '-' :: t)
            ∧ xtables_strtoui t true 0 65535 = some (Q, [])
            ∧ d = with_ports le mr P Q))
    ∧ ((strtoumax arg).noconv = true → (parse_ports le arg mr).isDone = false)
    ∧ (arg = [] → (parse_ports le arg mr).isDone = false)
    ∧ (∀ c t, arg = c :: t → isspace c = false → c ≠ '+' →
        (∀ d, digit_value c = some d → 10 ≤ d) → (parse_ports le arg mr).isDone = false)
    ∧ (∀ P c t, xtables_strtoui arg false 0 65535 = some (P, c :: t) → c ≠ '-' →
        (parse_ports le arg mr).isDone = false)
    ∧ (∀ P t, xtables_strtoui arg false 0 65535 = some (P, '-' :: t) →
        (t = [] ∨ (strtoumax t).noconv = true ∨ (strtoumax t).endp ≠ []) →
        (parse_ports le arg mr).isDone = false)
    ∧ (∀ n, 65535 < n → (parse_ports le (utoa n) mr).isDone = false)
    ∧ (∀ p n, 65535 < n → (parse_ports le (utoa p ++ '-' :: utoa n) mr).isDone = false
        ∧ (parse_ports le (utoa n ++ '-' :: utoa p) mr).isDone = false) := by
  refine ⟨parse_ports_exit le mr arg, ?_, ?_, ?_, ?_, ?_, ?_, ?_, ?_⟩
  · intro d
    constructor
    · intro h
      unfold parse_ports at h
      revert h
      split
      · intro h; cases h
      · rename_i port e' hs
        have hP := (xtables_strtoui_some arg false 65535 port e' (by norm_num) hs).1
        split
        · intro h
          cases h
          exact Or.inl ⟨port, hP, hs, rfl⟩
        · rename_i e1
          split
          · intro h; cases h
          · rename_i maxport u hs2
            have hQ := xtables_strtoui_some e1 true 65535 maxport u (by norm_num) hs2
            have hu : u = [] := hQ.2.1 rfl
            subst hu
            split
            · intro h; cases h
            · rename_i hlt
              intro h
              cases h
              exact Or.inr ⟨port, maxport, e1, hP, hQ.1, by omega, hs, hs2, rfl⟩
        · intro h; cases h
    · rintro (⟨P, _, hs, rfl⟩ | ⟨P, Q, t, _, _, hPQ, hs, hs2, rfl⟩)
      · unfold parse_ports
        rw [hs]
        rfl
      · have : ¬ Q < P := by omega
        unfold parse_ports
        rw [hs]
        simp only [hs2, this, if_false]
        rfl
  · intro h
    have hs : xtables_strtoui arg false 0 65535 = none := by
      unfold xtables_strtoui xtables_strtoul
      simp [h]
    unfold parse_ports
    rw [hs]
    rfl
  · intro h
    subst h
    rfl
  · intro c t h hsp hplus hd
    subst h
    unfold parse_ports
    rw [xtables_strtoui_no_number c t false 0 65535 hsp hplus hd]
    rfl
  · intro P c t hs hc
    unfold parse_ports
    rw [hs]
    simp only
    rfl
  · intro P t hs ht
    have hs2 : xtables_strtoui t true 0 65535 = none := by
      cases hq : xtables_strtoui t true 0 65535 with
      | none => rfl
      | some r =>
        obtain ⟨Q, u⟩ := r
        have hQ := xtables_strtoui_some t true 65535 Q u (by norm_num) hq
        have hu : u = [] := hQ.2.1 rfl
        rcases ht with ht | ht | ht
        · subst ht
          have : (strtoumax []).noconv = true := by decide
          rw [this] at hQ
          exact absurd hQ.2.2.1 (by decide)
        · rw [ht] at hQ
          exact absurd hQ.2.2.1 (by decide)
        · exact absurd (hQ.2.2.2.trans hu) ht
    unfold parse_ports
    rw [hs]
    simp only [hs2]
    rfl
  · intro n hn
    rw [parse_ports_single, if_neg (by omega)]
    rfl
  · intro p n hn
    constructor
    · rw [parse_ports_range, if_neg (by omega)]
      rfl
    · rw [parse_ports_range, if_neg (by omega)]
      rfl

/-! ## The dispatcher -/

theorem portok_iff (proto : Nat) :
    portok proto = true ↔ (proto = IPPROTO_TCP ∨ proto = IPPROTO_UDP ∨ proto = IPPROTO_SCTP
      ∨ proto = IPPROTO_DCCP ∨ proto = IPPROTO_ICMP) := by
  simp [portok]

theorem FULLCONENAT_parse_to_ports (le : Bool) (arg : CStr) (invert : Bool) (xflags proto : Nat)
    (mr : nf_nat_ipv4_multi_range_compat_withtype) :
    FULLCONENAT_parse le ⟨opt_to_ports, arg, invert, xflags, proto, mr⟩
      = if xflags &&& (1 <<< O_TO_PORTS) ≠ 0 then
          Run.exit (xt_error.only_once opt_to_ports.name) ⟨opt_to_ports, arg, invert, xflags, proto, mr⟩
        else if invert = true then
          Run.exit (xt_error.cannot_invert opt_to_ports.name)
            ⟨opt_to_ports, arg, invert, xflags, proto, mr⟩
        else if portok proto = false then
          Run.exit xt_error.need_port_protocol
            ⟨opt_to_ports, arg, invert, xflags ||| (1 <<< O_TO_PORTS), proto, mr⟩
        else
          (parse_ports le arg mr).lift fun d =>
            ⟨opt_to_ports, arg, invert, xflags ||| (1 <<< O_TO_PORTS), proto, d⟩ := by
  unfold FULLCONENAT_parse xtables_option_parse
  by_cases h1 : xflags &&& (1 <<< O_TO_PORTS) = 0
  · have h1' : xflags &&& (1 <<< opt_to_ports.id) = 0 := h1
    cases invert
    · cases hp : portok proto
      · simp [h1, h1', hp]
        simp [opt_to_ports, O_TO_PORTS]
      · simp [h1, h1', hp]
        simp [opt_to_ports, O_TO_PORTS]
        rfl
    · simp [h1, h1']
  · have h1' : ¬ xflags &&& (1 <<< opt_to_ports.id) = 0 := h1
    simp [h1, h1']

/-- C6. Protocol precondition of to-ports. For a to-ports call on a rule whose
protocol is none of TCP, UDP, SCTP, DCCP, ICMP, whatever the argument:
`FULLCONENAT_parse` never returns, the descriptor is as it was given (the port
validator has not run) and the report is never the bad-value report of
`parse_ports`; once the framework's own checks accept the call (first use, not
inverted) the report is the need-a-port-protocol one. For each of the five
protocols that report is never made, and an accepted call has exactly the
outcome of `parse_ports`. -/
theorem C6_to_ports_protocol_precondition (le : Bool) (arg : CStr) (invert : Bool)
    (xflags proto : Nat) (mr : nf_nat_ipv4_multi_range_compat_withtype) :
    ((proto ≠ IPPROTO_TCP ∧ proto ≠ IPPROTO_UDP ∧ proto ≠ IPPROTO_SCTP ∧ proto ≠ IPPROTO_DCCP
        ∧ proto ≠ IPPROTO_ICMP) →
      (FULLCONENAT_parse le ⟨opt_to_ports, arg, invert, xflags, proto, mr⟩).isDone = false
      ∧ (∀ e cb, FULLCONENAT_parse le ⟨opt_to_ports, arg, invert, xflags, proto, mr⟩ = Run.exit e cb →
          cb.data = mr ∧ ∀ t o a, e ≠ xt_error.bad_value t o a)
      ∧ (xflags &&& (1 <<< O_TO_PORTS) = 0 → invert = false →
          FULLCONENAT_parse le ⟨opt_to_ports, arg, invert, xflags, proto, mr⟩
            = Run.exit xt_error.need_port_protocol
                ⟨opt_to_ports, arg, false, xflags ||| (1 <<< O_TO_PORTS), proto, mr⟩))
    ∧ ((proto = IPPROTO_TCP ∨ proto = IPPROTO_UDP ∨ proto = IPPROTO_SCTP ∨ proto = IPPROTO_DCCP
        ∨ proto = IPPROTO_ICMP) →
      (∀ cb, FULLCONENAT_parse le ⟨opt_to_ports, arg, invert, xflags, proto, mr⟩
          ≠ Run.exit xt_error.need_port_protocol cb)
      ∧ (xflags &&& (1 <<< O_TO_PORTS) = 0 → invert = false →
          FULLCONENAT_parse le ⟨opt_to_ports, arg, invert, xflags, proto, mr⟩
            = (parse_ports le arg mr).lift fun d =>
                ⟨opt_to_ports, arg, false, xflags ||| (1 <<< O_TO_PORTS), proto, d⟩)) := by
  rw [FULLCONENAT_parse_to_ports]
  constructor
  · intro hp
    have hpk : portok proto = false := by
      cases h : portok proto
      · rfl
      · exact absurd ((portok_iff proto).mp h) (by tauto)
    refine ⟨?_, ?_, ?_⟩
    · split_ifs <;> rfl
    · intro e cb h
      split_ifs at h <;> (cases h; exact ⟨rfl, fun _ _ _ hc => by cases hc⟩)
    · intro hx hi
      subst hi
      simp [hx, hpk]
  · intro hp
    have hpk : portok proto = true := (portok_iff proto).mpr hp
    refine ⟨?_, ?_⟩
    · intro cb h
      split_ifs at h with h1 h2 h3
      · cases h
      · cases h
      · rw [hpk] at h3; cases h3
      · cases hq : parse_ports le arg mr with
        | done d => rw [hq] at h; cases h
        | exit e m =>
          rw [hq] at h
          have := (parse_ports_exit le mr arg e m hq).1
          subst this
          cases h
    · intro hx hi
      subst hi
      simp [hx, hpk]

/-! ## `parse_nat_type` -/

/-- C7. NAT-class validation: `parse_nat_type` returns exactly on the three
tokens `fc`, `ar`, `pr`, storing class 0 (Full-Cone), 1 (Address-Restricted) and
2 (Port-Restricted) and changing nothing else; on every other token, `FC`, `Fc`
and `fcx` among them, it leaves through the bad-nat-type report carrying the
token, the descriptor untouched. -/
theorem C7_nat_type_validation (arg : CStr) (mr : nf_nat_ipv4_multi_range_compat_withtype) :
    parse_nat_type "fc".toList mr = Run.done { mr with nattype := NAT_TYPE_FULL_CONE }
    ∧ parse_nat_type "ar".toList mr = Run.done { mr with nattype := NAT_TYPE_Address_Restricted }
    ∧ parse_nat_type "pr".toList mr = Run.done { mr with nattype := NAT_TYPE_Port_Restricted }
    ∧ ((arg ≠ "fc".toList ∧ arg ≠ "ar".toList ∧ arg ≠ "pr".toList) →
        parse_nat_type arg mr = Run.exit (xt_error.bad_nat_type arg) mr)
    ∧ ((parse_nat_type arg mr).isDone = true ↔
        (arg = "fc".toList ∨ arg = "ar".toList ∨ arg = "pr".toList))
    ∧ parse_nat_type "FC".toList mr = Run.exit (xt_error.bad_nat_type "FC".toList) mr
    ∧ parse_nat_type "Fc".toList mr = Run.exit (xt_error.bad_nat_type "Fc".toList) mr
    ∧ parse_nat_type "fcx".toList mr = Run.exit (xt_error.bad_nat_type "fcx".toList) mr
    ∧ NAT_TYPE_FULL_CONE = 0 ∧ NAT_TYPE_Address_Restricted = 1 ∧ NAT_TYPE_Port_Restricted = 2 := by
  have hne : ∀ a : CStr, a ≠ "fc".toList → a ≠ "ar".toList → a ≠ "pr".toList →
      parse_nat_type a mr = Run.exit (xt_error.bad_nat_type a) mr := by
    intro a h1 h2 h3
    unfold parse_nat_type
    rw [if_neg h1, if_neg h2, if_neg h3]
  refine ⟨rfl, rfl, rfl, fun h => hne arg h.1 h.2.1 h.2.2, ?_, ?_, ?_, ?_, rfl, rfl, rfl⟩
  · constructor
    · intro h
      by_contra hc
      push_neg at hc
      rw [hne arg hc.1 hc.2.1 hc.2.2] at h
      cases h
    · rintro (h | h | h) <;> subst h <;> rfl
  · exact hne _ (by decide) (by decide) (by decide)
  · exact hne _ (by decide) (by decide) (by decide)
  · exact hne _ (by decide) (by decide) (by decide)

/-! ## The end-to-end example -/

/-- C8. End-to-end example: from the initialized zero-filled descriptor, on a
rule of a port-capable protocol, the options `to-source 203.0.113.5`,
`to-ports 1024-2048`, `nat-type ar` are all accepted and leave the descriptor
with range count 1, exactly the map-addresses and port-specified flags (neither
randomize flag), both addresses the one whose bytes are 203, 0, 113, 5, the
ports 1024 and 2048 in network byte order, and class Address-Restricted;
`FULLCONENAT_print` then writes
` to:203.0.113.5 masq ports: 1024-2048 address-restricted`. -/
theorem C8_end_to_end (le : Bool) (proto : Nat) (hp : portok proto = true) :
    ∃ st, apply_options le proto
        [⟨opt_to_source, "203.0.113.5".toList, false⟩, ⟨opt_to_ports, "1024-2048".toList, false⟩,
          ⟨opt_nat_type, "ar".toList, false⟩] initial_state = Run.done st
      ∧ st.data.rangesize = 1
      ∧ st.data.range.flags = NF_NAT_RANGE_MAP_IPS ||| NF_NAT_RANGE_PROTO_SPECIFIED
      ∧ st.data.range.flags &&& NF_NAT_RANGE_PROTO_RANDOM = 0
      ∧ st.data.range.flags &&& NF_NAT_RANGE_PROTO_RANDOM_FULLY = 0
      ∧ st.data.range.min_ip = in_addr_of_bytes le 203 0 113 5
      ∧ st.data.range.max_ip = in_addr_of_bytes le 203 0 113 5
      ∧ st.data.range.min_tcp_port = htons le 1024
      ∧ st.data.range.max_tcp_port = htons le 2048
      ∧ ntohs le st.data.range.min_tcp_port = 1024
      ∧ ntohs le st.data.range.max_tcp_port = 2048
      ∧ st.data.nattype = NAT_TYPE_Address_Restricted
      ∧ FULLCONENAT_print le st.data
          = " to:203.0.113.5 masq ports: 1024-2048 address-restricted".toList := by
  refine ⟨⟨25, ⟨1, ⟨3, in_addr_of_bytes le 203 0 113 5, in_addr_of_bytes le 203 0 113 5,
    htons le 1024, htons le 2048⟩, 1⟩⟩, ?_⟩
  rcases (portok_iff proto).mp hp with h | h | h | h | h <;> subst h <;> cases le <;> decide

/-- C8 on a TCP rule of a little-endian host. -/
theorem C8_end_to_end_witness :
    ∃ st, apply_options true IPPROTO_TCP
        [⟨opt_to_source, "203.0.113.5".toList, false⟩, ⟨opt_to_ports, "1024-2048".toList, false⟩,
          ⟨opt_nat_type, "ar".toList, false⟩] initial_state = Run.done st
      ∧ st.data.rangesize = 1
      ∧ st.data.range.flags = NF_NAT_RANGE_MAP_IPS ||| NF_NAT_RANGE_PROTO_SPECIFIED
      ∧ st.data.range.flags &&& NF_NAT_RANGE_PROTO_RANDOM = 0
      ∧ st.data.range.flags &&& NF_NAT_RANGE_PROTO_RANDOM_FULLY = 0
      ∧ st.data.range.min_ip = in_addr_of_bytes true 203 0 113 5
      ∧ st.data.range.max_ip = in_addr_of_bytes true 203 0 113 5
      ∧ st.data.range.min_tcp_port = htons true 1024
      ∧ st.data.range.max_tcp_port = htons true 2048
      ∧ ntohs true st.data.range.min_tcp_port = 1024
      ∧ ntohs true st.data.range.max_tcp_port = 2048
      ∧ st.data.nattype = NAT_TYPE_Address_Restricted
      ∧ FULLCONENAT_print true st.data
          = " to:203.0.113.5 masq ports: 1024-2048 address-restricted".toList :=
  C8_end_to_end true IPPROTO_TCP (by decide)

/-! ## Words of the renderers' output -/

theorem push_word_append (cur : CStr) (ws xs : List CStr) :
    push_word cur ws ++ xs = push_word cur (ws ++ xs) := by
  unfold push_word
  split_ifs <;> rfl

theorem words_state_boundary (rest : CStr) (h : at_boundary rest) : (words_state rest).1 = [] := by
  rcases h with h | ⟨t, h⟩ <;> subst h <;> simp [words_state]

theorem words_of_boundary (rest : CStr) (h : at_boundary rest) : words rest = (words_state rest).2 := by
  unfold words
  rw [words_state_boundary rest h]
  rfl

theorem words_state_append (a b : CStr) (hb : at_boundary b) :
    words_state (a ++ b) = ((words_state a).1, (words_state a).2 ++ words b) := by
  induction a with
  | nil =>
    rw [List.nil_append, words_of_boundary b hb]
    have := words_state_boundary b hb
    simp only [words_state, List.nil_append]
    exact Prod.ext this rfl
  | cons c cs ih =>
    rw [List.cons_append]
    by_cases hc : c = ' '
    · simp only [words_state, hc, if_true, ih, push_word_append]
    · simp only [words_state, hc, if_false, ih]

/-- The words of a text followed by a text that starts a new word. -/
theorem words_append (a b : CStr) (hb : at_boundary b) : words (a ++ b) = words a ++ words b := by
  unfold words
  rw [words_state_append a b hb, push_word_append]
  rfl

theorem words_state_word (w : CStr) (hw : ∀ c ∈ w, c ≠ ' ') : words_state w = (w, []) := by
  induction w with
  | nil => rfl
  | cons c cs ih =>
    have hc : c ≠ ' ' := hw c (List.mem_cons_self _ _)
    have ih' := ih (fun x hx => hw x (List.mem_cons_of_mem _ hx))
    simp only [words_state, hc, if_false, ih']

/-- A space and a word. -/
theorem words_space_word (w : CStr) (hne : w ≠ []) (hw : ∀ c ∈ w, c ≠ ' ') :
    words (' ' :: w) = [w] := by
  simp only [words, words_state, if_true, words_state_word w hw, push_word, hne, if_false]

theorem words_nil : words [] = [] := rfl

/-- A space, a word, and a text that starts a new word. -/
theorem words_word_then (w rest : CStr) (hne : w ≠ []) (hw : ∀ c ∈ w, c ≠ ' ')
    (hb : at_boundary rest) : words (' ' :: (w ++ rest)) = w :: words rest := by
  have h := words_append (' ' :: w) rest hb
  rw [List.cons_append] at h
  rw [h, words_space_word w hne hw]
  rfl

theorem at_boundary_nil : at_boundary [] := Or.inl rfl

theorem at_boundary_cons (t : CStr) : at_boundary (' ' :: t) := Or.inr ⟨t, rfl⟩

theorem at_boundary_append (a b : CStr) (ha : at_boundary a) (hb : at_boundary b) :
    at_boundary (a ++ b) := by
  rcases ha with ha | ⟨t, ha⟩
  · subst ha; simpa using hb
  · subst ha; exact Or.inr ⟨t ++ b, rfl⟩

/-! ### Characters of decimal and dotted text -/

theorem toDigitsCore_chars (fuel : Nat) :
    ∀ (n : Nat) (ds : CStr), (∀ c ∈ ds, ∃ d, d < 10 ∧ c = Nat.digitChar d) →
      ∀ c ∈ Nat.toDigitsCore 10 fuel n ds, ∃ d, d < 10 ∧ c = Nat.digitChar d := by
  induction fuel with
  | zero => intro n ds h c hc; exact h c hc
  | succ fuel ih =>
    intro n ds h c hc
    unfold Nat.toDigitsCore at hc
    have hd : n % 10 < 10 := Nat.mod_lt _ (by norm_num)
    have hds : ∀ c ∈ Nat.digitChar (n % 10) :: ds, ∃ d, d < 10 ∧ c = Nat.digitChar d := by
      intro x hx
      rcases List.mem_cons.mp hx with hx | hx
      · exact ⟨n % 10, hd, hx⟩
      · exact h x hx
    by_cases h0 : n / 10 = 0
    · simp only [h0, if_true] at hc
      exact hds c hc
    · simp only [h0, if_false] at hc
      exact ih (n / 10) _ hds c hc

theorem utoa_chars (n : Nat) : ∀ c ∈ utoa n, ∃ d, d < 10 ∧ c = Nat.digitChar d :=
  toDigitsCore_chars (n + 1) n [] (fun _ hc => absurd hc (List.not_mem_nil _))

theorem utoa_ne_nil (n : Nat) : utoa n ≠ [] := by
  obtain ⟨d, t, _, he⟩ := utoa_head_digit n
  rw [he]
  exact List.cons_ne_nil _ _

theorem utoa_no_sep (n : Nat) : ∀ c ∈ utoa n, c ≠ ' ' ∧ c ≠ '-' ∧ c ≠ '.' := by
  intro c hc
  obtain ⟨d, hd, rfl⟩ := utoa_chars n c hc
  have := digitChar_ne_sign d hd
  exact ⟨this.2.2.2, this.1, this.2.2.1⟩

theorem ipaddr_no_space (le : Bool) (a : Nat) :
    ∀ c ∈ xtables_ipaddr_to_numeric le a, c ≠ ' ' ∧ c ≠ '-' := by
  intro c hc
  unfold xtables_ipaddr_to_numeric at hc
  simp only [List.mem_append, List.mem_cons] at hc
  rcases hc with ((hc | hc | hc) | hc | hc) | hc | hc
  · exact ⟨(utoa_no_sep _ c hc).1, (utoa_no_sep _ c hc).2.1⟩
  · subst hc; decide
  · exact ⟨(utoa_no_sep _ c hc).1, (utoa_no_sep _ c hc).2.1⟩
  · subst hc; decide
  · exact ⟨(utoa_no_sep _ c hc).1, (utoa_no_sep _ c hc).2.1⟩
  · subst hc; decide
  · exact ⟨(utoa_no_sep _ c hc).1, (utoa_no_sep _ c hc).2.1⟩

theorem ips_token_chars (le : Bool) (mr : nf_nat_ipv4_multi_range_compat_withtype) :
    ∀ c ∈ ips_token le mr, c ≠ ' ' := by
  intro c hc
  unfold ips_token at hc
  rcases List.mem_append.mp hc with hc | hc
  · exact (ipaddr_no_space le _ c hc).1
  · split_ifs at hc
    · rcases List.mem_cons.mp hc with hc | hc
      · subst hc; decide
      · exact (ipaddr_no_space le _ c hc).1
    · exact absurd hc (List.not_mem_nil _)

theorem ports_token_chars (le : Bool) (mr : nf_nat_ipv4_multi_range_compat_withtype) :
    ∀ c ∈ ports_token le mr, c ≠ ' ' := by
  intro c hc
  unfold ports_token at hc
  rcases List.mem_append.mp hc with hc | hc
  · exact (utoa_no_sep _ c hc).1
  · split_ifs at hc
    · rcases List.mem_cons.mp hc with hc | hc
      · subst hc; decide
      · exact (utoa_no_sep _ c hc).1
    · exact absurd hc (List.not_mem_nil _)

theorem ips_token_head (le : Bool) (mr : nf_nat_ipv4_multi_range_compat_withtype) :
    ∃ d, d < 10 ∧ (ips_token le mr).head? = some (Nat.digitChar d) := by
  obtain ⟨d, t, hd, he⟩ := utoa_head_digit (in_addr_byte le mr.range.min_ip 0)
  refine ⟨d, hd, ?_⟩
  unfold ips_token xtables_ipaddr_to_numeric
  rw [he]
  rfl

theorem ports_token_head (le : Bool) (mr : nf_nat_ipv4_multi_range_compat_withtype) :
    ∃ d, d < 10 ∧ (ports_token le mr).head? = some (Nat.digitChar d) := by
  obtain ⟨d, t, hd, he⟩ := utoa_head_digit (ntohs le mr.range.min_tcp_port)
  refine ⟨d, hd, ?_⟩
  unfold ports_token
  rw [he]
  rfl

theorem not_class_of_head (w : CStr) (c : Char) (h : w.head? = some c)
    (hc : c ≠ 'f' ∧ c ≠ 'a' ∧ c ≠ 'p') : is_class_token w = false := by
  cases hw : is_class_token w with
  | false => rfl
  | true =>
    exfalso
    simp only [is_class_token, Bool.decide_or, Bool.or_eq_true, decide_eq_true_eq] at hw
    rcases hw with hw | hw | hw <;> subst hw
    · exact hc.1 (by simpa using h.symm)
    · exact hc.2.1 (by simpa using h.symm)
    · exact hc.2.2 (by simpa using h.symm)

theorem digit_head_not_class (w : CStr) (d : Nat) (hd : d < 10)
    (h : w.head? = some (Nat.digitChar d)) : is_class_token w = false := by
  refine not_class_of_head w _ h ?_
  interval_cases d <;> decide

theorem ips_token_ne_nil (le : Bool) (mr : nf_nat_ipv4_multi_range_compat_withtype) :
    ips_token le mr ≠ [] := by
  obtain ⟨d, _, h⟩ := ips_token_head le mr
  intro hc
  rw [hc] at h
  cases h

theorem ports_token_ne_nil (le : Bool) (mr : nf_nat_ipv4_multi_range_compat_withtype) :
    ports_token le mr ≠ [] := by
  obtain ⟨d, _, h⟩ := ports_token_head le mr
  intro hc
  rw [hc] at h
  cases h

theorem words_print_ips (le : Bool) (mr : nf_nat_ipv4_multi_range_compat_withtype) :
    at_boundary (print_ips le mr)
    ∧ words (print_ips le mr)
        = if mr.range.flags &&& NF_NAT_RANGE_MAP_IPS ≠ 0 then ["to:".toList ++ ips_token le mr]
          else [] := by
  have he : " to:".toList ++ xtables_ipaddr_to_numeric le mr.range.min_ip
      ++ (if mr.range.max_ip ≠ mr.range.min_ip then
            '-' :: xtables_ipaddr_to_numeric le mr.range.max_ip else [])
      = ' ' :: ("to:".toList ++ ips_token le mr) := by
    unfold ips_token
    rw [List.append_assoc]
    rfl
  unfold print_ips
  rw [he]
  by_cases hf : mr.range.flags &&& NF_NAT_RANGE_MAP_IPS ≠ 0
  · rw [if_pos hf, if_pos hf]
    have h3 : ∀ c ∈ "to:".toList, c ≠ ' ' := by decide
    refine ⟨at_boundary_cons _, words_space_word _ (fun h => by cases h) ?_⟩
    intro c hc
    rcases List.mem_append.mp hc with hc | hc
    · exact h3 c hc
    · exact ips_token_chars le mr c hc
  · rw [if_neg hf, if_neg hf]
    exact ⟨at_boundary_nil, rfl⟩

theorem words_save_ips (le : Bool) (mr : nf_nat_ipv4_multi_range_compat_withtype) :
    at_boundary (save_ips le mr)
    ∧ words (save_ips le mr)
        = if mr.range.flags &&& NF_NAT_RANGE_MAP_IPS ≠ 0 then
            ["--to-source".toList, ips_token le mr]
          else [] := by
  have he : " --to-source ".toList ++ xtables_ipaddr_to_numeric le mr.range.min_ip
      ++ (if mr.range.max_ip ≠ mr.range.min_ip then
            '-' :: xtables_ipaddr_to_numeric le mr.range.max_ip else [])
      = ' ' :: ("--to-source".toList ++ (' ' :: ips_token le mr)) := by
    unfold ips_token
    rw [List.append_assoc]
    rfl
  unfold save_ips
  rw [he]
  by_cases hf : mr.range.flags &&& NF_NAT_RANGE_MAP_IPS ≠ 0
  · rw [if_pos hf, if_pos hf]
    refine ⟨at_boundary_cons _, ?_⟩
    rw [words_word_then _ _ (by decide) (by decide) (at_boundary_cons _),
      words_space_word _ (ips_token_ne_nil le mr) (ips_token_chars le mr)]
  · rw [if_neg hf, if_neg hf]
    exact ⟨at_boundary_nil, rfl⟩

theorem words_print_ports (le : Bool) (mr : nf_nat_ipv4_multi_range_compat_withtype) :
    at_boundary (print_ports le mr)
    ∧ words (print_ports le mr)
        = if mr.range.flags &&& NF_NAT_RANGE_PROTO_SPECIFIED ≠ 0 then
            ["masq".toList, "ports:".toList, ports_token le mr]
          else [] := by
  have he : " masq ports: ".toList ++ utoa (ntohs le mr.range.min_tcp_port)
      ++ (if mr.range.max_tcp_port ≠ mr.range.min_tcp_port then
            '-' :: utoa (ntohs le mr.range.max_tcp_port) else [])
      = ' ' :: ("masq".toList ++ (' ' :: ("ports:".toList ++ (' ' :: ports_token le mr)))) := by
    unfold ports_token
    rw [List.append_assoc]
    rfl
  unfold print_ports
  rw [he]
  by_cases hf : mr.range.flags &&& NF_NAT_RANGE_PROTO_SPECIFIED ≠ 0
  · rw [if_pos hf, if_pos hf]
    refine ⟨at_boundary_cons _, ?_⟩
    rw [words_word_then _ _ (by decide) (by decide) (at_boundary_cons _),
      words_word_then _ _ (by decide) (by decide) (at_boundary_cons _),
      words_space_word _ (ports_token_ne_nil le mr) (ports_token_chars le mr)]
  · rw [if_neg hf, if_neg hf]
    exact ⟨at_boundary_nil, rfl⟩

theorem words_save_ports (le : Bool) (mr : nf_nat_ipv4_multi_range_compat_withtype) :
    at_boundary (save_ports le mr)
    ∧ words (save_ports le mr)
        = if mr.range.flags &&& NF_NAT_RANGE_PROTO_SPECIFIED ≠ 0 then
            ["--to-ports".toList, ports_token le mr]
          else [] := by
  have he : " --to-ports ".toList ++ utoa (ntohs le mr.range.min_tcp_port)
      ++ (if mr.range.max_tcp_port ≠ mr.range.min_tcp_port then
            '-' :: utoa (ntohs le mr.range.max_tcp_port) else [])
      = ' ' :: ("--to-ports".toList ++ (' ' :: ports_token le mr)) := by
    unfold ports_token
    rw [List.append_assoc]
    rfl
  unfold save_ports
  rw [he]
  by_cases hf : mr.range.flags &&& NF_NAT_RANGE_PROTO_SPECIFIED ≠ 0
  · rw [if_pos hf, if_pos hf]
    refine ⟨at_boundary_cons _, ?_⟩
    rw [words_word_then _ _ (by decide) (by decide) (at_boundary_cons _),
      words_space_word _ (ports_token_ne_nil le mr) (ports_token_chars le mr)]
  · rw [if_neg hf, if_neg hf]
    exact ⟨at_boundary_nil, rfl⟩

theorem words_print_random (mr : nf_nat_ipv4_multi_range_compat_withtype) :
    at_boundary (print_random mr)
    ∧ words (print_random mr)
        = (if mr.range.flags &&& NF_NAT_RANGE_PROTO_RANDOM ≠ 0 then ["random".toList] else [])
          ++ (if mr.range.flags &&& NF_NAT_RANGE_PROTO_RANDOM_FULLY ≠ 0 then
                ["random-fully".toList] else []) := by
  unfold print_random
  by_cases h1 : mr.range.flags &&& NF_NAT_RANGE_PROTO_RANDOM ≠ 0
  · by_cases h2 : mr.range.flags &&& NF_NAT_RANGE_PROTO_RANDOM_FULLY ≠ 0
    · simp only [if_pos h1, if_pos h2]
      exact ⟨Or.inr ⟨_, rfl⟩, by decide⟩
    · simp only [if_pos h1, if_neg h2]
      exact ⟨Or.inr ⟨_, rfl⟩, by decide⟩
  · by_cases h2 : mr.range.flags &&& NF_NAT_RANGE_PROTO_RANDOM_FULLY ≠ 0
    · simp only [if_neg h1, if_pos h2]
      exact ⟨Or.inr ⟨_, rfl⟩, by decide⟩
    · simp only [if_neg h1, if_neg h2]
      exact ⟨at_boundary_nil, by decide⟩

theorem words_save_random (mr : nf_nat_ipv4_multi_range_compat_withtype) :
    at_boundary (save_random mr)
    ∧ words (save_random mr)
        = (if mr.range.flags &&& NF_NAT_RANGE_PROTO_RANDOM ≠ 0 then ["--random".toList] else [])
          ++ (if mr.range.flags &&& NF_NAT_RANGE_PROTO_RANDOM_FULLY ≠ 0 then
                ["--random-fully".toList] else []) := by
  unfold save_random
  by_cases h1 : mr.range.flags &&& NF_NAT_RANGE_PROTO_RANDOM ≠ 0
  · by_cases h2 : mr.range.flags &&& NF_NAT_RANGE_PROTO_RANDOM_FULLY ≠ 0
    · simp only [if_pos h1, if_pos h2]
      exact ⟨Or.inr ⟨_, rfl⟩, by decide⟩
    · simp only [if_pos h1, if_neg h2]
      exact ⟨Or.inr ⟨_, rfl⟩, by decide⟩
  · by_cases h2 : mr.range.flags &&& NF_NAT_RANGE_PROTO_RANDOM_FULLY ≠ 0
    · simp only [if_neg h1, if_pos h2]
      exact ⟨Or.inr ⟨_, rfl⟩, by decide⟩
    · simp only [if_neg h1, if_neg h2]
      exact ⟨at_boundary_nil, by decide⟩

theorem words_nattype_text (n : Int) :
    at_boundary (nattype_text n)
    ∧ words (nattype_text n)
        = if n = NAT_TYPE_FULL_CONE ∨ n = NAT_TYPE_Address_Restricted ∨ n = NAT_TYPE_Port_Restricted
          then [class_token n] else [] := by
  unfold nattype_text class_token
  by_cases h0 : n = NAT_TYPE_FULL_CONE
  · simp only [h0, if_true, true_or]
    exact ⟨Or.inr ⟨_, rfl⟩, by decide⟩
  · by_cases h1 : n = NAT_TYPE_Address_Restricted
    · simp only [h0, h1, if_true, if_false, true_or, or_true]
      exact ⟨Or.inr ⟨_, rfl⟩, by decide⟩
    · by_cases h2 : n = NAT_TYPE_Port_Restricted
      · simp only [h0, h1, h2, if_true, if_false, true_or, or_true]
        exact ⟨Or.inr ⟨_, rfl⟩, by decide⟩
      · simp only [h0, h1, h2, if_false, or_self]
        exact ⟨at_boundary_nil, rfl⟩

/-- The words of the display form: the words of the four optional parts, then
the class token when the class value is one of the three. -/
theorem words_FULLCONENAT_print (le : Bool) (mr : nf_nat_ipv4_multi_range_compat_withtype) :
    words (FULLCONENAT_print le mr) = print_words le mr ++ words (nattype_text mr.nattype) := by
  obtain ⟨_, w1⟩ := words_print_ips le mr
  obtain ⟨b2, w2⟩ := words_print_ports le mr
  obtain ⟨b3, w3⟩ := words_print_random mr
  obtain ⟨b4, _⟩ := words_nattype_text mr.nattype
  rw [FULLCONENAT_print_parts, words_append _ _ b4, words_append _ _ b3, words_append _ _ b2,
    w1, w2, w3]
  simp only [print_words, List.append_assoc]

/-- The words of the save form. -/
theorem words_FULLCONENAT_save (le : Bool) (mr : nf_nat_ipv4_multi_range_compat_withtype) :
    words (FULLCONENAT_save le mr) = save_words le mr ++ words (nattype_text mr.nattype) := by
  obtain ⟨_, w1⟩ := words_save_ips le mr
  obtain ⟨b2, w2⟩ := words_save_ports le mr
  obtain ⟨b3, w3⟩ := words_save_random mr
  obtain ⟨b4, _⟩ := words_nattype_text mr.nattype
  rw [FULLCONENAT_save_parts, words_append _ _ b4, words_append _ _ b3, words_append _ _ b2,
    w1, w2, w3]
  simp only [save_words, List.append_assoc]

theorem print_words_not_class (le : Bool) (mr : nf_nat_ipv4_multi_range_compat_withtype) :
    ∀ w ∈ print_words le mr, is_class_token w = false := by
  intro w hw
  unfold print_words at hw
  simp only [List.mem_append] at hw
  rcases hw with ((hw | hw) | hw) | hw <;> split_ifs at hw <;>
    simp only [List.mem_cons, List.mem_singleton, List.not_mem_nil, or_false] at hw
  · subst hw
    exact not_class_of_head _ 't' rfl (by decide)
  · rcases hw with hw | hw | hw
    · subst hw; decide
    · subst hw; decide
    · subst hw
      obtain ⟨d, hd, hh⟩ := ports_token_head le mr
      exact digit_head_not_class _ d hd hh
  · subst hw; decide
  · subst hw; decide

theorem save_words_not_class (le : Bool) (mr : nf_nat_ipv4_multi_range_compat_withtype) :
    ∀ w ∈ save_words le mr, is_class_token w = false := by
  intro w hw
  unfold save_words at hw
  simp only [List.mem_append] at hw
  rcases hw with ((hw | hw) | hw) | hw <;> split_ifs at hw <;>
    simp only [List.mem_cons, List.mem_singleton, List.not_mem_nil, or_false] at hw
  · rcases hw with hw | hw
    · subst hw; decide
    · subst hw
      obtain ⟨d, hd, hh⟩ := ips_token_head le mr
      exact digit_head_not_class _ d hd hh
  · rcases hw with hw | hw
    · subst hw; decide
    · subst hw
      obtain ⟨d, hd, hh⟩ := ports_token_head le mr
      exact digit_head_not_class _ d hd hh
  · subst hw; decide
  · subst hw; decide

theorem filter_class_append (ws : List CStr) (w : CStr)
    (hws : ∀ x ∈ ws, is_class_token x = false) (hw : is_class_token w = true) :
    (ws ++ [w]).filter is_class_token = [w] := by
  induction ws with
  | nil => simp [List.filter, hw]
  | cons x xs ih =>
    have hx : is_class_token x = false := hws x (List.mem_cons_self _ _)
    have := ih (fun y hy => hws y (List.mem_cons_of_mem _ hy))
    rw [List.cons_append, List.filter_cons_of_neg (by simp [hx]), this]

theorem class_token_is_class (n : Int) : is_class_token (class_token n) = true := by
  unfold class_token
  split_ifs <;> decide

/-- With a class value among the three, the display form is the optional words
followed by the class token, which is its only class token. -/
theorem words_print_class (le : Bool) (mr : nf_nat_ipv4_multi_range_compat_withtype)
    (h : mr.nattype = NAT_TYPE_FULL_CONE ∨ mr.nattype = NAT_TYPE_Address_Restricted
      ∨ mr.nattype = NAT_TYPE_Port_Restricted) :
    words (FULLCONENAT_print le mr) = print_words le mr ++ [class_token mr.nattype]
    ∧ (words (FULLCONENAT_print le mr)).getLast? = some (class_token mr.nattype)
    ∧ (words (FULLCONENAT_print le mr)).filter is_class_token = [class_token mr.nattype] := by
  have hw : words (FULLCONENAT_print le mr) = print_words le mr ++ [class_token mr.nattype] := by
    rw [words_FULLCONENAT_print, (words_nattype_text mr.nattype).2, if_pos h]
  refine ⟨hw, ?_, ?_⟩
  · rw [hw, List.getLast?_append]
    rfl
  · rw [hw]
    exact filter_class_append _ _ (print_words_not_class le mr) (class_token_is_class _)

/-- The same for the save form. -/
theorem words_save_class (le : Bool) (mr : nf_nat_ipv4_multi_range_compat_withtype)
    (h : mr.nattype = NAT_TYPE_FULL_CONE ∨ mr.nattype = NAT_TYPE_Address_Restricted
      ∨ mr.nattype = NAT_TYPE_Port_Restricted) :
    words (FULLCONENAT_save le mr) = save_words le mr ++ [class_token mr.nattype]
    ∧ (words (FULLCONENAT_save le mr)).getLast? = some (class_token mr.nattype)
    ∧ (words (FULLCONENAT_save le mr)).filter is_class_token = [class_token mr.nattype] := by
  have hw : words (FULLCONENAT_save le mr) = save_words le mr ++ [class_token mr.nattype] := by
    rw [words_FULLCONENAT_save, (words_nattype_text mr.nattype).2, if_pos h]
  refine ⟨hw, ?_, ?_⟩
  · rw [hw, List.getLast?_append]
    rfl
  · rw [hw]
    exact filter_class_append _ _ (save_words_not_class le mr) (class_token_is_class _)

/-- The class switch of both renderers has three cases and no default: for the
value 3, which no option of this target stores, nothing is written for the
class; the last word is `random`, resp. `--random`. -/
theorem class_switch_has_no_default :
    FULLCONENAT_print true ⟨1, ⟨4, 0, 0, 0, 0⟩, 3⟩ = " random".toList
    ∧ FULLCONENAT_save true ⟨1, ⟨4, 0, 0, 0, 0⟩, 3⟩ = " --random".toList
    ∧ (words (FULLCONENAT_print true ⟨1, ⟨4, 0, 0, 0, 0⟩, 3⟩)).filter is_class_token = []
    ∧ (words (FULLCONENAT_save true ⟨1, ⟨4, 0, 0, 0, 0⟩, 3⟩)).filter is_class_token = []
    ∧ (words (FULLCONENAT_print true ⟨1, ⟨4, 0, 0, 0, 0⟩, 3⟩)).getLast? = some "random".toList := by
  decide

/-- C9. The renderers write exactly one class token. For every descriptor whose
class field holds one of the three class values 0, 1, 2 (the class invariant of
the descriptor, kept by every run of accepted options), and every host byte
order: the words written by `FULLCONENAT_print` and by `FULLCONENAT_save` are
the words of the optional parts followed by one class token; that token is the
last word, it is the only class token of the output, and it names the
descriptor's class (`full-cone` for 0, `address-restricted` for 1,
`port-restricted` for 2). -/
theorem C9_one_class_token (le : Bool) (mr : nf_nat_ipv4_multi_range_compat_withtype)
    (h : mr.nattype = NAT_TYPE_FULL_CONE ∨ mr.nattype = NAT_TYPE_Address_Restricted
      ∨ mr.nattype = NAT_TYPE_Port_Restricted) :
    (words (FULLCONENAT_print le mr) = print_words le mr ++ [class_token mr.nattype]
      ∧ (words (FULLCONENAT_print le mr)).getLast? = some (class_token mr.nattype)
      ∧ (words (FULLCONENAT_print le mr)).filter is_class_token = [class_token mr.nattype])
    ∧ (words (FULLCONENAT_save le mr) = save_words le mr ++ [class_token mr.nattype]
      ∧ (words (FULLCONENAT_save le mr)).getLast? = some (class_token mr.nattype)
      ∧ (words (FULLCONENAT_save le mr)).filter is_class_token = [class_token mr.nattype])
    ∧ (mr.nattype = NAT_TYPE_FULL_CONE → class_token mr.nattype = "full-cone".toList)
    ∧ (mr.nattype = NAT_TYPE_Address_Restricted →
        class_token mr.nattype = "address-restricted".toList)
    ∧ (mr.nattype = NAT_TYPE_Port_Restricted →
        class_token mr.nattype = "port-restricted".toList) := by
  refine ⟨words_print_class le mr h, words_save_class le mr h, ?_, ?_, ?_⟩
  · intro h0; rw [h0]; rfl
  · intro h1; rw [h1]; rfl
  · intro h2; rw [h2]; rfl

/-- C9 on a descriptor with all four flags set, an address range, a
port range and class Port-Restricted. -/
theorem C9_one_class_token_witness :
    (words (FULLCONENAT_print true ⟨1, ⟨23, 1, 2, 3, 4⟩, 2⟩)
        = print_words true ⟨1, ⟨23, 1, 2, 3, 4⟩, 2⟩ ++ [class_token 2]
      ∧ (words (FULLCONENAT_print true ⟨1, ⟨23, 1, 2, 3, 4⟩, 2⟩)).getLast? = some (class_token 2)
      ∧ (words (FULLCONENAT_print true ⟨1, ⟨23, 1, 2, 3, 4⟩, 2⟩)).filter is_class_token
          = [class_token 2])
    ∧ (words (FULLCONENAT_save true ⟨1, ⟨23, 1, 2, 3, 4⟩, 2⟩)
        = save_words true ⟨1, ⟨23, 1, 2, 3, 4⟩, 2⟩ ++ [class_token 2]
      ∧ (words (FULLCONENAT_save true ⟨1, ⟨23, 1, 2, 3, 4⟩, 2⟩)).getLast? = some (class_token 2)
      ∧ (words (FULLCONENAT_save true ⟨1, ⟨23, 1, 2, 3, 4⟩, 2⟩)).filter is_class_token
          = [class_token 2])
    ∧ ((2 : Int) = NAT_TYPE_FULL_CONE → class_token 2 = "full-cone".toList)
    ∧ ((2 : Int) = NAT_TYPE_Address_Restricted → class_token 2 = "address-restricted".toList)
    ∧ ((2 : Int) = NAT_TYPE_Port_Restricted → class_token 2 = "port-restricted".toList) :=
  C9_one_class_token true ⟨1, ⟨23, 1, 2, 3, 4⟩, 2⟩ (Or.inr (Or.inr rfl))

/-! ## The class field along a run of options -/

theorem xtables_option_parse_done (cb cb1 : xt_option_call)
    (h : xtables_option_parse cb = Run.done cb1) :
    cb1 = { cb with xflags := cb.xflags ||| (1 <<< cb.entry.id) } := by
  unfold xtables_option_parse at h
  split_ifs at h
  cases h
  rfl

theorem parse_nat_type_done (arg : CStr) (mr d : nf_nat_ipv4_multi_range_compat_withtype)
    (h : parse_nat_type arg mr = Run.done d) :
    d.range = mr.range ∧ d.rangesize = mr.rangesize
      ∧ (d.nattype = NAT_TYPE_FULL_CONE ∨ d.nattype = NAT_TYPE_Address_Restricted
        ∨ d.nattype = NAT_TYPE_Port_Restricted) := by
  unfold parse_nat_type at h
  split_ifs at h <;> cases h
  · exact ⟨rfl, rfl, Or.inl rfl⟩
  · exact ⟨rfl, rfl, Or.inr (Or.inl rfl)⟩
  · exact ⟨rfl, rfl, Or.inr (Or.inr rfl)⟩

theorem lift_done {σ τ : Type} (f : σ → τ) (r : Run σ) (t : τ) (h : r.lift f = Run.done t) :
    ∃ s, r = Run.done s ∧ t = f s := by
  cases r with
  | done s => exact ⟨s, rfl, by simpa [Run.lift] using h.symm⟩
  | exit e s => simp [Run.lift] at h

/-- An option other than nat-type leaves the class field as it was. -/
theorem FULLCONENAT_parse_nattype (le : Bool) (cb cb' : xt_option_call)
    (h : FULLCONENAT_parse le cb = Run.done cb') (hid : cb.entry.id ≠ O_NAT_TYPE) :
    cb'.data.nattype = cb.data.nattype := by
  unfold FULLCONENAT_parse at h
  cases hx : xtables_option_parse cb with
  | exit e s => rw [hx] at h; cases h
  | done cb1 =>
    have h1 := xtables_option_parse_done cb cb1 hx
    rw [hx] at h
    simp only at h
    have hid1 : cb1.entry.id ≠ O_NAT_TYPE := by rw [h1]; exact hid
    have hd1 : cb1.data = cb.data := by rw [h1]
    rw [← hd1]
    split_ifs at h
    · obtain ⟨d, hq, rfl⟩ := lift_done _ _ _ h
      exact parse_ports_done_nattype le _ d _ hq
    · obtain ⟨d, hq, rfl⟩ := lift_done _ _ _ h
      exact parse_to_done_nattype le _ d _ hq
    · cases h; rfl
    · cases h; rfl
    · cases h; rfl

theorem xtables_option_tpcall_nattype (le : Bool) (proto : Nat) (u : option_use)
    (st st' : target_state) (h : xtables_option_tpcall le proto u st = Run.done st')
    (hid : u.entry.id ≠ O_NAT_TYPE) : st'.data.nattype = st.data.nattype := by
  unfold xtables_option_tpcall at h
  obtain ⟨cb, hq, rfl⟩ := lift_done _ _ _ h
  exact FULLCONENAT_parse_nattype le _ cb hq hid

theorem apply_options_nattype (le : Bool) (proto : Nat) (us : List option_use) :
    ∀ (st st' : target_state), apply_options le proto us st = Run.done st' →
      (∀ u ∈ us, u.entry.id ≠ O_NAT_TYPE) → st'.data.nattype = st.data.nattype := by
  induction us with
  | nil =>
    intro st st' h _
    simp only [apply_options] at h
    cases h
    rfl
  | cons u us ih =>
    intro st st' h hno
    simp only [apply_options] at h
    cases hq : xtables_option_tpcall le proto u st with
    | exit e s => rw [hq] at h; simp [Run.andThen] at h
    | done s1 =>
      rw [hq] at h
      simp only [Run.andThen] at h
      rw [ih s1 st' h (fun x hx => hno x (List.mem_cons_of_mem _ hx))]
      exact xtables_option_tpcall_nattype le proto u st s1 hq (hno u (List.mem_cons_self _ _))

/-- C10. Implicit default class is rendered: on every descriptor reached from
the initialized zero-filled descriptor by a run of accepted options none of
which is nat-type, the class field is still 0 and both renderers end their
output with ` full-cone`: the output is the optional parts followed by that
text, its last word is `full-cone` and no other word is a class token. -/
theorem C10_default_class_rendered (le : Bool) (proto : Nat) (us : List option_use)
    (st : target_state) (hno : ∀ u ∈ us, u.entry.id ≠ O_NAT_TYPE)
    (hrun : apply_options le proto us initial_state = Run.done st) :
    st.data.nattype = NAT_TYPE_FULL_CONE
    ∧ FULLCONENAT_print le st.data
        = print_ips le st.data ++ print_ports le st.data ++ print_random st.data
            ++ " full-cone".toList
    ∧ FULLCONENAT_save le st.data
        = save_ips le st.data ++ save_ports le st.data ++ save_random st.data
            ++ " full-cone".toList
    ∧ words (FULLCONENAT_print le st.data) = print_words le st.data ++ ["full-cone".toList]
    ∧ words (FULLCONENAT_save le st.data) = save_words le st.data ++ ["full-cone".toList]
    ∧ (words (FULLCONENAT_print le st.data)).filter is_class_token = ["full-cone".toList]
    ∧ (words (FULLCONENAT_save le st.data)).filter is_class_token = ["full-cone".toList] := by
  have h0 : st.data.nattype = NAT_TYPE_FULL_CONE :=
    apply_options_nattype le proto us initial_state st hrun hno
  have hp := words_print_class le st.data (Or.inl h0)
  have hs := words_save_class le st.data (Or.inl h0)
  have hc : class_token st.data.nattype = "full-cone".toList := by rw [h0]; rfl
  have ht : nattype_text st.data.nattype = " full-cone".toList := by rw [h0]; rfl
  rw [hc] at hp hs
  refine ⟨h0, ?_, ?_, hp.1, hs.1, hp.2.2, hs.2.2⟩
  · rw [FULLCONENAT_print_parts, ht]
  · rw [FULLCONENAT_save_parts, ht]

/-- C10 on the run `to-source 10.0.0.1-10.0.0.9`, `to-ports 80`, `random` of a
UDP rule. -/
theorem C10_default_class_rendered_witness :
    (⟨11, ⟨1, ⟨7, 16777226, 150994954, 20480, 20480⟩, 0⟩⟩ : target_state).data.nattype
        = NAT_TYPE_FULL_CONE
    ∧ FULLCONENAT_print true ⟨1, ⟨7, 16777226, 150994954, 20480, 20480⟩, 0⟩
        = " to:10.0.0.1-10.0.0.9 masq ports: 80 random full-cone".toList
    ∧ FULLCONENAT_save true ⟨1, ⟨7, 16777226, 150994954, 20480, 20480⟩, 0⟩
        = " --to-source 10.0.0.1-10.0.0.9 --to-ports 80 --random full-cone".toList :=
  have h := C10_default_class_rendered true IPPROTO_UDP
    [⟨opt_to_source, "10.0.0.1-10.0.0.9".toList, false⟩, ⟨opt_to_ports, "80".toList, false⟩,
      ⟨opt_random, [], false⟩]
    ⟨11, ⟨1, ⟨7, 16777226, 150994954, 20480, 20480⟩, 0⟩⟩ (by decide) (by decide)
  ⟨h.1, h.2.1.trans (by decide), h.2.2.1.trans (by decide)⟩

/-! ## Addresses in canonical dotted form -/

theorem toDigitsCore_length (k : Nat) :
    ∀ (fuel n : Nat) (ds : CStr), n < 10 ^ (k + 1) →
      (Nat.toDigitsCore 10 fuel n ds).length ≤ ds.length + k + 1 := by
  induction k with
  | zero =>
    intro fuel n ds h
    cases fuel with
    | zero => simp [Nat.toDigitsCore]
    | succ fuel =>
      have h0 : n / 10 = 0 := by omega
      simp [Nat.toDigitsCore, h0]
  | succ k ih =>
    intro fuel n ds h
    cases fuel with
    | zero => simp only [Nat.toDigitsCore]; omega
    | succ fuel =>
      unfold Nat.toDigitsCore
      by_cases h0 : n / 10 = 0
      · simp only [h0, if_true, List.length_cons]; omega
      · simp only [h0, if_false]
        have hlt : n / 10 < 10 ^ (k + 1) := by
          rw [Nat.div_lt_iff_lt_mul (by norm_num)]
          calc n < 10 ^ (k + 1 + 1) := h
            _ = 10 ^ (k + 1) * 10 := by ring
        have := ih fuel (n / 10) (Nat.digitChar (n % 10) :: ds) hlt
        simp only [List.length_cons] at this
        omega

theorem utoa_length_byte (b : Nat) (h : b ≤ 255) : (utoa b).length ≤ 3 := by
  have := toDigitsCore_length 2 (b + 1) b [] (by norm_num; omega)
  simpa [utoa, Nat.toDigits] using this

theorem strchr_cut_append (x : Char) (w rest : CStr) (hw : ∀ c ∈ w, c ≠ x) :
    strchr_cut x (w ++ x :: rest) = some (w, rest) := by
  induction w with
  | nil => simp [strchr_cut]
  | cons c cs ih =>
    have hc : c ≠ x := hw c (List.mem_cons_self _ _)
    have ih' := ih (fun y hy => hw y (List.mem_cons_of_mem _ hy))
    simp [strchr_cut, hc, ih']

theorem strchr_cut_none (x : Char) (w : CStr) (hw : ∀ c ∈ w, c ≠ x) : strchr_cut x w = none := by
  induction w with
  | nil => rfl
  | cons c cs ih =>
    have hc : c ≠ x := hw c (List.mem_cons_self _ _)
    have ih' := ih (fun y hy => hw y (List.mem_cons_of_mem _ hy))
    simp [strchr_cut, hc, ih']

theorem onebyte_utoa (b : Nat) (h : b ≤ 255) : onebyte (utoa b) = some b := by
  unfold onebyte
  rw [xtables_strtoui_utoa_all b 255 (by norm_num) (by norm_num), if_pos h]
  rfl

theorem dotted_length (b0 b1 b2 b3 : Nat) (h0 : b0 ≤ 255) (h1 : b1 ≤ 255) (h2 : b2 ≤ 255)
    (h3 : b3 ≤ 255) : (dotted b0 b1 b2 b3).length ≤ 15 := by
  have l0 := utoa_length_byte b0 h0
  have l1 := utoa_length_byte b1 h1
  have l2 := utoa_length_byte b2 h2
  have l3 := utoa_length_byte b3 h3
  simp only [dotted, List.length_append, List.length_cons]
  omega

theorem dotted_no_dash (b0 b1 b2 b3 : Nat) : ∀ c ∈ dotted b0 b1 b2 b3, c ≠ '-' := by
  intro c hc
  unfold dotted at hc
  simp only [List.mem_append, List.mem_cons] at hc
  rcases hc with ((hc | hc | hc) | hc | hc) | hc | hc
  · exact (utoa_no_sep _ c hc).2.1
  · subst hc; decide
  · exact (utoa_no_sep _ c hc).2.1
  · subst hc; decide
  · exact (utoa_no_sep _ c hc).2.1
  · subst hc; decide
  · exact (utoa_no_sep _ c hc).2.1

/-- The address reader on a canonical dotted token. -/
theorem xtables_numeric_to_ipaddr_dotted (le : Bool) (b0 b1 b2 b3 : Nat) (h0 : b0 ≤ 255)
    (h1 : b1 ≤ 255) (h2 : b2 ≤ 255) (h3 : b3 ≤ 255) :
    xtables_numeric_to_ipaddr le (dotted b0 b1 b2 b3) = some (in_addr_of_bytes le b0 b1 b2 b3) := by
  have hdot : ∀ n, ∀ c ∈ utoa n, c ≠ '.' := fun n c hc => (utoa_no_sep n c hc).2.2
  have htake : (dotted b0 b1 b2 b3).take 19 = dotted b0 b1 b2 b3 :=
    List.take_of_length_le (by have := dotted_length b0 b1 b2 b3 h0 h1 h2 h3; omega)
  have e0 : dotted b0 b1 b2 b3 = utoa b0 ++ '.' :: (utoa b1 ++ '.' :: (utoa b2 ++ '.' :: utoa b3)) := by
    simp [dotted, List.append_assoc]
  unfold xtables_numeric_to_ipaddr
  simp only [htake]
  rw [e0, strchr_cut_append '.' _ _ (hdot b0)]
  simp only [onebyte_utoa b0 h0]
  rw [strchr_cut_append '.' _ _ (hdot b1)]
  simp only [onebyte_utoa b1 h1]
  rw [strchr_cut_append '.' _ _ (hdot b2)]
  simp only [onebyte_utoa b2 h2, onebyte_utoa b3 h3]
  rfl

theorem in_addr_byte_of_bytes (le : Bool) (b0 b1 b2 b3 : Nat) (h0 : b0 ≤ 255) (h1 : b1 ≤ 255)
    (h2 : b2 ≤ 255) (h3 : b3 ≤ 255) :
    in_addr_byte le (in_addr_of_bytes le b0 b1 b2 b3) 0 = b0
    ∧ in_addr_byte le (in_addr_of_bytes le b0 b1 b2 b3) 1 = b1
    ∧ in_addr_byte le (in_addr_of_bytes le b0 b1 b2 b3) 2 = b2
    ∧ in_addr_byte le (in_addr_of_bytes le b0 b1 b2 b3) 3 = b3 := by
  cases le <;> simp only [in_addr_byte, in_addr_of_bytes, if_true, if_false, Bool.false_eq_true] <;>
    norm_num <;> refine ⟨?_, ?_, ?_, ?_⟩ <;> omega

/-- The address writer gives back the canonical dotted token. -/
theorem xtables_ipaddr_to_numeric_of_bytes (le : Bool) (b0 b1 b2 b3 : Nat) (h0 : b0 ≤ 255)
    (h1 : b1 ≤ 255) (h2 : b2 ≤ 255) (h3 : b3 ≤ 255) :
    xtables_ipaddr_to_numeric le (in_addr_of_bytes le b0 b1 b2 b3) = dotted b0 b1 b2 b3 := by
  obtain ⟨e0, e1, e2, e3⟩ := in_addr_byte_of_bytes le b0 b1 b2 b3 h0 h1 h2 h3
  unfold xtables_ipaddr_to_numeric dotted
  rw [e0, e1, e2, e3]

theorem in_addr_of_bytes_inj (le : Bool) (b0 b1 b2 b3 c0 c1 c2 c3 : Nat) (h0 : b0 ≤ 255)
    (h1 : b1 ≤ 255) (h2 : b2 ≤ 255) (h3 : b3 ≤ 255) (k0 : c0 ≤ 255) (k1 : c1 ≤ 255)
    (k2 : c2 ≤ 255) (k3 : c3 ≤ 255)
    (h : in_addr_of_bytes le b0 b1 b2 b3 = in_addr_of_bytes le c0 c1 c2 c3) :
    b0 = c0 ∧ b1 = c1 ∧ b2 = c2 ∧ b3 = c3 := by
  obtain ⟨e0, e1, e2, e3⟩ := in_addr_byte_of_bytes le b0 b1 b2 b3 h0 h1 h2 h3
  obtain ⟨f0, f1, f2, f3⟩ := in_addr_byte_of_bytes le c0 c1 c2 c3 k0 k1 k2 k3
  rw [h] at e0 e1 e2 e3
  exact ⟨e0.symm.trans f0, e1.symm.trans f1, e2.symm.trans f2, e3.symm.trans f3⟩

theorem parse_to_single (le : Bool) (mr : nf_nat_ipv4_multi_range_compat_withtype)
    (b0 b1 b2 b3 : Nat) (h0 : b0 ≤ 255) (h1 : b1 ≤ 255) (h2 : b2 ≤ 255) (h3 : b3 ≤ 255) :
    parse_to le (dotted b0 b1 b2 b3) mr
      = Run.done (with_ips mr (in_addr_of_bytes le b0 b1 b2 b3)
          (in_addr_of_bytes le b0 b1 b2 b3)) := by
  unfold parse_to
  simp only [strchr_cut_none '-' _ (dotted_no_dash b0 b1 b2 b3),
    xtables_numeric_to_ipaddr_dotted le b0 b1 b2 b3 h0 h1 h2 h3]
  rfl

theorem parse_to_pair (le : Bool) (mr : nf_nat_ipv4_multi_range_compat_withtype)
    (b0 b1 b2 b3 c0 c1 c2 c3 : Nat) (h0 : b0 ≤ 255) (h1 : b1 ≤ 255) (h2 : b2 ≤ 255)
    (h3 : b3 ≤ 255) (k0 : c0 ≤ 255) (k1 : c1 ≤ 255) (k2 : c2 ≤ 255) (k3 : c3 ≤ 255) :
    parse_to le (dotted b0 b1 b2 b3 ++ '-' :: dotted c0 c1 c2 c3) mr
      = Run.done (with_ips mr (in_addr_of_bytes le b0 b1 b2 b3)
          (in_addr_of_bytes le c0 c1 c2 c3)) := by
  unfold parse_to
  simp only [strchr_cut_append '-' _ _ (dotted_no_dash b0 b1 b2 b3),
    xtables_numeric_to_ipaddr_dotted le b0 b1 b2 b3 h0 h1 h2 h3,
    xtables_numeric_to_ipaddr_dotted le c0 c1 c2 c3 k0 k1 k2 k3]
  rfl

theorem parts_with_ips (le : Bool) (mr : nf_nat_ipv4_multi_range_compat_withtype) (a b : Nat) :
    print_ports le (with_ips mr a b) = print_ports le mr
    ∧ save_ports le (with_ips mr a b) = save_ports le mr
    ∧ print_random (with_ips mr a b) = print_random mr
    ∧ save_random (with_ips mr a b) = save_random mr
    ∧ (with_ips mr a b).nattype = mr.nattype
    ∧ print_ips le (with_ips mr a b)
        = " to:".toList ++ xtables_ipaddr_to_numeric le a
            ++ (if b ≠ a then '-' :: xtables_ipaddr_to_numeric le b else [])
    ∧ save_ips le (with_ips mr a b)
        = " --to-source ".toList ++ xtables_ipaddr_to_numeric le a
            ++ (if b ≠ a then '-' :: xtables_ipaddr_to_numeric le b else []) := by
  have h1 : (mr.range.flags ||| NF_NAT_RANGE_MAP_IPS) &&& NF_NAT_RANGE_PROTO_SPECIFIED
      = mr.range.flags &&& NF_NAT_RANGE_PROTO_SPECIFIED :=
    or_two_pow_and_other mr.range.flags 0 1 (by decide)
  have h2 : (mr.range.flags ||| NF_NAT_RANGE_MAP_IPS) &&& NF_NAT_RANGE_PROTO_RANDOM
      = mr.range.flags &&& NF_NAT_RANGE_PROTO_RANDOM := or_two_pow_and_other mr.range.flags 0 2 (by decide)
  have h4 : (mr.range.flags ||| NF_NAT_RANGE_MAP_IPS) &&& NF_NAT_RANGE_PROTO_RANDOM_FULLY
      = mr.range.flags &&& NF_NAT_RANGE_PROTO_RANDOM_FULLY :=
    or_two_pow_and_other mr.range.flags 0 4 (by decide)
  have h0 : (mr.range.flags ||| NF_NAT_RANGE_MAP_IPS) &&& NF_NAT_RANGE_MAP_IPS ≠ 0 :=
    or_two_pow_and_same mr.range.flags 0
  simp only [print_ips, save_ips, print_ports, save_ports, print_random, save_random, with_ips,
    h0, h1, h2, h4, and_self, ne_eq, not_false_eq_true, if_true]

/-- The address token of the specification for a range given by two canonical
tokens: the first alone when both name the same address, else `a-b`. -/
theorem ips_text_of_bytes (le : Bool) (b0 b1 b2 b3 c0 c1 c2 c3 : Nat) (h0 : b0 ≤ 255)
    (h1 : b1 ≤ 255) (h2 : b2 ≤ 255) (h3 : b3 ≤ 255) (k0 : c0 ≤ 255) (k1 : c1 ≤ 255)
    (k2 : c2 ≤ 255) (k3 : c3 ≤ 255) :
    xtables_ipaddr_to_numeric le (in_addr_of_bytes le b0 b1 b2 b3)
        ++ (if in_addr_of_bytes le c0 c1 c2 c3 ≠ in_addr_of_bytes le b0 b1 b2 b3 then
              '-' :: xtables_ipaddr_to_numeric le (in_addr_of_bytes le c0 c1 c2 c3)
            else [])
      = if b0 = c0 ∧ b1 = c1 ∧ b2 = c2 ∧ b3 = c3 then dotted b0 b1 b2 b3
        else dotted b0 b1 b2 b3 ++ '-' :: dotted c0 c1 c2 c3 := by
  rw [xtables_ipaddr_to_numeric_of_bytes le b0 b1 b2 b3 h0 h1 h2 h3,
    xtables_ipaddr_to_numeric_of_bytes le c0 c1 c2 c3 k0 k1 k2 k3]
  by_cases he : b0 = c0 ∧ b1 = c1 ∧ b2 = c2 ∧ b3 = c3
  · obtain ⟨rfl, rfl, rfl, rfl⟩ := he
    simp
  · have hne : in_addr_of_bytes le c0 c1 c2 c3 ≠ in_addr_of_bytes le b0 b1 b2 b3 := by
      intro hc
      exact he (in_addr_of_bytes_inj le b0 b1 b2 b3 c0 c1 c2 c3 h0 h1 h2 h3 k0 k1 k2 k3 hc.symm)
    rw [if_pos hne, if_neg he]

/-- C3 as stated fails: `10` and `010.0.0.1` are address tokens that `parse_to`
accepts, and the renderers write them back as `10.0.0.0` and `8.0.0.1`. -/
theorem C3_counterexample :
    parse_to true "10".toList (FULLCONENAT_init zero_filled)
      = Run.done ⟨1, ⟨1, 10, 10, 0, 0⟩, 0⟩
    ∧ FULLCONENAT_print true ⟨1, ⟨1, 10, 10, 0, 0⟩, 0⟩ = " to:10.0.0.0 full-cone".toList
    ∧ FULLCONENAT_save true ⟨1, ⟨1, 10, 10, 0, 0⟩, 0⟩ = " --to-source 10.0.0.0 full-cone".toList
    ∧ parse_to true "010.0.0.1".toList (FULLCONENAT_init zero_filled)
      = Run.done ⟨1, ⟨1, 16777224, 16777224, 0, 0⟩, 0⟩
    ∧ FULLCONENAT_print true ⟨1, ⟨1, 16777224, 16777224, 0, 0⟩, 0⟩
      = " to:8.0.0.1 full-cone".toList
    ∧ FULLCONENAT_save true ⟨1, ⟨1, 16777224, 16777224, 0, 0⟩, 0⟩
      = " --to-source 8.0.0.1 full-cone".toList := by
  decide

/-- C3, amended. For address tokens in canonical dotted-decimal form (four
decimal numbers in [0,255], written as the renderer writes them): `parse_to`
accepts the single token `a` and both renderers write the address label followed
by `a`; it accepts `a-b` and both renderers write the label followed by `a-b`
when `a` and `b` are different addresses, and by `a` alone when they are the
same; the other parts of the output are those of the descriptor given. -/
theorem C3_address_round_trip (le : Bool) (mr : nf_nat_ipv4_multi_range_compat_withtype)
    (b0 b1 b2 b3 c0 c1 c2 c3 : Nat)
    (hb : b0 ≤ 255 ∧ b1 ≤ 255 ∧ b2 ≤ 255 ∧ b3 ≤ 255)
    (hc : c0 ≤ 255 ∧ c1 ≤ 255 ∧ c2 ≤ 255 ∧ c3 ≤ 255) :
    (∃ d, parse_to le (dotted b0 b1 b2 b3) mr = Run.done d
      ∧ FULLCONENAT_print le d
          = " to:".toList ++ dotted b0 b1 b2 b3
              ++ print_ports le mr ++ print_random mr ++ nattype_text mr.nattype
      ∧ FULLCONENAT_save le d
          = " --to-source ".toList ++ dotted b0 b1 b2 b3
              ++ save_ports le mr ++ save_random mr ++ nattype_text mr.nattype)
    ∧ (∃ d, parse_to le (dotted b0 b1 b2 b3 ++ '-' :: dotted c0 c1 c2 c3) mr = Run.done d
      ∧ FULLCONENAT_print le d
          = " to:".toList
              ++ (if b0 = c0 ∧ b1 = c1 ∧ b2 = c2 ∧ b3 = c3 then dotted b0 b1 b2 b3
                  else dotted b0 b1 b2 b3 ++ '-' :: dotted c0 c1 c2 c3)
              ++ print_ports le mr ++ print_random mr ++ nattype_text mr.nattype
      ∧ FULLCONENAT_save le d
          = " --to-source ".toList
              ++ (if b0 = c0 ∧ b1 = c1 ∧ b2 = c2 ∧ b3 = c3 then dotted b0 b1 b2 b3
                  else dotted b0 b1 b2 b3 ++ '-' :: dotted c0 c1 c2 c3)
              ++ save_ports le mr ++ save_random mr ++ nattype_text mr.nattype) := by
  obtain ⟨h0, h1, h2, h3⟩ := hb
  obtain ⟨k0, k1, k2, k3⟩ := hc
  refine ⟨⟨_, parse_to_single le mr b0 b1 b2 b3 h0 h1 h2 h3, ?_, ?_⟩,
    ⟨_, parse_to_pair le mr b0 b1 b2 b3 c0 c1 c2 c3 h0 h1 h2 h3 k0 k1 k2 k3, ?_, ?_⟩⟩
  · obtain ⟨p1, _, p3, _, p5, p6, _⟩ := parts_with_ips le mr
      (in_addr_of_bytes le b0 b1 b2 b3) (in_addr_of_bytes le b0 b1 b2 b3)
    have ht := ips_text_of_bytes le b0 b1 b2 b3 b0 b1 b2 b3 h0 h1 h2 h3 h0 h1 h2 h3
    simp only [and_self, if_true] at ht
    rw [FULLCONENAT_print_parts, p1, p3, p5, p6, List.append_assoc " to:".toList, ht]
  · obtain ⟨_, p2, _, p4, p5, _, p7⟩ := parts_with_ips le mr
      (in_addr_of_bytes le b0 b1 b2 b3) (in_addr_of_bytes le b0 b1 b2 b3)
    have ht := ips_text_of_bytes le b0 b1 b2 b3 b0 b1 b2 b3 h0 h1 h2 h3 h0 h1 h2 h3
    simp only [and_self, if_true] at ht
    rw [FULLCONENAT_save_parts, p2, p4, p5, p7, List.append_assoc " --to-source ".toList, ht]
  · obtain ⟨p1, _, p3, _, p5, p6, _⟩ := parts_with_ips le mr
      (in_addr_of_bytes le b0 b1 b2 b3) (in_addr_of_bytes le c0 c1 c2 c3)
    have ht := ips_text_of_bytes le b0 b1 b2 b3 c0 c1 c2 c3 h0 h1 h2 h3 k0 k1 k2 k3
    rw [FULLCONENAT_print_parts, p1, p3, p5, p6, List.append_assoc " to:".toList, ht]
  · obtain ⟨_, p2, _, p4, p5, _, p7⟩ := parts_with_ips le mr
      (in_addr_of_bytes le b0 b1 b2 b3) (in_addr_of_bytes le c0 c1 c2 c3)
    have ht := ips_text_of_bytes le b0 b1 b2 b3 c0 c1 c2 c3 h0 h1 h2 h3 k0 k1 k2 k3
    rw [FULLCONENAT_save_parts, p2, p4, p5, p7, List.append_assoc " --to-source ".toList, ht]

/-- C3 (amended) at `a = 192.168.0.1`, `b = 192.168.0.254` on the initialized
descriptor. -/
theorem C3_address_round_trip_witness :
    (∃ d, parse_to true "192.168.0.1".toList (FULLCONENAT_init zero_filled) = Run.done d
      ∧ FULLCONENAT_print true d = " to:192.168.0.1 full-cone".toList
      ∧ FULLCONENAT_save true d = " --to-source 192.168.0.1 full-cone".toList)
    ∧ (∃ d, parse_to true "192.168.0.1-192.168.0.254".toList (FULLCONENAT_init zero_filled)
          = Run.done d
      ∧ FULLCONENAT_print true d = " to:192.168.0.1-192.168.0.254 full-cone".toList
      ∧ FULLCONENAT_save true d = " --to-source 192.168.0.1-192.168.0.254 full-cone".toList) :=
  have h := C3_address_round_trip true (FULLCONENAT_init zero_filled) 192 168 0 1 192 168 0 254
    (by decide) (by decide)
  ⟨h.1.imp fun _ hd => ⟨(show _ = _ by decide : "192.168.0.1".toList = dotted 192 168 0 1) ▸ hd.1,
      hd.2.1.trans (by decide), hd.2.2.trans (by decide)⟩,
    h.2.imp fun _ hd =>
      ⟨(show _ = _ by decide :
          "192.168.0.1-192.168.0.254".toList = dotted 192 168 0 1 ++ '-' :: dotted 192 168 0 254)
        ▸ hd.1,
      hd.2.1.trans (by decide), hd.2.2.trans (by decide)⟩⟩

/-! ## The save form read back -/

/-- C1, at the failing input. The options `to-source 1.2.3.4`, `to-ports 80`,
`random`, `nat-type ar` on a TCP rule give a descriptor of class 1, whose save
form is ` --to-source 1.2.3.4 --to-ports 80 --random address-restricted`. Its
last word names no option of `FULLCONENAT_opts`, so the text cannot be read back
as options; the words before it read back as three options which, applied to a
fresh initialized descriptor, restore the flags, the addresses and the ports but
leave the class at 0. -/
theorem C1_save_form_drops_nat_class :
    apply_options true IPPROTO_TCP
        [⟨opt_to_source, "1.2.3.4".toList, false⟩, ⟨opt_to_ports, "80".toList, false⟩,
          ⟨opt_random, [], false⟩, ⟨opt_nat_type, "ar".toList, false⟩] initial_state
      = Run.done ⟨27, ⟨1, ⟨7, 67305985, 67305985, 20480, 20480⟩, 1⟩⟩
    ∧ FULLCONENAT_save true ⟨1, ⟨7, 67305985, 67305985, 20480, 20480⟩, 1⟩
      = " --to-source 1.2.3.4 --to-ports 80 --random address-restricted".toList
    ∧ find_option "address-restricted".toList = none
    ∧ read_options (words (FULLCONENAT_save true ⟨1, ⟨7, 67305985, 67305985, 20480, 20480⟩, 1⟩))
      = none
    ∧ read_options
        (words (FULLCONENAT_save true ⟨1, ⟨7, 67305985, 67305985, 20480, 20480⟩, 1⟩)).dropLast
      = some [⟨opt_to_source, "1.2.3.4".toList, false⟩, ⟨opt_to_ports, "80".toList, false⟩,
          ⟨opt_random, [], false⟩]
    ∧ apply_options true IPPROTO_TCP
        [⟨opt_to_source, "1.2.3.4".toList, false⟩, ⟨opt_to_ports, "80".toList, false⟩,
          ⟨opt_random, [], false⟩] initial_state
      = Run.done ⟨11, ⟨1, ⟨7, 67305985, 67305985, 20480, 20480⟩, 0⟩⟩ := by
  decide

/-! ## The validators through their verdicts -/

theorem parse_ports_eq (le : Bool) (arg : CStr) (mr : nf_nat_ipv4_multi_range_compat_withtype) :
    parse_ports le arg mr
      = match ports_of_arg arg with
        | some pq => Run.done (with_ports le mr pq.1 pq.2)
        | none => Run.exit (bad_to_ports arg) (with_flag mr NF_NAT_RANGE_PROTO_SPECIFIED) := by
  unfold parse_ports ports_of_arg
  split
  · rfl
  · split
    · rfl
    · split
      · rfl
      · split <;> rfl
    · rfl

theorem parse_nat_type_eq (arg : CStr) (mr : nf_nat_ipv4_multi_range_compat_withtype) :
    parse_nat_type arg mr
      = match nattype_of_arg arg with
        | some n => Run.done (with_nattype mr n)
        | none => Run.exit (xt_error.bad_nat_type arg) mr := by
  unfold parse_nat_type nattype_of_arg
  split_ifs <;> rfl

theorem parse_to_done_iff (le : Bool) (arg : CStr)
    (mr d : nf_nat_ipv4_multi_range_compat_withtype) :
    parse_to le arg mr = Run.done d
      ↔ ∃ ab, ips_of_arg le arg = some ab ∧ d = with_ips mr ab.1 ab.2 := by
  unfold parse_to ips_of_arg
  cases h0 : strchr_cut '-' arg with
  | none =>
    cases h1 : xtables_numeric_to_ipaddr le arg with
    | none => simp
    | some ip =>
      simp only [Option.map_some', Option.some.injEq, Run.done.injEq]
      constructor
      · rintro rfl; exact ⟨_, rfl, rfl⟩
      · rintro ⟨ab, rfl, rfl⟩; rfl
  | some wr =>
    obtain ⟨w, r⟩ := wr
    simp only
    cases h1 : xtables_numeric_to_ipaddr le w with
    | none => simp
    | some ip =>
      simp only
      cases h2 : xtables_numeric_to_ipaddr le r with
      | none => simp
      | some ip2 =>
        simp only [Option.map_some', Option.some.injEq, Run.done.injEq]
        constructor
        · rintro rfl; exact ⟨_, rfl, rfl⟩
        · rintro ⟨ab, rfl, rfl⟩; rfl

theorem parse_to_none (le : Bool) (arg : CStr) (mr : nf_nat_ipv4_multi_range_compat_withtype)
    (h : ips_of_arg le arg = none) : (parse_to le arg mr).isDone = false := by
  cases hq : parse_to le arg mr with
  | exit e m => rfl
  | done d =>
    obtain ⟨ab, hab, _⟩ := (parse_to_done_iff le arg mr d).mp hq
    rw [h] at hab
    cases hab

/-! ## The dispatcher through `option_effect` -/

theorem lift_done_iff {σ τ : Type} (f : σ → τ) (r : Run σ) (t : τ) :
    r.lift f = Run.done t ↔ ∃ s, r = Run.done s ∧ t = f s := by
  cases r with
  | done s =>
    simp only [Run.lift, Run.done.injEq]
    constructor
    · rintro rfl; exact ⟨s, rfl, rfl⟩
    · rintro ⟨s', rfl, rfl⟩; rfl
  | exit e s => simp [Run.lift]

/-- A call returns exactly when the framework accepts it (first use, not
inverted) and the switch accepts the option; the descriptor it returns is the
option's effect on the one it was given. -/
theorem FULLCONENAT_parse_done_iff (le : Bool) (cb cb' : xt_option_call) :
    FULLCONENAT_parse le cb = Run.done cb'
      ↔ cb.xflags &&& (1 <<< cb.entry.id) = 0 ∧ cb.invert = false
        ∧ ∃ f, option_effect le cb.proto cb.entry.id cb.arg = some f
          ∧ cb' = { cb with xflags := cb.xflags ||| (1 <<< cb.entry.id), data := f cb.data } := by
  obtain ⟨entry, arg, invert, xflags, proto, data⟩ := cb
  unfold FULLCONENAT_parse xtables_option_parse
  simp only
  by_cases hx : xflags &&& (1 <<< entry.id) = 0
  swap
  · simp [hx]
  cases invert
  swap
  · simp [hx]
  simp only [hx, ne_eq, not_true_eq_false, if_false, Bool.false_eq_true, true_and]
  unfold option_effect
  by_cases h0 : entry.id = O_TO_PORTS
  · simp only [h0, if_true]
    cases hp : portok proto
    · simp
    · simp only [Bool.not_true, Bool.false_eq_true, if_false, if_true, lift_done_iff,
        parse_ports_eq]
      cases hq : ports_of_arg arg with
      | none => simp
      | some pq =>
        simp only [Run.done.injEq, Option.map_some', Option.some.injEq]
        constructor
        · rintro ⟨s, rfl, rfl⟩; exact ⟨_, rfl, rfl⟩
        · rintro ⟨f, rfl, rfl⟩; exact ⟨_, rfl, rfl⟩
  · simp only [h0, if_false]
    by_cases h3 : entry.id = O_TO_SRC
    · simp only [h3, if_true, lift_done_iff, parse_to_done_iff]
      constructor
      · rintro ⟨s, ⟨ab, hab, rfl⟩, rfl⟩
        exact ⟨fun mr => with_ips mr ab.1 ab.2, by rw [hab]; rfl, rfl⟩
      · rintro ⟨f, hf, rfl⟩
        cases hq : ips_of_arg le arg with
        | none => rw [hq] at hf; cases hf
        | some ab =>
          rw [hq] at hf
          simp only [Option.map_some', Option.some.injEq] at hf
          subst hf
          exact ⟨_, ⟨ab, rfl, rfl⟩, rfl⟩
    · simp only [h3, if_false]
      by_cases h4 : entry.id = O_NAT_TYPE
      · simp only [h4, if_true, lift_done_iff, parse_nat_type_eq]
        cases hq : nattype_of_arg arg with
        | none => simp
        | some n =>
          simp only [Run.done.injEq, Option.map_some', Option.some.injEq]
          constructor
          · rintro ⟨s, rfl, rfl⟩; exact ⟨_, rfl, rfl⟩
          · rintro ⟨f, rfl, rfl⟩; exact ⟨_, rfl, rfl⟩
      · simp only [h4, if_false]
        by_cases h1 : entry.id = O_RANDOM
        · simp only [h1, if_true, Run.done.injEq, Option.some.injEq]
          constructor
          · rintro rfl; exact ⟨_, rfl, rfl⟩
          · rintro ⟨f, rfl, rfl⟩; rfl
        · simp only [h1, if_false]
          by_cases h2 : entry.id = O_RANDOM_FULLY
          · simp only [h2, if_true, Run.done.injEq, Option.some.injEq]
            constructor
            · rintro rfl; exact ⟨_, rfl, rfl⟩
            · rintro ⟨f, rfl, rfl⟩; rfl
          · simp only [h2, if_false, Run.done.injEq, Option.some.injEq]
            constructor
            · rintro rfl; exact ⟨_, rfl, rfl⟩
            · rintro ⟨f, rfl, rfl⟩; rfl

theorem xtables_option_tpcall_done_iff (le : Bool) (proto : Nat) (u : option_use)
    (st st' : target_state) :
    xtables_option_tpcall le proto u st = Run.done st'
      ↔ st.tflags &&& (1 <<< u.entry.id) = 0 ∧ u.invert = false
        ∧ ∃ f, option_effect le proto u.entry.id u.arg = some f
          ∧ st' = ⟨st.tflags ||| (1 <<< u.entry.id), f st.data⟩ := by
  unfold xtables_option_tpcall
  rw [lift_done_iff]
  constructor
  · rintro ⟨cb, hcb, rfl⟩
    obtain ⟨hx, hi, f, hf, rfl⟩ := (FULLCONENAT_parse_done_iff le _ cb).mp hcb
    exact ⟨hx, hi, f, hf, rfl⟩
  · rintro ⟨hx, hi, f, hf, rfl⟩
    exact ⟨_, (FULLCONENAT_parse_done_iff le ⟨u.entry, u.arg, u.invert, st.tflags, proto, st.data⟩
      _).mpr ⟨hx, hi, f, hf, rfl⟩, rfl⟩

/-- The effect of an accepted option in its general shape: its own flag bit is
added; to-source alone replaces the addresses, to-ports alone the ports,
nat-type alone the class, by one of the three class values. -/
theorem option_effect_update (le : Bool) (proto id : Nat) (arg : CStr)
    (f : nf_nat_ipv4_multi_range_compat_withtype → nf_nat_ipv4_multi_range_compat_withtype)
    (h : option_effect le proto id arg = some f) :
    ∃ ips ports nt,
      (ips = if id = O_TO_SRC then ips_of_arg le arg else none)
      ∧ (id = O_TO_SRC → ips ≠ none)
      ∧ (ports = if id = O_TO_PORTS then
            (ports_of_arg arg).map fun pq => (htons le pq.1, htons le pq.2) else none)
      ∧ (id = O_TO_PORTS → ports ≠ none)
      ∧ (nt = if id = O_NAT_TYPE then nattype_of_arg arg else none)
      ∧ (id = O_NAT_TYPE → nt ≠ none)
      ∧ f = fun mr => descr_update mr (own_bit id) ips ports nt := by
  refine ⟨_, _, _, rfl, ?_, rfl, ?_, rfl, ?_, ?_⟩
  · intro h3
    subst h3
    unfold option_effect at h
    simp only [O_TO_SRC, O_TO_PORTS, if_true, OfNat.ofNat_ne_zero, if_false] at h
    cases hq : ips_of_arg le arg with
    | none => rw [hq] at h; cases h
    | some ab => simp
  · intro h0
    subst h0
    unfold option_effect at h
    simp only [if_true] at h
    cases hq : ports_of_arg arg with
    | none => rw [hq] at h; simp at h
    | some ab => simp
  · intro h4
    subst h4
    unfold option_effect at h
    simp only [O_NAT_TYPE, O_TO_SRC, O_TO_PORTS, if_true, OfNat.ofNat_ne_zero, if_false,
      show (4 : Nat) ≠ 3 by decide] at h
    cases hq : nattype_of_arg arg with
    | none => rw [hq] at h; cases h
    | some ab => simp
  · unfold option_effect at h
    funext mr
    by_cases h0 : id = O_TO_PORTS
    · subst h0
      simp only [if_true] at h
      cases hp : portok proto
      · rw [hp] at h; simp at h
      · rw [hp] at h
        simp only [if_true] at h
        cases hq : ports_of_arg arg with
        | none => rw [hq] at h; cases h
        | some pq =>
          rw [hq] at h
          simp only [Option.map_some', Option.some.injEq] at h
          subst h
          rfl
    · simp only [h0, if_false] at h
      by_cases h3 : id = O_TO_SRC
      · subst h3
        simp only [if_true] at h
        cases hq : ips_of_arg le arg with
        | none => rw [hq] at h; cases h
        | some ab =>
          rw [hq] at h
          simp only [Option.map_some', Option.some.injEq] at h
          subst h
          rfl
      · simp only [h3, if_false] at h
        by_cases h4 : id = O_NAT_TYPE
        · subst h4
          simp only [if_true] at h
          cases hq : nattype_of_arg arg with
          | none => rw [hq] at h; cases h
          | some n =>
            rw [hq] at h
            simp only [Option.map_some', Option.some.injEq] at h
            subst h
            simp [descr_update, with_nattype, own_bit, O_NAT_TYPE, O_TO_PORTS, O_TO_SRC]
        · simp only [h4, if_false] at h
          by_cases h1 : id = O_RANDOM
          · subst h1
            simp only [if_true, Option.some.injEq] at h
            subst h
            rfl
          · simp only [h1, if_false] at h
            by_cases h2 : id = O_RANDOM_FULLY
            · subst h2
              simp only [if_true, Option.some.injEq] at h
              subst h
              rfl
            · simp only [h2, if_false, Option.some.injEq] at h
              subst h
              simp [descr_update, own_bit, h0, h1, h2, h3, h4]

/-! ## The initializer -/

/-- C12. Initializer: for every descriptor, `FULLCONENAT_init` (a total
function, it has no error report) stores 1 in the range count and leaves the
flags, the addresses, the ports and the class as they were; on the zero-filled
descriptor the result has range count 1, no flag, addresses (0,0), ports (0,0)
and class 0, Full-Cone. -/
theorem C12_initializer (mr : nf_nat_ipv4_multi_range_compat_withtype) :
    (FULLCONENAT_init mr).rangesize = 1
    ∧ (FULLCONENAT_init mr).range.flags = mr.range.flags
    ∧ (FULLCONENAT_init mr).range.min_ip = mr.range.min_ip
    ∧ (FULLCONENAT_init mr).range.max_ip = mr.range.max_ip
    ∧ (FULLCONENAT_init mr).range.min_tcp_port = mr.range.min_tcp_port
    ∧ (FULLCONENAT_init mr).range.max_tcp_port = mr.range.max_tcp_port
    ∧ (FULLCONENAT_init mr).nattype = mr.nattype
    ∧ FULLCONENAT_init mr = ⟨1, mr.range, mr.nattype⟩
    ∧ FULLCONENAT_init zero_filled = ⟨1, ⟨0, 0, 0, 0, 0⟩, NAT_TYPE_FULL_CONE⟩
    ∧ FULLCONENAT_init (FULLCONENAT_init mr) = FULLCONENAT_init mr := by
  refine ⟨rfl, rfl, rfl, rfl, rfl, rfl, rfl, rfl, rfl, rfl⟩

/-! ## Flag bits of the options -/

theorem own_bit_cases (id : Nat) :
    (id = O_TO_PORTS ∧ own_bit id = 2 ^ 1) ∨ (id = O_TO_SRC ∧ own_bit id = 2 ^ 0)
      ∨ (id = O_RANDOM ∧ own_bit id = 2 ^ 2) ∨ (id = O_RANDOM_FULLY ∧ own_bit id = 2 ^ 4)
      ∨ (id ≠ O_TO_PORTS ∧ id ≠ O_TO_SRC ∧ id ≠ O_RANDOM ∧ id ≠ O_RANDOM_FULLY ∧ own_bit id = 0) := by
  unfold own_bit
  by_cases h0 : id = O_TO_PORTS
  · exact Or.inl ⟨h0, by rw [if_pos h0]; rfl⟩
  · by_cases h3 : id = O_TO_SRC
    · exact Or.inr (Or.inl ⟨h3, by rw [if_neg h0, if_pos h3]; rfl⟩)
    · by_cases h1 : id = O_RANDOM
      · refine Or.inr (Or.inr (Or.inl ⟨h1, ?_⟩))
        subst h1
        rfl
      · by_cases h2 : id = O_RANDOM_FULLY
        · refine Or.inr (Or.inr (Or.inr (Or.inl ⟨h2, ?_⟩)))
          subst h2
          rfl
        · refine Or.inr (Or.inr (Or.inr (Or.inr ⟨h0, h3, h1, h2, ?_⟩)))
          simp only [h0, h3, h1, h2, if_false, ite_self]

/-- What an accepted call does to the flag word: it adds the option's own bit. -/
theorem FULLCONENAT_parse_flags (le : Bool) (cb cb' : xt_option_call)
    (h : FULLCONENAT_parse le cb = Run.done cb') :
    cb'.data.range.flags = cb.data.range.flags ||| own_bit cb.entry.id := by
  obtain ⟨_, _, f, hf, rfl⟩ := (FULLCONENAT_parse_done_iff le cb cb').mp h
  obtain ⟨ips, ports, nt, _, _, _, _, _, _, rfl⟩ := option_effect_update le _ _ _ f hf
  rfl

/-- C17. Flag bits are additive: when a call of `FULLCONENAT_parse` returns,
the flag word of the result is the one given with the option's own bit added
(map-addresses for to-source, port-specified for to-ports, randomize-port for
random, fully-randomize-port for random-fully, no bit for nat-type); so every
bit set before is set after, and a bit set after was set before or is the
option's own bit. -/
theorem C17_flags_additive (le : Bool) (cb cb' : xt_option_call)
    (h : FULLCONENAT_parse le cb = Run.done cb') :
    cb'.data.range.flags = cb.data.range.flags ||| own_bit cb.entry.id
    ∧ (∀ i, cb.data.range.flags.testBit i = true → cb'.data.range.flags.testBit i = true)
    ∧ (∀ i, cb'.data.range.flags.testBit i = true →
        cb.data.range.flags.testBit i = true ∨ (own_bit cb.entry.id).testBit i = true)
    ∧ (∀ c, cb.data.range.flags &&& c ≠ 0 → cb'.data.range.flags &&& c ≠ 0)
    ∧ own_bit opt_to_source.id = NF_NAT_RANGE_MAP_IPS
    ∧ own_bit opt_to_ports.id = NF_NAT_RANGE_PROTO_SPECIFIED
    ∧ own_bit opt_random.id = NF_NAT_RANGE_PROTO_RANDOM
    ∧ own_bit opt_random_fully.id = NF_NAT_RANGE_PROTO_RANDOM_FULLY
    ∧ own_bit opt_nat_type.id = 0
    ∧ (own_bit cb.entry.id = 0 ∨ ∃ k, own_bit cb.entry.id = 2 ^ k) := by
  have hf := FULLCONENAT_parse_flags le cb cb' h
  refine ⟨hf, ?_, ?_, ?_, rfl, rfl, rfl, rfl, rfl, ?_⟩
  · intro i hi
    rw [hf, Nat.testBit_or, hi, Bool.true_or]
  · intro i hi
    rw [hf, Nat.testBit_or, Bool.or_eq_true] at hi
    exact hi
  · intro c hc hz
    apply hc
    apply Nat.eq_of_testBit_eq
    intro i
    have hzi : (cb'.data.range.flags &&& c).testBit i = false := by rw [hz]; simp
    rw [hf, Nat.testBit_and, Nat.testBit_or] at hzi
    rw [Nat.testBit_and, Nat.zero_testBit]
    cases hb : cb.data.range.flags.testBit i
    · rfl
    · rw [hb] at hzi
      simpa using hzi
  · rcases own_bit_cases cb.entry.id with h | h | h | h | h
    · exact Or.inr ⟨1, h.2⟩
    · exact Or.inr ⟨0, h.2⟩
    · exact Or.inr ⟨2, h.2⟩
    · exact Or.inr ⟨4, h.2⟩
    · exact Or.inl h.2.2.2.2

/-- C17 on a to-ports call given a descriptor with the map-addresses flag. -/
theorem C17_flags_additive_witness :
    (3 : Nat) = 1 ||| own_bit opt_to_ports.id
    ∧ (∀ i, (1 : Nat).testBit i = true → (3 : Nat).testBit i = true)
    ∧ (∀ i, (3 : Nat).testBit i = true →
        (1 : Nat).testBit i = true ∨ (own_bit opt_to_ports.id).testBit i = true)
    ∧ (∀ c, 1 &&& c ≠ 0 → 3 &&& c ≠ 0)
    ∧ own_bit opt_to_source.id = NF_NAT_RANGE_MAP_IPS
    ∧ own_bit opt_to_ports.id = NF_NAT_RANGE_PROTO_SPECIFIED
    ∧ own_bit opt_random.id = NF_NAT_RANGE_PROTO_RANDOM
    ∧ own_bit opt_random_fully.id = NF_NAT_RANGE_PROTO_RANDOM_FULLY
    ∧ own_bit opt_nat_type.id = 0
    ∧ (own_bit opt_to_ports.id = 0 ∨ ∃ k, own_bit opt_to_ports.id = 2 ^ k) :=
  C17_flags_additive true
    ⟨opt_to_ports, "80".toList, false, 8, IPPROTO_TCP, ⟨1, ⟨1, 16777226, 16777226, 0, 0⟩, 0⟩⟩
    ⟨opt_to_ports, "80".toList, false, 9, IPPROTO_TCP, ⟨1, ⟨3, 16777226, 16777226, 20480, 20480⟩, 0⟩⟩
    (by decide)

/-! ## Ports in network byte order -/

theorem ports_of_arg_some (arg : CStr) (P Q : Nat) (h : ports_of_arg arg = some (P, Q)) :
    P ≤ Q ∧ Q ≤ 65535
      ∧ ((xtables_strtoui arg false 0 65535 = some (P, []) ∧ Q = P)
        ∨ ∃ t, xtables_strtoui arg false 0 65535 = some (P, '-' :: t)
            ∧ xtables_strtoui t true 0 65535 = some (Q, [])) := by
  unfold ports_of_arg at h
  cases h1 : xtables_strtoui arg false 0 65535 with
  | none => rw [h1] at h; cases h
  | some r =>
    obtain ⟨port, e⟩ := r
    have hP := (xtables_strtoui_some arg false 65535 port e (by norm_num) h1).1
    rw [h1] at h
    simp only at h
    cases e with
    | nil =>
      simp only [Option.some.injEq, Prod.mk.injEq] at h
      obtain ⟨rfl, rfl⟩ := h
      exact ⟨le_refl _, hP, Or.inl ⟨rfl, rfl⟩⟩
    | cons c e1 =>
      by_cases hc : c = '-'
      · subst hc
        simp only at h
        cases h2 : xtables_strtoui e1 true 0 65535 with
        | none => rw [h2] at h; cases h
        | some r2 =>
          obtain ⟨maxport, u⟩ := r2
          have hQ := xtables_strtoui_some e1 true 65535 maxport u (by norm_num) h2
          have hu : u = [] := hQ.2.1 rfl
          subst hu
          rw [h2] at h
          simp only at h
          by_cases hlt : maxport < port
          · rw [if_pos hlt] at h; cases h
          · rw [if_neg hlt] at h
            simp only [Option.some.injEq, Prod.mk.injEq] at h
            obtain ⟨rfl, rfl⟩ := h
            exact ⟨by omega, hQ.1, Or.inr ⟨e1, rfl, h2⟩⟩
      · exfalso
        revert h
        split
        · intro h; rename_i heq; cases heq
        · intro h; rename_i heq; cases heq; exact hc rfl
        · intro h; cases h

theorem u16_bytes_htons (le : Bool) (x : Nat) (h : x ≤ 65535) :
    u16_bytes le (htons le x) = (x / 256, x % 256) := by
  cases le
  · simp only [u16_bytes, htons, if_false, Bool.false_eq_true]
    have h1 : x % 65536 = x := Nat.mod_eq_of_lt (by omega)
    have h2 : x / 256 % 256 = x / 256 := Nat.mod_eq_of_lt (by omega)
    rw [h1, h2]
  · simp only [u16_bytes, htons, if_true]
    have h1 : x / 256 % 256 = x / 256 := Nat.mod_eq_of_lt (by omega)
    have h2 : (x % 256 * 256 + x / 256) % 256 = x / 256 := by omega
    have h3 : (x % 256 * 256 + x / 256) / 256 = x % 256 := by omega
    have h4 : x % 256 % 256 = x % 256 := Nat.mod_eq_of_lt (Nat.mod_lt _ (by norm_num))
    rw [h1, h2, h3, h4]

theorem ports_token_with_ports (le : Bool) (mr : nf_nat_ipv4_multi_range_compat_withtype)
    (p q : Nat) (hpq : p ≤ q) (hq : q ≤ 65535) :
    ports_token le (with_ports le mr p q) = port_token p q := by
  have hp : p ≤ 65535 := by omega
  unfold ports_token with_ports port_token
  simp only [ntohs_htons le p hp, ntohs_htons le q hq]
  by_cases h : p < q
  · have h1 : ¬ htons le q = htons le p := by
      intro he
      have := htons_inj le q p hq hp he
      omega
    simp [h, h1]
  · have h1 : q = p := by omega
    subst h1
    simp

/-- C18. Ports are stored in network byte order: when `parse_ports` returns,
its argument read as `P` or as `P-Q` with `P ≤ Q ≤ 65535` (`Q = P` without a
dash), the stored minimum is `htons P` and the stored maximum `htons Q`, the
16-bit values whose memory bytes are (`P / 256`, `P % 256`) and (`Q / 256`,
`Q % 256`) on either host byte order; `ntohs` gives back `P` and `Q`, so the
renderers write the port token of `P`, `Q`; and `ntohs (htons x) = x` for every
`x` in [0,65535]. -/
theorem C18_ports_network_order (le : Bool) (arg : CStr)
    (mr d : nf_nat_ipv4_multi_range_compat_withtype) (h : parse_ports le arg mr = Run.done d) :
    (∃ P Q, P ≤ Q ∧ Q ≤ 65535
      ∧ ((xtables_strtoui arg false 0 65535 = some (P, []) ∧ Q = P)
        ∨ ∃ t, xtables_strtoui arg false 0 65535 = some (P, '-' :: t)
            ∧ xtables_strtoui t true 0 65535 = some (Q, []))
      ∧ d.range.min_tcp_port = htons le P ∧ d.range.max_tcp_port = htons le Q
      ∧ u16_bytes le d.range.min_tcp_port = (P / 256, P % 256)
      ∧ u16_bytes le d.range.max_tcp_port = (Q / 256, Q % 256)
      ∧ ntohs le d.range.min_tcp_port = P ∧ ntohs le d.range.max_tcp_port = Q
      ∧ ports_token le d = port_token P Q)
    ∧ (∀ x, x ≤ 65535 → ntohs le (htons le x) = x)
    ∧ (∀ x, x ≤ 65535 → u16_bytes le (htons le x) = (x / 256, x % 256)) := by
  refine ⟨?_, ntohs_htons le, u16_bytes_htons le⟩
  rw [parse_ports_eq] at h
  cases hq : ports_of_arg arg with
  | none => rw [hq] at h; cases h
  | some pq =>
    obtain ⟨P, Q⟩ := pq
    rw [hq] at h
    simp only [Run.done.injEq] at h
    subst h
    obtain ⟨hPQ, hQ, hform⟩ := ports_of_arg_some arg P Q hq
    have hP : P ≤ 65535 := by omega
    exact ⟨P, Q, hPQ, hQ, hform, rfl, rfl, u16_bytes_htons le P hP, u16_bytes_htons le Q hQ,
      ntohs_htons le P hP, ntohs_htons le Q hQ, ports_token_with_ports le mr P Q hPQ hQ⟩

/-- C18 on the argument `1024-2048` of a little-endian host. -/
theorem C18_ports_network_order_witness :
    (∃ P Q, P ≤ Q ∧ Q ≤ 65535
      ∧ ((xtables_strtoui "1024-2048".toList false 0 65535 = some (P, []) ∧ Q = P)
        ∨ ∃ t, xtables_strtoui "1024-2048".toList false 0 65535 = some (P, '-' :: t)
            ∧ xtables_strtoui t true 0 65535 = some (Q, []))
      ∧ (4 : Nat) = htons true P ∧ (8 : Nat) = htons true Q
      ∧ u16_bytes true 4 = (P / 256, P % 256)
      ∧ u16_bytes true 8 = (Q / 256, Q % 256)
      ∧ ntohs true 4 = P ∧ ntohs true 8 = Q
      ∧ ports_token true ⟨1, ⟨2, 0, 0, 4, 8⟩, 0⟩ = port_token P Q)
    ∧ (∀ x, x ≤ 65535 → ntohs true (htons true x) = x)
    ∧ (∀ x, x ≤ 65535 → u16_bytes true (htons true x) = (x / 256, x % 256)) :=
  C18_ports_network_order true "1024-2048".toList (FULLCONENAT_init zero_filled)
    ⟨1, ⟨2, 0, 0, 4, 8⟩, 0⟩ (by decide)

/-! ## Invariants along a run of options -/

theorem apply_options_cons_done (le : Bool) (proto : Nat) (u : option_use) (us : List option_use)
    (st st' : target_state) :
    apply_options le proto (u :: us) st = Run.done st'
      ↔ ∃ s1, xtables_option_tpcall le proto u st = Run.done s1
          ∧ apply_options le proto us s1 = Run.done st' := by
  simp only [apply_options]
  cases hq : xtables_option_tpcall le proto u st with
  | exit e s => simp [Run.andThen]
  | done s1 => simp [Run.andThen]

theorem nattype_of_arg_closed (arg : CStr) (n : Int) (h : nattype_of_arg arg = some n) :
    n = NAT_TYPE_FULL_CONE ∨ n = NAT_TYPE_Address_Restricted ∨ n = NAT_TYPE_Port_Restricted := by
  unfold nattype_of_arg at h
  split_ifs at h <;> cases h
  · exact Or.inl rfl
  · exact Or.inr (Or.inl rfl)
  · exact Or.inr (Or.inr rfl)

/-- One accepted call keeps the class field, or stores one of the three class
values. -/
theorem FULLCONENAT_parse_nattype_closed (le : Bool) (cb cb' : xt_option_call)
    (h : FULLCONENAT_parse le cb = Run.done cb') :
    cb'.data.nattype = cb.data.nattype
      ∨ (cb.entry.id = O_NAT_TYPE
        ∧ (cb'.data.nattype = NAT_TYPE_FULL_CONE ∨ cb'.data.nattype = NAT_TYPE_Address_Restricted
          ∨ cb'.data.nattype = NAT_TYPE_Port_Restricted)) := by
  obtain ⟨_, _, f, hf, rfl⟩ := (FULLCONENAT_parse_done_iff le cb cb').mp h
  obtain ⟨ips, ports, nt, _, _, _, _, hnt, _, rfl⟩ := option_effect_update le _ _ _ f hf
  by_cases h4 : cb.entry.id = O_NAT_TYPE
  · rw [if_pos h4] at hnt
    cases hq : nattype_of_arg cb.arg with
    | none =>
      rw [hq] at hnt
      subst hnt
      exact Or.inl rfl
    | some n =>
      rw [hq] at hnt
      subst hnt
      exact Or.inr ⟨h4, nattype_of_arg_closed cb.arg n hq⟩
  · rw [if_neg h4] at hnt
    subst hnt
    exact Or.inl rfl

theorem apply_options_nattype_closed (le : Bool) (proto : Nat) (us : List option_use) :
    ∀ (st st' : target_state), apply_options le proto us st = Run.done st' →
      (st.data.nattype = NAT_TYPE_FULL_CONE ∨ st.data.nattype = NAT_TYPE_Address_Restricted
        ∨ st.data.nattype = NAT_TYPE_Port_Restricted) →
      (st'.data.nattype = NAT_TYPE_FULL_CONE ∨ st'.data.nattype = NAT_TYPE_Address_Restricted
        ∨ st'.data.nattype = NAT_TYPE_Port_Restricted) := by
  induction us with
  | nil =>
    intro st st' h hc
    simp only [apply_options, Run.done.injEq] at h
    subst h
    exact hc
  | cons u us ih =>
    intro st st' h hc
    obtain ⟨s1, h1, h2⟩ := (apply_options_cons_done le proto u us st st').mp h
    refine ih s1 st' h2 ?_
    unfold xtables_option_tpcall at h1
    obtain ⟨cb, hcb, rfl⟩ := lift_done _ _ _ h1
    rcases FULLCONENAT_parse_nattype_closed le _ cb hcb with hk | ⟨_, hk⟩
    · simp only at hk ⊢
      rw [hk]
      exact hc
    · exact hk

/-- C20. Reachable NAT-class values are closed: on every descriptor reached
from the initialized zero-filled descriptor by a run of accepted options, the
`nattype` field is 0, 1 or 2, so the switch of either renderer takes one of its
three cases: it writes a space and the class token, which is the last word of
the output. One accepted call, on any descriptor, keeps the field or stores one
of the three values. -/
theorem C20_reachable_class_closed (le : Bool) (proto : Nat) (us : List option_use)
    (st : target_state) (h : apply_options le proto us initial_state = Run.done st) :
    (st.data.nattype = 0 ∨ st.data.nattype = 1 ∨ st.data.nattype = 2)
    ∧ nattype_text st.data.nattype = ' ' :: class_token st.data.nattype
    ∧ (words (FULLCONENAT_print le st.data)).getLast? = some (class_token st.data.nattype)
    ∧ (words (FULLCONENAT_save le st.data)).getLast? = some (class_token st.data.nattype)
    ∧ (∀ cb cb', FULLCONENAT_parse le cb = Run.done cb' →
        (cb.data.nattype = 0 ∨ cb.data.nattype = 1 ∨ cb.data.nattype = 2) →
        (cb'.data.nattype = 0 ∨ cb'.data.nattype = 1 ∨ cb'.data.nattype = 2)) := by
  have hc := apply_options_nattype_closed le proto us initial_state st h (Or.inl rfl)
  refine ⟨hc, ?_, (words_print_class le st.data hc).2.1, (words_save_class le st.data hc).2.1, ?_⟩
  · rcases hc with h0 | h1 | h2
    · rw [h0]; rfl
    · rw [h1]; rfl
    · rw [h2]; rfl
  · intro cb cb' hcb hk
    rcases FULLCONENAT_parse_nattype_closed le cb cb' hcb with hs | ⟨_, hs⟩
    · rw [hs]; exact hk
    · exact hs

/-- C20 on the run `nat-type pr`, `random` of a TCP rule. -/
theorem C20_reachable_class_closed_witness :
    ((2 : Int) = 0 ∨ (2 : Int) = 1 ∨ (2 : Int) = 2)
    ∧ nattype_text 2 = ' ' :: class_token 2
    ∧ (words (FULLCONENAT_print true ⟨1, ⟨4, 0, 0, 0, 0⟩, 2⟩)).getLast? = some (class_token 2)
    ∧ (words (FULLCONENAT_save true ⟨1, ⟨4, 0, 0, 0, 0⟩, 2⟩)).getLast? = some (class_token 2)
    ∧ (∀ cb cb', FULLCONENAT_parse true cb = Run.done cb' →
        (cb.data.nattype = 0 ∨ cb.data.nattype = 1 ∨ cb.data.nattype = 2) →
        (cb'.data.nattype = 0 ∨ cb'.data.nattype = 1 ∨ cb'.data.nattype = 2)) :=
  C20_reachable_class_closed true IPPROTO_TCP
    [⟨opt_nat_type, "pr".toList, false⟩, ⟨opt_random, [], false⟩]
    ⟨18, ⟨1, ⟨4, 0, 0, 0, 0⟩, 2⟩⟩ (by decide)

theorem own_bit_testBit_zero (id : Nat) :
    (own_bit id).testBit 0 = decide (id = O_TO_SRC) := by
  rcases own_bit_cases id with h | h | h | h | h
  · rw [h.2, h.1]; decide
  · rw [h.2, h.1]; decide
  · rw [h.2, h.1]; decide
  · rw [h.2, h.1]; decide
  · rw [h.2.2.2.2]
    simp [h.2.1]

/-- One accepted call and the address range: the map-addresses bit is set
afterwards exactly when it was set before or the option is to-source; any other
option leaves the two addresses as they were. -/
theorem FULLCONENAT_parse_ips (le : Bool) (cb cb' : xt_option_call)
    (h : FULLCONENAT_parse le cb = Run.done cb') :
    cb'.data.range.flags.testBit 0
        = (cb.data.range.flags.testBit 0 || decide (cb.entry.id = O_TO_SRC))
    ∧ (cb.entry.id ≠ O_TO_SRC →
        cb'.data.range.min_ip = cb.data.range.min_ip
        ∧ cb'.data.range.max_ip = cb.data.range.max_ip) := by
  have hfl := FULLCONENAT_parse_flags le cb cb' h
  refine ⟨by rw [hfl, Nat.testBit_or, own_bit_testBit_zero], ?_⟩
  intro h3
  obtain ⟨_, _, f, hf, rfl⟩ := (FULLCONENAT_parse_done_iff le cb cb').mp h
  obtain ⟨ips, ports, nt, hips, _, _, _, _, _, rfl⟩ := option_effect_update le _ _ _ f hf
  rw [if_neg h3] at hips
  subst hips
  exact ⟨rfl, rfl⟩

theorem apply_options_ips (le : Bool) (proto : Nat) (us : List option_use) :
    ∀ (st st' : target_state), apply_options le proto us st = Run.done st' →
      st'.data.range.flags.testBit 0
          = (st.data.range.flags.testBit 0 || us.any fun u => decide (u.entry.id = O_TO_SRC))
      ∧ ((∀ u ∈ us, u.entry.id ≠ O_TO_SRC) →
          st'.data.range.min_ip = st.data.range.min_ip
          ∧ st'.data.range.max_ip = st.data.range.max_ip) := by
  induction us with
  | nil =>
    intro st st' h
    simp only [apply_options, Run.done.injEq] at h
    subst h
    simp
  | cons u us ih =>
    intro st st' h
    obtain ⟨s1, h1, h2⟩ := (apply_options_cons_done le proto u us st st').mp h
    obtain ⟨ih1, ih2⟩ := ih s1 st' h2
    unfold xtables_option_tpcall at h1
    obtain ⟨cb, hcb, rfl⟩ := lift_done _ _ _ h1
    obtain ⟨k1, k2⟩ := FULLCONENAT_parse_ips le _ cb hcb
    simp only at k1 k2 ih1 ih2
    constructor
    · rw [ih1, k1, List.any_cons, Bool.or_assoc]
    · intro hno
      have hu := hno u (List.mem_cons_self _ _)
      obtain ⟨a, b⟩ := ih2 (fun x hx => hno x (List.mem_cons_of_mem _ hx))
      obtain ⟨c, d⟩ := k2 hu
      exact ⟨a.trans c, b.trans d⟩

theorem and_one_eq_zero_iff (f : Nat) : f &&& NF_NAT_RANGE_MAP_IPS = 0 ↔ f.testBit 0 = false := by
  have h := and_two_pow_ne_zero f 0
  have e : NF_NAT_RANGE_MAP_IPS = 2 ^ 0 := rfl
  rw [e]
  constructor
  · intro hz
    cases hb : f.testBit 0
    · rfl
    · exact absurd hz (h.mpr hb)
  · intro hb
    by_contra hz
    rw [h.mp hz] at hb
    cases hb

/-- C19. Unset address range invariant: on every descriptor reached from the
initialized zero-filled descriptor by a run of accepted options, the
map-addresses flag is absent exactly when no option of the run is to-source; if
it is absent, both addresses are 0 and neither renderer writes an address
token: the output is the port part, the flag part and the class part alone. One
accepted call other than to-source, on any descriptor, leaves the flag bit and
the two addresses as they were. -/
theorem C19_unset_address_range (le : Bool) (proto : Nat) (us : List option_use)
    (st : target_state) (h : apply_options le proto us initial_state = Run.done st) :
    (st.data.range.flags &&& NF_NAT_RANGE_MAP_IPS = 0 ↔ ∀ u ∈ us, u.entry.id ≠ O_TO_SRC)
    ∧ (st.data.range.flags &&& NF_NAT_RANGE_MAP_IPS = 0 →
        st.data.range.min_ip = 0 ∧ st.data.range.max_ip = 0
        ∧ print_ips le st.data = [] ∧ save_ips le st.data = []
        ∧ FULLCONENAT_print le st.data
            = print_ports le st.data ++ print_random st.data ++ nattype_text st.data.nattype
        ∧ FULLCONENAT_save le st.data
            = save_ports le st.data ++ save_random st.data ++ nattype_text st.data.nattype)
    ∧ (∀ cb cb', FULLCONENAT_parse le cb = Run.done cb' → cb.entry.id ≠ O_TO_SRC →
        cb'.data.range.flags.testBit 0 = cb.data.range.flags.testBit 0
        ∧ cb'.data.range.min_ip = cb.data.range.min_ip
        ∧ cb'.data.range.max_ip = cb.data.range.max_ip) := by
  obtain ⟨hbit, hips⟩ := apply_options_ips le proto us initial_state st h
  have h0 : initial_state.data.range.flags.testBit 0 = false := by decide
  rw [h0, Bool.false_or] at hbit
  have hiff : st.data.range.flags &&& NF_NAT_RANGE_MAP_IPS = 0
      ↔ ∀ u ∈ us, u.entry.id ≠ O_TO_SRC := by
    rw [and_one_eq_zero_iff, hbit]
    simp only [List.any_eq_false, decide_eq_true_eq]
  refine ⟨hiff, ?_, ?_⟩
  · intro hz
    obtain ⟨a, b⟩ := hips (hiff.mp hz)
    have a' : st.data.range.min_ip = 0 := a
    have b' : st.data.range.max_ip = 0 := b
    have p1 : print_ips le st.data = [] := by
      unfold print_ips
      rw [if_neg (by simp [hz])]
    have p2 : save_ips le st.data = [] := by
      unfold save_ips
      rw [if_neg (by simp [hz])]
    refine ⟨a', b', p1, p2, ?_, ?_⟩
    · rw [FULLCONENAT_print_parts, p1, List.nil_append]
    · rw [FULLCONENAT_save_parts, p2, List.nil_append]
  · intro cb cb' hcb hid
    obtain ⟨k1, k2⟩ := FULLCONENAT_parse_ips le cb cb' hcb
    refine ⟨?_, k2 hid⟩
    rw [k1]
    simp [hid]

/-- C19 on the run `to-ports 80`, `random` of a TCP rule. -/
theorem C19_unset_address_range_witness :
    ((6 : Nat) &&& NF_NAT_RANGE_MAP_IPS = 0 ↔
      ∀ u ∈ [(⟨opt_to_ports, "80".toList, false⟩ : option_use), ⟨opt_random, [], false⟩],
        u.entry.id ≠ O_TO_SRC)
    ∧ FULLCONENAT_print true ⟨1, ⟨6, 0, 0, 20480, 20480⟩, 0⟩
        = " masq ports: 80 random full-cone".toList
    ∧ FULLCONENAT_save true ⟨1, ⟨6, 0, 0, 20480, 20480⟩, 0⟩
        = " --to-ports 80 --random full-cone".toList :=
  have h := C19_unset_address_range true IPPROTO_TCP
    [⟨opt_to_ports, "80".toList, false⟩, ⟨opt_random, [], false⟩]
    ⟨3, ⟨1, ⟨6, 0, 0, 20480, 20480⟩, 0⟩⟩ (by decide)
  ⟨h.1, (h.2.1 (by decide)).2.2.2.2.1.trans (by decide),
    (h.2.1 (by decide)).2.2.2.2.2.trans (by decide)⟩

/-! ## Two options in either order -/

theorem lor_right_comm' (a b c : Nat) : (a ||| b) ||| c = (a ||| c) ||| b := by
  rw [Nat.or_assoc, Nat.or_comm b c, ← Nat.or_assoc]

theorem descr_update_comm (mr : nf_nat_ipv4_multi_range_compat_withtype) (b1 b2 : Nat)
    (i1 i2 p1 p2 : Option (Nat × Nat)) (n1 n2 : Option Int)
    (hi : i1 = none ∨ i2 = none) (hp : p1 = none ∨ p2 = none) (hn : n1 = none ∨ n2 = none) :
    descr_update (descr_update mr b1 i1 p1 n1) b2 i2 p2 n2
      = descr_update (descr_update mr b2 i2 p2 n2) b1 i1 p1 n1 := by
  have hf := lor_right_comm' mr.range.flags b1 b2
  rcases hi with rfl | rfl <;> rcases hp with rfl | rfl <;> rcases hn with rfl | rfl <;>
    simp only [descr_update, Option.getD_none, hf]

theorem option_effect_comm (le : Bool) (proto id1 id2 : Nat) (arg1 arg2 : CStr)
    (f1 f2 : nf_nat_ipv4_multi_range_compat_withtype → nf_nat_ipv4_multi_range_compat_withtype)
    (hid : id1 ≠ id2) (h1 : option_effect le proto id1 arg1 = some f1)
    (h2 : option_effect le proto id2 arg2 = some f2)
    (mr : nf_nat_ipv4_multi_range_compat_withtype) : f2 (f1 mr) = f1 (f2 mr) := by
  obtain ⟨i1, p1, n1, hi1, _, hp1, _, hn1, _, rfl⟩ := option_effect_update le _ _ _ f1 h1
  obtain ⟨i2, p2, n2, hi2, _, hp2, _, hn2, _, rfl⟩ := option_effect_update le _ _ _ f2 h2
  apply descr_update_comm
  · by_cases h : id1 = O_TO_SRC
    · right
      rw [hi2, if_neg (fun hc => hid (h.trans hc.symm))]
    · left
      rw [hi1, if_neg h]
  · by_cases h : id1 = O_TO_PORTS
    · right
      rw [hp2, if_neg (fun hc => hid (h.trans hc.symm))]
    · left
      rw [hp1, if_neg h]
  · by_cases h : id1 = O_NAT_TYPE
    · right
      rw [hn2, if_neg (fun hc => hid (h.trans hc.symm))]
    · left
      rw [hn1, if_neg h]

theorem or_shift_and_other (t i j : Nat) (h : i ≠ j) :
    (t ||| (1 <<< i)) &&& (1 <<< j) = t &&& (1 <<< j) := by
  rw [Nat.one_shiftLeft, Nat.one_shiftLeft]
  exact or_two_pow_and_other t i j h

/-- Two accepted options with different identifiers, applied in the other
order, are accepted too and give the same state. -/
theorem apply_options_swap (le : Bool) (proto : Nat) (u1 u2 : option_use) (st s : target_state)
    (hid : u1.entry.id ≠ u2.entry.id)
    (h : apply_options le proto [u1, u2] st = Run.done s) :
    apply_options le proto [u2, u1] st = Run.done s := by
  obtain ⟨s1, h1, h2⟩ := (apply_options_cons_done le proto u1 [u2] st s).mp h
  obtain ⟨s2, h3, h4⟩ := (apply_options_cons_done le proto u2 [] s1 s).mp h2
  simp only [apply_options, Run.done.injEq] at h4
  subst h4
  obtain ⟨x1, v1, f1, e1, rfl⟩ := (xtables_option_tpcall_done_iff le proto u1 st s1).mp h1
  obtain ⟨x2, v2, f2, e2, rfl⟩ := (xtables_option_tpcall_done_iff le proto u2 _ s2).mp h3
  simp only at x2
  rw [or_shift_and_other _ _ _ hid] at x2
  rw [apply_options_cons_done]
  refine ⟨⟨st.tflags ||| (1 <<< u2.entry.id), f2 st.data⟩,
    (xtables_option_tpcall_done_iff le proto u2 st _).mpr ⟨x2, v2, f2, e2, rfl⟩, ?_⟩
  rw [apply_options_cons_done]
  refine ⟨_, (xtables_option_tpcall_done_iff le proto u1 _ _).mpr
    ⟨by simp only; rw [or_shift_and_other _ _ _ (Ne.symm hid)]; exact x1, v1, f1, e1, rfl⟩, ?_⟩
  simp only [apply_options, Run.done.injEq, target_state.mk.injEq]
  exact ⟨lor_right_comm' _ _ _, (option_effect_comm le proto _ _ _ _ f1 f2 hid e1 e2 st.data).symm⟩

/-- C13. Rendering does not depend on option-supply order: two options with
different identifiers that are accepted one after the other are accepted in
the other order too and leave the same state, hence the same display and save
output; and for every descriptor the words of either output are, in this order,
the address words, the port words, `random`, `random-fully` (each present when
its flag is set) and the class token (present when the class value is one of
the three). -/
theorem C13_order_independent (le : Bool) (proto : Nat) (u1 u2 : option_use)
    (st s : target_state) (hid : u1.entry.id ≠ u2.entry.id)
    (h : apply_options le proto [u1, u2] st = Run.done s) :
    apply_options le proto [u2, u1] st = Run.done s
    ∧ (∀ s', apply_options le proto [u2, u1] st = Run.done s' →
        s'.data = s.data ∧ FULLCONENAT_print le s'.data = FULLCONENAT_print le s.data
        ∧ FULLCONENAT_save le s'.data = FULLCONENAT_save le s.data)
    ∧ (∀ mr : nf_nat_ipv4_multi_range_compat_withtype,
        words (FULLCONENAT_print le mr)
          = (if mr.range.flags &&& NF_NAT_RANGE_MAP_IPS ≠ 0 then
              ["to:".toList ++ ips_token le mr] else [])
            ++ (if mr.range.flags &&& NF_NAT_RANGE_PROTO_SPECIFIED ≠ 0 then
              ["masq".toList, "ports:".toList, ports_token le mr] else [])
            ++ (if mr.range.flags &&& NF_NAT_RANGE_PROTO_RANDOM ≠ 0 then ["random".toList] else [])
            ++ (if mr.range.flags &&& NF_NAT_RANGE_PROTO_RANDOM_FULLY ≠ 0 then
              ["random-fully".toList] else [])
            ++ (if mr.nattype = NAT_TYPE_FULL_CONE ∨ mr.nattype = NAT_TYPE_Address_Restricted
                  ∨ mr.nattype = NAT_TYPE_Port_Restricted then [class_token mr.nattype] else []))
    ∧ (∀ mr : nf_nat_ipv4_multi_range_compat_withtype,
        words (FULLCONENAT_save le mr)
          = (if mr.range.flags &&& NF_NAT_RANGE_MAP_IPS ≠ 0 then
              ["--to-source".toList, ips_token le mr] else [])
            ++ (if mr.range.flags &&& NF_NAT_RANGE_PROTO_SPECIFIED ≠ 0 then
              ["--to-ports".toList, ports_token le mr] else [])
            ++ (if mr.range.flags &&& NF_NAT_RANGE_PROTO_RANDOM ≠ 0 then ["--random".toList] else [])
            ++ (if mr.range.flags &&& NF_NAT_RANGE_PROTO_RANDOM_FULLY ≠ 0 then
              ["--random-fully".toList] else [])
            ++ (if mr.nattype = NAT_TYPE_FULL_CONE ∨ mr.nattype = NAT_TYPE_Address_Restricted
                  ∨ mr.nattype = NAT_TYPE_Port_Restricted then [class_token mr.nattype] else [])) := by
  have hs := apply_options_swap le proto u1 u2 st s hid h
  refine ⟨hs, ?_, ?_, ?_⟩
  · intro s' h'
    rw [hs] at h'
    simp only [Run.done.injEq] at h'
    subst h'
    exact ⟨rfl, rfl, rfl⟩
  · intro mr
    rw [words_FULLCONENAT_print, (words_nattype_text mr.nattype).2]
    rfl
  · intro mr
    rw [words_FULLCONENAT_save, (words_nattype_text mr.nattype).2]
    rfl

/-- C13 on `to-source 10.0.0.1` and `to-ports 80` of a TCP rule. -/
theorem C13_order_independent_witness :
    apply_options true IPPROTO_TCP
        [⟨opt_to_ports, "80".toList, false⟩, ⟨opt_to_source, "10.0.0.1".toList, false⟩]
        initial_state
      = Run.done ⟨9, ⟨1, ⟨3, 16777226, 16777226, 20480, 20480⟩, 0⟩⟩ :=
  (C13_order_independent true IPPROTO_TCP ⟨opt_to_source, "10.0.0.1".toList, false⟩
    ⟨opt_to_ports, "80".toList, false⟩ initial_state
    ⟨9, ⟨1, ⟨3, 16777226, 16777226, 20480, 20480⟩, 0⟩⟩ (by decide) (by decide)).1

/-! ## The flag options -/

theorem FULLCONENAT_parse_random (le : Bool) (a : CStr) (x proto : Nat)
    (d : nf_nat_ipv4_multi_range_compat_withtype) (hx : x &&& (1 <<< O_RANDOM) = 0) :
    FULLCONENAT_parse le ⟨opt_random, a, false, x, proto, d⟩
      = Run.done ⟨opt_random, a, false, x ||| (1 <<< O_RANDOM), proto,
          with_flag d NF_NAT_RANGE_PROTO_RANDOM⟩ :=
  (FULLCONENAT_parse_done_iff le _ _).mpr ⟨hx, rfl, _, rfl, rfl⟩

theorem FULLCONENAT_parse_random_fully (le : Bool) (a : CStr) (x proto : Nat)
    (d : nf_nat_ipv4_multi_range_compat_withtype) (hx : x &&& (1 <<< O_RANDOM_FULLY) = 0) :
    FULLCONENAT_parse le ⟨opt_random_fully, a, false, x, proto, d⟩
      = Run.done ⟨opt_random_fully, a, false, x ||| (1 <<< O_RANDOM_FULLY), proto,
          with_flag d NF_NAT_RANGE_PROTO_RANDOM_FULLY⟩ :=
  (FULLCONENAT_parse_done_iff le _ _).mpr ⟨hx, rfl, _, rfl, rfl⟩

theorem with_flag_idem (d : nf_nat_ipv4_multi_range_compat_withtype) (b : Nat) :
    with_flag (with_flag d b) b = with_flag d b := by
  simp only [with_flag, Nat.or_assoc, Nat.or_self]

theorem with_flag_comm (d : nf_nat_ipv4_multi_range_compat_withtype) (b c : Nat) :
    with_flag (with_flag d b) c = with_flag (with_flag d c) b := by
  simp only [with_flag, lor_right_comm' d.range.flags b c]

/-- Within one rule the framework carries the mask of the options used, and a
second `random` is reported by `xtables_option_parse` before the switch of
`FULLCONENAT_parse` runs; the descriptor stays as the first `random` left it. -/
theorem random_again_in_one_rule (le : Bool) (proto x : Nat) (a b : CStr)
    (d : nf_nat_ipv4_multi_range_compat_withtype) (hx : x &&& (1 <<< O_RANDOM) = 0) :
    apply_options le proto [⟨opt_random, a, false⟩, ⟨opt_random, b, false⟩] ⟨x, d⟩
      = Run.exit (xt_error.only_once opt_random.name)
          ⟨x ||| (1 <<< O_RANDOM), with_flag d NF_NAT_RANGE_PROTO_RANDOM⟩ := by
  have h2 : (x ||| (1 <<< O_RANDOM)) &&& (1 <<< opt_random.id) ≠ 0 := by
    have := or_two_pow_and_same x 1
    simpa [Nat.one_shiftLeft, O_RANDOM, opt_random] using this
  simp only [apply_options, xtables_option_tpcall, FULLCONENAT_parse_random le a x proto d hx,
    Run.lift, Run.andThen]
  unfold FULLCONENAT_parse xtables_option_parse
  simp only [h2, ne_eq, not_false_eq_true, if_true, Run.lift]

/-- The same for a second `random-fully`. -/
theorem random_fully_again_in_one_rule (le : Bool) (proto x : Nat) (a b : CStr)
    (d : nf_nat_ipv4_multi_range_compat_withtype) (hx : x &&& (1 <<< O_RANDOM_FULLY) = 0) :
    apply_options le proto [⟨opt_random_fully, a, false⟩, ⟨opt_random_fully, b, false⟩] ⟨x, d⟩
      = Run.exit (xt_error.only_once opt_random_fully.name)
          ⟨x ||| (1 <<< O_RANDOM_FULLY), with_flag d NF_NAT_RANGE_PROTO_RANDOM_FULLY⟩ := by
  have h2 : (x ||| (1 <<< O_RANDOM_FULLY)) &&& (1 <<< opt_random_fully.id) ≠ 0 := by
    have := or_two_pow_and_same x 2
    simpa [Nat.one_shiftLeft, O_RANDOM_FULLY, opt_random_fully] using this
  simp only [apply_options, xtables_option_tpcall,
    FULLCONENAT_parse_random_fully le a x proto d hx, Run.lift, Run.andThen]
  unfold FULLCONENAT_parse xtables_option_parse
  simp only [h2, ne_eq, not_false_eq_true, if_true, Run.lift]

/-- From no state are two uses of one option both accepted: when the first
returns, the option's bit is in the mask the second call is given. -/
theorem option_again_in_one_rule (le : Bool) (proto : Nat) (u1 u2 : option_use)
    (st : target_state) (hid : u1.entry.id = u2.entry.id) :
    (apply_options le proto [u1, u2] st).isDone = false := by
  cases h : apply_options le proto [u1, u2] st with
  | exit e s => rfl
  | done s =>
    exfalso
    obtain ⟨s1, h1, h2⟩ := (apply_options_cons_done le proto u1 [u2] st s).mp h
    obtain ⟨s2, h3, _⟩ := (apply_options_cons_done le proto u2 [] s1 s).mp h2
    obtain ⟨_, _, f, _, rfl⟩ := (xtables_option_tpcall_done_iff le proto u1 st s1).mp h1
    obtain ⟨hx, _⟩ := (xtables_option_tpcall_done_iff le proto u2 _ s2).mp h3
    simp only at hx
    rw [hid, Nat.one_shiftLeft] at hx
    exact or_two_pow_and_same _ _ hx

/-- C11 as stated fails: in a rule, `random` given twice is not applied twice.
From the initialized zero-filled descriptor one `random` returns with flags 4;
a second `random` does not return, the framework reporting that the option can
be used only once, whatever the descriptor (likewise `random-fully`, flags
16). -/
theorem C11_counterexample :
    apply_options true IPPROTO_TCP [⟨opt_random, [], false⟩] initial_state
      = Run.done ⟨2, ⟨1, ⟨4, 0, 0, 0, 0⟩, 0⟩⟩
    ∧ apply_options true IPPROTO_TCP [⟨opt_random, [], false⟩, ⟨opt_random, [], false⟩]
        initial_state
      = Run.exit (xt_error.only_once "random".toList) ⟨2, ⟨1, ⟨4, 0, 0, 0, 0⟩, 0⟩⟩
    ∧ FULLCONENAT_parse true ⟨opt_random, [], false, 2, IPPROTO_TCP, ⟨1, ⟨4, 0, 0, 0, 0⟩, 0⟩⟩
      = Run.exit (xt_error.only_once "random".toList)
          ⟨opt_random, [], false, 2, IPPROTO_TCP, ⟨1, ⟨4, 0, 0, 0, 0⟩, 0⟩⟩
    ∧ apply_options true IPPROTO_TCP [⟨opt_random_fully, [], false⟩] initial_state
      = Run.done ⟨4, ⟨1, ⟨16, 0, 0, 0, 0⟩, 0⟩⟩
    ∧ apply_options true IPPROTO_TCP
        [⟨opt_random_fully, [], false⟩, ⟨opt_random_fully, [], false⟩] initial_state
      = Run.exit (xt_error.only_once "random-fully".toList) ⟨4, ⟨1, ⟨16, 0, 0, 0, 0⟩, 0⟩⟩ := by
  decide

/-- C11, amended. Flag toggles are independent, and each is accepted once in a
rule. For every descriptor `d` of a rule in which neither flag option has been
used yet: `random` returns `d` with the randomize-port bit added, and a second
`random` in the same rule does not return, the framework reporting that the
option can be used only once, with the descriptor as the first `random` left it
(likewise `random-fully`); `random` and `random-fully` one after the other, in
either order, are both accepted and return the same descriptor, in which both
bits are set; the two bits are distinct, and the range count, the addresses,
the ports, the class and every other flag bit are those of `d`. From no state
at all are two uses of one option both accepted. -/
theorem C11_flag_toggles_once (le : Bool) (proto x : Nat) (a b : CStr)
    (d : nf_nat_ipv4_multi_range_compat_withtype)
    (hx : x &&& (1 <<< O_RANDOM) = 0 ∧ x &&& (1 <<< O_RANDOM_FULLY) = 0) :
    (apply_options le proto [⟨opt_random, a, false⟩] ⟨x, d⟩
        = Run.done ⟨x ||| (1 <<< O_RANDOM), with_flag d NF_NAT_RANGE_PROTO_RANDOM⟩
      ∧ apply_options le proto [⟨opt_random, a, false⟩, ⟨opt_random, b, false⟩] ⟨x, d⟩
        = Run.exit (xt_error.only_once opt_random.name)
            ⟨x ||| (1 <<< O_RANDOM), with_flag d NF_NAT_RANGE_PROTO_RANDOM⟩)
    ∧ (apply_options le proto [⟨opt_random_fully, a, false⟩] ⟨x, d⟩
        = Run.done ⟨x ||| (1 <<< O_RANDOM_FULLY), with_flag d NF_NAT_RANGE_PROTO_RANDOM_FULLY⟩
      ∧ apply_options le proto [⟨opt_random_fully, a, false⟩, ⟨opt_random_fully, b, false⟩]
          ⟨x, d⟩
        = Run.exit (xt_error.only_once opt_random_fully.name)
            ⟨x ||| (1 <<< O_RANDOM_FULLY), with_flag d NF_NAT_RANGE_PROTO_RANDOM_FULLY⟩)
    ∧ (apply_options le proto [⟨opt_random, a, false⟩, ⟨opt_random_fully, b, false⟩] ⟨x, d⟩
        = Run.done ⟨x ||| (1 <<< O_RANDOM) ||| (1 <<< O_RANDOM_FULLY),
            with_flag (with_flag d NF_NAT_RANGE_PROTO_RANDOM) NF_NAT_RANGE_PROTO_RANDOM_FULLY⟩
      ∧ apply_options le proto [⟨opt_random_fully, b, false⟩, ⟨opt_random, a, false⟩] ⟨x, d⟩
        = Run.done ⟨x ||| (1 <<< O_RANDOM) ||| (1 <<< O_RANDOM_FULLY),
            with_flag (with_flag d NF_NAT_RANGE_PROTO_RANDOM) NF_NAT_RANGE_PROTO_RANDOM_FULLY⟩)
    ∧ (∀ (u1 u2 : option_use) (st : target_state), u1.entry.id = u2.entry.id →
        (apply_options le proto [u1, u2] st).isDone = false)
    ∧ (with_flag (with_flag d NF_NAT_RANGE_PROTO_RANDOM)
          NF_NAT_RANGE_PROTO_RANDOM_FULLY).range.flags &&& NF_NAT_RANGE_PROTO_RANDOM ≠ 0
    ∧ (with_flag (with_flag d NF_NAT_RANGE_PROTO_RANDOM)
          NF_NAT_RANGE_PROTO_RANDOM_FULLY).range.flags &&& NF_NAT_RANGE_PROTO_RANDOM_FULLY ≠ 0
    ∧ NF_NAT_RANGE_PROTO_RANDOM ≠ NF_NAT_RANGE_PROTO_RANDOM_FULLY
    ∧ NF_NAT_RANGE_PROTO_RANDOM &&& NF_NAT_RANGE_PROTO_RANDOM_FULLY = 0
    ∧ with_flag d NF_NAT_RANGE_PROTO_RANDOM
        = ⟨d.rangesize,
            ⟨d.range.flags ||| NF_NAT_RANGE_PROTO_RANDOM,
              d.range.min_ip, d.range.max_ip, d.range.min_tcp_port, d.range.max_tcp_port⟩,
            d.nattype⟩
    ∧ with_flag d NF_NAT_RANGE_PROTO_RANDOM_FULLY
        = ⟨d.rangesize,
            ⟨d.range.flags ||| NF_NAT_RANGE_PROTO_RANDOM_FULLY,
              d.range.min_ip, d.range.max_ip, d.range.min_tcp_port, d.range.max_tcp_port⟩,
            d.nattype⟩
    ∧ with_flag (with_flag d NF_NAT_RANGE_PROTO_RANDOM) NF_NAT_RANGE_PROTO_RANDOM_FULLY
        = ⟨d.rangesize,
            ⟨d.range.flags ||| NF_NAT_RANGE_PROTO_RANDOM ||| NF_NAT_RANGE_PROTO_RANDOM_FULLY,
              d.range.min_ip, d.range.max_ip, d.range.min_tcp_port, d.range.max_tcp_port⟩,
            d.nattype⟩
    ∧ (∀ i, i ≠ 2 → i ≠ 4 →
        (d.range.flags ||| NF_NAT_RANGE_PROTO_RANDOM ||| NF_NAT_RANGE_PROTO_RANDOM_FULLY).testBit i
          = d.range.flags.testBit i) := by
  obtain ⟨hx1, hx2⟩ := hx
  have hr := FULLCONENAT_parse_random le a x proto
  have hrf := FULLCONENAT_parse_random_fully le a x proto
  refine ⟨⟨?_, random_again_in_one_rule le proto x a b d hx1⟩,
    ⟨?_, random_fully_again_in_one_rule le proto x a b d hx2⟩, ⟨?_, ?_⟩,
    fun u1 u2 st hid => option_again_in_one_rule le proto u1 u2 st hid,
    ?_, ?_, by decide, by decide, rfl, rfl, rfl, ?_⟩
  · simp only [apply_options, xtables_option_tpcall, hr d hx1, Run.lift, Run.andThen]
  · simp only [apply_options, xtables_option_tpcall, hrf d hx2, Run.lift, Run.andThen]
  · have h2 : (x ||| (1 <<< O_RANDOM)) &&& (1 <<< O_RANDOM_FULLY) = 0 := by
      rw [or_shift_and_other _ _ _ (by decide)]; exact hx2
    simp only [apply_options, xtables_option_tpcall, hr d hx1, Run.lift, Run.andThen,
      FULLCONENAT_parse_random_fully le b _ proto _ h2]
  · have h2 : (x ||| (1 <<< O_RANDOM_FULLY)) &&& (1 <<< O_RANDOM) = 0 := by
      rw [or_shift_and_other _ _ _ (by decide)]; exact hx1
    simp only [apply_options, xtables_option_tpcall,
      FULLCONENAT_parse_random_fully le b x proto d hx2, Run.lift, Run.andThen,
      FULLCONENAT_parse_random le a _ proto _ h2]
    rw [lor_right_comm' x, with_flag_comm]
  · show (d.range.flags ||| NF_NAT_RANGE_PROTO_RANDOM ||| NF_NAT_RANGE_PROTO_RANDOM_FULLY)
        &&& NF_NAT_RANGE_PROTO_RANDOM ≠ 0
    rw [lor_right_comm']
    exact or_two_pow_and_same _ 2
  · exact or_two_pow_and_same _ 4
  · intro i h2 h4
    have e1 : NF_NAT_RANGE_PROTO_RANDOM = 2 ^ 2 := rfl
    have e2 : NF_NAT_RANGE_PROTO_RANDOM_FULLY = 2 ^ 4 := rfl
    rw [e1, e2, Nat.testBit_or, Nat.testBit_or, Nat.testBit_two_pow, Nat.testBit_two_pow]
    simp [Ne.symm h2, Ne.symm h4]

/-- C11 (amended) on the initialized zero-filled descriptor of a TCP rule, with
no option used yet: the mask is 0 and has neither bit; a second `random` ends
in the once-only report, and `random-fully` then `random` returns with flags
20. -/
theorem C11_flag_toggles_once_witness :
    ((0 : Nat) &&& (1 <<< O_RANDOM) = 0 ∧ (0 : Nat) &&& (1 <<< O_RANDOM_FULLY) = 0)
    ∧ apply_options true IPPROTO_TCP [⟨opt_random, [], false⟩, ⟨opt_random, [], false⟩]
        initial_state
      = Run.exit (xt_error.only_once "random".toList) ⟨2, ⟨1, ⟨4, 0, 0, 0, 0⟩, 0⟩⟩
    ∧ apply_options true IPPROTO_TCP [⟨opt_random_fully, [], false⟩, ⟨opt_random, [], false⟩]
        initial_state
      = Run.done ⟨6, ⟨1, ⟨20, 0, 0, 0, 0⟩, 0⟩⟩ :=
  have h := C11_flag_toggles_once true IPPROTO_TCP 0 [] [] (FULLCONENAT_init zero_filled)
    ⟨by decide, by decide⟩
  ⟨⟨by decide, by decide⟩, h.1.2.trans (by decide), h.2.2.1.2.trans (by decide)⟩

/-! ## `parse_to` on arbitrary tokens -/

theorem split_first_dash (arg : CStr) :
    (∀ c ∈ arg, c ≠ '-') ∨ ∃ w rest, arg = w ++ '-' :: rest ∧ ∀ c ∈ w, c ≠ '-' := by
  induction arg with
  | nil => exact Or.inl (fun c hc => absurd hc (List.not_mem_nil _))
  | cons x xs ih =>
    by_cases hx : x = '-'
    · exact Or.inr ⟨[], xs, by rw [hx]; rfl, fun c hc => absurd hc (List.not_mem_nil _)⟩
    · rcases ih with h | ⟨w, rest, h, hw⟩
      · left
        intro c hc
        rcases List.mem_cons.mp hc with hc | hc
        · rw [hc]; exact hx
        · exact h c hc
      · right
        refine ⟨x :: w, rest, by rw [h]; rfl, ?_⟩
        intro c hc
        rcases List.mem_cons.mp hc with hc | hc
        · rw [hc]; exact hx
        · exact hw c hc

theorem parse_to_no_dash (le : Bool) (arg : CStr) (mr : nf_nat_ipv4_multi_range_compat_withtype)
    (h : ∀ c ∈ arg, c ≠ '-') :
    parse_to le arg mr
      = match xtables_numeric_to_ipaddr le arg with
        | none => Run.exit (xt_error.bad_ip_address arg) (with_flag mr NF_NAT_RANGE_MAP_IPS)
        | some a => Run.done (with_ips mr a a) := by
  unfold parse_to
  simp only [strchr_cut_none '-' arg h]
  cases xtables_numeric_to_ipaddr le arg <;> rfl

theorem parse_to_dash (le : Bool) (w rest : CStr) (mr : nf_nat_ipv4_multi_range_compat_withtype)
    (h : ∀ c ∈ w, c ≠ '-') :
    parse_to le (w ++ '-' :: rest) mr
      = match xtables_numeric_to_ipaddr le w with
        | none => Run.exit (xt_error.bad_ip_address w) (with_flag mr NF_NAT_RANGE_MAP_IPS)
        | some a =>
          match xtables_numeric_to_ipaddr le rest with
          | none => Run.exit (xt_error.bad_ip_address rest) (with_ips mr a mr.range.max_ip)
          | some b => Run.done (with_ips mr a b) := by
  unfold parse_to
  simp only [strchr_cut_append '-' w rest h]
  cases xtables_numeric_to_ipaddr le w with
  | none => rfl
  | some a => cases xtables_numeric_to_ipaddr le rest <;> rfl

/-- C14. Address-range validator result. Every token has no dash, or is a part
`w` without dash, the first dash, and a text `rest`. Without a dash: if the
token is no valid address `parse_to` leaves through the bad-address report
carrying the token, else it returns with min = max = that address. With a dash:
if `w` is no valid address it leaves through the report carrying `w`; else if
`rest` is no valid address, through the report carrying `rest`; else it returns
with min = the address of `w` and max = the address of `rest`. Whenever it
returns, the map-addresses flag is set. (`1.2.3.256`, `1.2.3.4.5`, `1.2.3.x`
and the empty text are examples of texts that are no valid address.) -/
theorem C14_parse_to_result (le : Bool) (arg : CStr)
    (mr : nf_nat_ipv4_multi_range_compat_withtype) :
    ((∀ c ∈ arg, c ≠ '-') ∨ ∃ w rest, arg = w ++ '-' :: rest ∧ ∀ c ∈ w, c ≠ '-')
    ∧ ((∀ c ∈ arg, c ≠ '-') →
        (xtables_numeric_to_ipaddr le arg = none →
          parse_to le arg mr
            = Run.exit (xt_error.bad_ip_address arg) (with_flag mr NF_NAT_RANGE_MAP_IPS))
        ∧ (∀ a, xtables_numeric_to_ipaddr le arg = some a →
          parse_to le arg mr = Run.done (with_ips mr a a)))
    ∧ (∀ w rest, arg = w ++ '-' :: rest → (∀ c ∈ w, c ≠ '-') →
        (xtables_numeric_to_ipaddr le w = none →
          parse_to le arg mr
            = Run.exit (xt_error.bad_ip_address w) (with_flag mr NF_NAT_RANGE_MAP_IPS))
        ∧ (∀ a, xtables_numeric_to_ipaddr le w = some a →
            xtables_numeric_to_ipaddr le rest = none →
          parse_to le arg mr
            = Run.exit (xt_error.bad_ip_address rest) (with_ips mr a mr.range.max_ip))
        ∧ (∀ a b, xtables_numeric_to_ipaddr le w = some a →
            xtables_numeric_to_ipaddr le rest = some b →
          parse_to le arg mr = Run.done (with_ips mr a b)))
    ∧ (∀ a b, (with_ips mr a b).range.min_ip = a ∧ (with_ips mr a b).range.max_ip = b
        ∧ (with_ips mr a b).range.flags = mr.range.flags ||| NF_NAT_RANGE_MAP_IPS
        ∧ (with_ips mr a b).range.flags &&& NF_NAT_RANGE_MAP_IPS ≠ 0
        ∧ (with_ips mr a b).range.min_tcp_port = mr.range.min_tcp_port
        ∧ (with_ips mr a b).range.max_tcp_port = mr.range.max_tcp_port
        ∧ (with_ips mr a b).nattype = mr.nattype
        ∧ (with_ips mr a b).rangesize = mr.rangesize)
    ∧ (∀ d, parse_to le arg mr = Run.done d →
        d.range.flags &&& NF_NAT_RANGE_MAP_IPS ≠ 0
        ∧ ∃ ab, ips_of_arg le arg = some ab ∧ d = with_ips mr ab.1 ab.2)
    ∧ xtables_numeric_to_ipaddr le "1.2.3.256".toList = none
    ∧ xtables_numeric_to_ipaddr le "1.2.3.4.5".toList = none
    ∧ xtables_numeric_to_ipaddr le "1.2.3.x".toList = none
    ∧ xtables_numeric_to_ipaddr le [] = none := by
  refine ⟨split_first_dash arg, ?_, ?_, ?_, ?_, by cases le <;> decide, by cases le <;> decide,
    by cases le <;> decide, by cases le <;> decide⟩
  · intro h
    have e := parse_to_no_dash le arg mr h
    constructor
    · intro hn
      rw [e, hn]
    · intro a ha
      rw [e, ha]
  · intro w rest harg hw
    subst harg
    have e := parse_to_dash le w rest mr hw
    refine ⟨?_, ?_, ?_⟩
    · intro hn
      rw [e, hn]
    · intro a ha hn
      rw [e, ha, hn]
    · intro a b ha hb
      rw [e, ha, hb]
  · intro a b
    exact ⟨rfl, rfl, rfl, or_two_pow_and_same mr.range.flags 0, rfl, rfl, rfl, rfl⟩
  · intro d hd
    obtain ⟨ab, hab, rfl⟩ := (parse_to_done_iff le arg mr d).mp hd
    exact ⟨or_two_pow_and_same mr.range.flags 0, ab, hab, rfl⟩

/-! ## Order of the two addresses -/

theorem ntohl_of_bytes (le : Bool) (b0 b1 b2 b3 : Nat) (h0 : b0 ≤ 255) (h1 : b1 ≤ 255)
    (h2 : b2 ≤ 255) (h3 : b3 ≤ 255) :
    ntohl le (in_addr_of_bytes le b0 b1 b2 b3) = in_addr_of_bytes false b0 b1 b2 b3 := by
  obtain ⟨e0, e1, e2, e3⟩ := in_addr_byte_of_bytes le b0 b1 b2 b3 h0 h1 h2 h3
  unfold ntohl
  rw [e0, e1, e2, e3]

/-- C15 as stated fails: `10.0.0.9-10.0.0.1` is accepted by `parse_to` and
stored as given, min above max, whether the two fields are compared as the host
reads them or as addresses in network order, on either host byte order. -/
theorem C15_counterexample :
    parse_to true "10.0.0.9-10.0.0.1".toList (FULLCONENAT_init zero_filled)
      = Run.done ⟨1, ⟨1, 150994954, 16777226, 0, 0⟩, 0⟩
    ∧ ¬ ((150994954 : Nat) ≤ 16777226)
    ∧ ¬ (ntohl true 150994954 ≤ ntohl true 16777226)
    ∧ parse_to false "10.0.0.9-10.0.0.1".toList (FULLCONENAT_init zero_filled)
      = Run.done ⟨1, ⟨1, 167772169, 167772161, 0, 0⟩, 0⟩
    ∧ ¬ ((167772169 : Nat) ≤ 167772161)
    ∧ ¬ (ntohl false 167772169 ≤ ntohl false 167772161) := by
  decide

/-- C15, amended. When `parse_to` returns, the stored min and max are the
addresses of the token's parts in the order given: for a token without dash
both are the address of the token, so min = max; for `w-rest` min is the
address of `w` and max the address of `rest`, with no comparison between them.
For canonical tokens `a-b` the two are stored for either order of `a` and `b`,
so min ≤ max (as addresses in network order) holds exactly when `a ≤ b`. -/
theorem C15_address_order_as_given (le : Bool) (arg : CStr)
    (mr d : nf_nat_ipv4_multi_range_compat_withtype) (h : parse_to le arg mr = Run.done d) :
    ((∀ c ∈ arg, c ≠ '-') →
        xtables_numeric_to_ipaddr le arg = some d.range.min_ip
        ∧ d.range.max_ip = d.range.min_ip
        ∧ ntohl le d.range.min_ip ≤ ntohl le d.range.max_ip)
    ∧ (∀ w rest, arg = w ++ '-' :: rest → (∀ c ∈ w, c ≠ '-') →
        xtables_numeric_to_ipaddr le w = some d.range.min_ip
        ∧ xtables_numeric_to_ipaddr le rest = some d.range.max_ip)
    ∧ (∀ b0 b1 b2 b3 c0 c1 c2 c3 : Nat,
        b0 ≤ 255 ∧ b1 ≤ 255 ∧ b2 ≤ 255 ∧ b3 ≤ 255 →
        c0 ≤ 255 ∧ c1 ≤ 255 ∧ c2 ≤ 255 ∧ c3 ≤ 255 →
        arg = dotted b0 b1 b2 b3 ++ '-' :: dotted c0 c1 c2 c3 →
        ntohl le d.range.min_ip = in_addr_of_bytes false b0 b1 b2 b3
        ∧ ntohl le d.range.max_ip = in_addr_of_bytes false c0 c1 c2 c3
        ∧ (ntohl le d.range.min_ip ≤ ntohl le d.range.max_ip
            ↔ in_addr_of_bytes false b0 b1 b2 b3 ≤ in_addr_of_bytes false c0 c1 c2 c3)) := by
  refine ⟨?_, ?_, ?_⟩
  · intro hno
    rw [parse_to_no_dash le arg mr hno] at h
    cases hq : xtables_numeric_to_ipaddr le arg with
    | none => rw [hq] at h; cases h
    | some a =>
      rw [hq] at h
      simp only [Run.done.injEq] at h
      subst h
      exact ⟨rfl, rfl, le_refl _⟩
  · intro w rest harg hw
    subst harg
    rw [parse_to_dash le w rest mr hw] at h
    cases hq : xtables_numeric_to_ipaddr le w with
    | none => rw [hq] at h; cases h
    | some a =>
      rw [hq] at h
      simp only at h
      cases hr : xtables_numeric_to_ipaddr le rest with
      | none => rw [hr] at h; cases h
      | some b =>
        rw [hr] at h
        simp only [Run.done.injEq] at h
        subst h
        exact ⟨rfl, rfl⟩
  · intro b0 b1 b2 b3 c0 c1 c2 c3 hb hc harg
    subst harg
    obtain ⟨h0, h1, h2, h3⟩ := hb
    obtain ⟨k0, k1, k2, k3⟩ := hc
    rw [parse_to_pair le mr b0 b1 b2 b3 c0 c1 c2 c3 h0 h1 h2 h3 k0 k1 k2 k3] at h
    simp only [Run.done.injEq] at h
    subst h
    have e1 : ntohl le (with_ips mr (in_addr_of_bytes le b0 b1 b2 b3)
        (in_addr_of_bytes le c0 c1 c2 c3)).range.min_ip = in_addr_of_bytes false b0 b1 b2 b3 :=
      ntohl_of_bytes le b0 b1 b2 b3 h0 h1 h2 h3
    have e2 : ntohl le (with_ips mr (in_addr_of_bytes le b0 b1 b2 b3)
        (in_addr_of_bytes le c0 c1 c2 c3)).range.max_ip = in_addr_of_bytes false c0 c1 c2 c3 :=
      ntohl_of_bytes le c0 c1 c2 c3 k0 k1 k2 k3
    exact ⟨e1, e2, by rw [e1, e2]⟩

/-- C15 (amended) on the token `10.0.0.1-10.0.0.9`. -/
theorem C15_address_order_as_given_witness :
    xtables_numeric_to_ipaddr true "10.0.0.1".toList = some 16777226
    ∧ xtables_numeric_to_ipaddr true "10.0.0.9".toList = some 150994954
    ∧ ntohl true 16777226 = in_addr_of_bytes false 10 0 0 1
    ∧ ntohl true 150994954 = in_addr_of_bytes false 10 0 0 9
    ∧ (ntohl true 16777226 ≤ ntohl true 150994954
        ↔ in_addr_of_bytes false 10 0 0 1 ≤ in_addr_of_bytes false 10 0 0 9) :=
  have h := C15_address_order_as_given true "10.0.0.1-10.0.0.9".toList
    (FULLCONENAT_init zero_filled) ⟨1, ⟨1, 16777226, 150994954, 0, 0⟩, 0⟩ (by decide)
  have h2 := h.2.1 "10.0.0.1".toList "10.0.0.9".toList (by decide) (by decide)
  have h3 := h.2.2 10 0 0 1 10 0 0 9 (by decide) (by decide) (by decide)
  ⟨h2.1, h2.2, h3.1, h3.2.1, h3.2.2⟩

/-! ## The descriptor at an error report -/

theorem lift_exit_iff {σ τ : Type} (f : σ → τ) (r : Run σ) (e : xt_error) (t : τ) :
    r.lift f = Run.exit e t ↔ ∃ s, r = Run.exit e s ∧ t = f s := by
  cases r with
  | done s => simp [Run.lift]
  | exit e' s =>
    simp only [Run.lift, Run.exit.injEq]
    constructor
    · rintro ⟨rfl, rfl⟩; exact ⟨s, ⟨rfl, rfl⟩, rfl⟩
    · rintro ⟨s', ⟨rfl, rfl⟩, rfl⟩; exact ⟨rfl, rfl⟩

theorem parse_to_exit (le : Bool) (arg : CStr) (mr m : nf_nat_ipv4_multi_range_compat_withtype)
    (e : xt_error) (h : parse_to le arg mr = Run.exit e m) :
    ∃ a, e = xt_error.bad_ip_address a
      ∧ (m = with_flag mr NF_NAT_RANGE_MAP_IPS ∨ ∃ ip, m = with_ips mr ip mr.range.max_ip) := by
  rcases split_first_dash arg with hno | ⟨w, rest, rfl, hw⟩
  · rw [parse_to_no_dash le arg mr hno] at h
    cases hq : xtables_numeric_to_ipaddr le arg with
    | none =>
      rw [hq] at h
      simp only [Run.exit.injEq] at h
      exact ⟨arg, h.1.symm, Or.inl h.2.symm⟩
    | some a => rw [hq] at h; cases h
  · rw [parse_to_dash le w rest mr hw] at h
    cases hq : xtables_numeric_to_ipaddr le w with
    | none =>
      rw [hq] at h
      simp only [Run.exit.injEq] at h
      exact ⟨w, h.1.symm, Or.inl h.2.symm⟩
    | some a =>
      rw [hq] at h
      simp only at h
      cases hr : xtables_numeric_to_ipaddr le rest with
      | none =>
        rw [hr] at h
        simp only [Run.exit.injEq] at h
        exact ⟨rest, h.1.symm, Or.inr ⟨a, h.2.symm⟩⟩
      | some b => rw [hr] at h; cases h

theorem parse_nat_type_exit (arg : CStr) (mr m : nf_nat_ipv4_multi_range_compat_withtype)
    (e : xt_error) (h : parse_nat_type arg mr = Run.exit e m) :
    e = xt_error.bad_nat_type arg ∧ m = mr := by
  rw [parse_nat_type_eq] at h
  cases hq : nattype_of_arg arg with
  | none =>
    rw [hq] at h
    simp only [Run.exit.injEq] at h
    exact ⟨h.1.symm, h.2.symm⟩
  | some n => rw [hq] at h; cases h

/-- Where a call of `FULLCONENAT_parse` can end in an error report, and the
descriptor at that point. -/
theorem FULLCONENAT_parse_exit (le : Bool) (cb cb' : xt_option_call) (e : xt_error)
    (h : FULLCONENAT_parse le cb = Run.exit e cb') :
    (cb'.data = cb.data
      ∧ (e = xt_error.only_once cb.entry.name ∨ e = xt_error.cannot_invert cb.entry.name
        ∨ (e = xt_error.need_port_protocol ∧ cb.entry.id = O_TO_PORTS)
        ∨ (e = xt_error.bad_nat_type cb.arg ∧ cb.entry.id = O_NAT_TYPE)))
    ∨ (cb.entry.id = O_TO_PORTS ∧ e = bad_to_ports cb.arg
      ∧ cb'.data = with_flag cb.data NF_NAT_RANGE_PROTO_SPECIFIED)
    ∨ (cb.entry.id = O_TO_SRC ∧ ∃ a, e = xt_error.bad_ip_address a
      ∧ (cb'.data = with_flag cb.data NF_NAT_RANGE_MAP_IPS
        ∨ ∃ ip, cb'.data = with_ips cb.data ip cb.data.range.max_ip)) := by
  obtain ⟨entry, arg, invert, xflags, proto, data⟩ := cb
  unfold FULLCONENAT_parse xtables_option_parse at h
  simp only at h
  by_cases hx : xflags &&& (1 <<< entry.id) = 0
  swap
  · simp only [hx, ne_eq, not_false_eq_true, if_true, Run.exit.injEq] at h
    obtain ⟨rfl, rfl⟩ := h
    exact Or.inl ⟨rfl, Or.inl rfl⟩
  cases invert
  swap
  · simp only [hx, ne_eq, not_true_eq_false, if_false, if_true, Run.exit.injEq] at h
    obtain ⟨rfl, rfl⟩ := h
    exact Or.inl ⟨rfl, Or.inr (Or.inl rfl)⟩
  simp only [hx, ne_eq, not_true_eq_false, if_false, Bool.false_eq_true] at h
  by_cases h0 : entry.id = O_TO_PORTS
  · simp only [h0, if_true] at h
    cases hp : portok proto
    · rw [hp] at h
      simp only [Bool.not_false, if_true, Run.exit.injEq] at h
      obtain ⟨rfl, rfl⟩ := h
      exact Or.inl ⟨rfl, Or.inr (Or.inr (Or.inl ⟨rfl, h0⟩))⟩
    · rw [hp] at h
      simp only [Bool.not_true, Bool.false_eq_true, if_false] at h
      obtain ⟨m, hm, rfl⟩ := (lift_exit_iff _ _ _ _).mp h
      obtain ⟨rfl, rfl⟩ := parse_ports_exit le data arg e m hm
      exact Or.inr (Or.inl ⟨h0, rfl, rfl⟩)
  · simp only [h0, if_false] at h
    by_cases h3 : entry.id = O_TO_SRC
    · simp only [h3, if_true] at h
      obtain ⟨m, hm, rfl⟩ := (lift_exit_iff _ _ _ _).mp h
      obtain ⟨a, rfl, hmem⟩ := parse_to_exit le arg data m e hm
      exact Or.inr (Or.inr ⟨h3, a, rfl, hmem⟩)
    · simp only [h3, if_false] at h
      by_cases h4 : entry.id = O_NAT_TYPE
      · simp only [h4, if_true] at h
        obtain ⟨m, hm, rfl⟩ := (lift_exit_iff _ _ _ _).mp h
        obtain ⟨rfl, rfl⟩ := parse_nat_type_exit arg data m e hm
        exact Or.inl ⟨rfl, Or.inr (Or.inr (Or.inr ⟨rfl, h4⟩))⟩
      · simp only [h4, if_false] at h
        split_ifs at h

/-- C16 as stated fails: on the inverted port range `80-70` the call ends in the
bad-value report with the port-specified flag already written to the descriptor
(flags 0 before, 2 at the report); on `10.0.0.1-x` it ends in the bad-address
report with the map-addresses flag and the min address already written. -/
theorem C16_counterexample :
    FULLCONENAT_parse true
        ⟨opt_to_ports, "80-70".toList, false, 0, IPPROTO_TCP, FULLCONENAT_init zero_filled⟩
      = Run.exit (bad_to_ports "80-70".toList)
          ⟨opt_to_ports, "80-70".toList, false, 1, IPPROTO_TCP, ⟨1, ⟨2, 0, 0, 0, 0⟩, 0⟩⟩
    ∧ (FULLCONENAT_init zero_filled).range.flags &&& NF_NAT_RANGE_PROTO_SPECIFIED = 0
    ∧ (2 : Nat) &&& NF_NAT_RANGE_PROTO_SPECIFIED ≠ 0
    ∧ FULLCONENAT_parse true
        ⟨opt_to_source, "10.0.0.1-x".toList, false, 0, IPPROTO_TCP, FULLCONENAT_init zero_filled⟩
      = Run.exit (xt_error.bad_ip_address "x".toList)
          ⟨opt_to_source, "10.0.0.1-x".toList, false, 8, IPPROTO_TCP,
            ⟨1, ⟨1, 16777226, 0, 0, 0⟩, 0⟩⟩
    ∧ (FULLCONENAT_init zero_filled).range.min_ip = 0 := by
  decide

/-- C16, amended. A call of `FULLCONENAT_parse` that fails ends in an error
report that does not return: no descriptor is handed back, and in a run of
options no later option is applied. At the report the descriptor is exactly as
given when the framework rejected the call, the protocol carries no ports or
the NAT class is unknown; for a rejected port token it is the descriptor given
with the port-specified flag added and no port written; for a rejected address
token it is the descriptor given with the map-addresses flag added and, when
the text after the dash is the rejected part, the min address written. The
class, the range count, the ports and the max address are never written by a
failing call. -/
theorem C16_failure_outcome (le : Bool) (cb cb' : xt_option_call) (e : xt_error)
    (h : FULLCONENAT_parse le cb = Run.exit e cb') :
    (FULLCONENAT_parse le cb).isDone = false
    ∧ ((cb'.data = cb.data
        ∧ (e = xt_error.only_once cb.entry.name ∨ e = xt_error.cannot_invert cb.entry.name
          ∨ (e = xt_error.need_port_protocol ∧ cb.entry.id = O_TO_PORTS)
          ∨ (e = xt_error.bad_nat_type cb.arg ∧ cb.entry.id = O_NAT_TYPE)))
      ∨ (cb.entry.id = O_TO_PORTS ∧ e = bad_to_ports cb.arg
        ∧ cb'.data = with_flag cb.data NF_NAT_RANGE_PROTO_SPECIFIED)
      ∨ (cb.entry.id = O_TO_SRC ∧ ∃ a, e = xt_error.bad_ip_address a
        ∧ (cb'.data = with_flag cb.data NF_NAT_RANGE_MAP_IPS
          ∨ ∃ ip, cb'.data = with_ips cb.data ip cb.data.range.max_ip)))
    ∧ cb'.data.nattype = cb.data.nattype
    ∧ cb'.data.rangesize = cb.data.rangesize
    ∧ cb'.data.range.min_tcp_port = cb.data.range.min_tcp_port
    ∧ cb'.data.range.max_tcp_port = cb.data.range.max_tcp_port
    ∧ cb'.data.range.max_ip = cb.data.range.max_ip
    ∧ (cb'.data.range.flags = cb.data.range.flags
      ∨ cb'.data.range.flags = cb.data.range.flags ||| own_bit cb.entry.id)
    ∧ (∀ (proto : Nat) (u : option_use) (us : List option_use) (st s : target_state)
        (e' : xt_error), xtables_option_tpcall le proto u st = Run.exit e' s →
        apply_options le proto (u :: us) st = Run.exit e' s) := by
  have hc := FULLCONENAT_parse_exit le cb cb' e h
  refine ⟨by rw [h]; rfl, hc, ?_, ?_, ?_, ?_, ?_, ?_, ?_⟩
  · rcases hc with ⟨hd, _⟩ | ⟨_, _, hd⟩ | ⟨_, a, _, hd | ⟨ip, hd⟩⟩ <;> rw [hd] <;> rfl
  · rcases hc with ⟨hd, _⟩ | ⟨_, _, hd⟩ | ⟨_, a, _, hd | ⟨ip, hd⟩⟩ <;> rw [hd] <;> rfl
  · rcases hc with ⟨hd, _⟩ | ⟨_, _, hd⟩ | ⟨_, a, _, hd | ⟨ip, hd⟩⟩ <;> rw [hd] <;> rfl
  · rcases hc with ⟨hd, _⟩ | ⟨_, _, hd⟩ | ⟨_, a, _, hd | ⟨ip, hd⟩⟩ <;> rw [hd] <;> rfl
  · rcases hc with ⟨hd, _⟩ | ⟨_, _, hd⟩ | ⟨_, a, _, hd | ⟨ip, hd⟩⟩ <;> rw [hd] <;> rfl
  · rcases hc with ⟨hd, _⟩ | ⟨h0, _, hd⟩ | ⟨h3, a, _, hd | ⟨ip, hd⟩⟩
    · exact Or.inl (by rw [hd])
    · right
      rw [hd, h0]
      rfl
    · right
      rw [hd, h3]
      rfl
    · right
      rw [hd, h3]
      rfl
  · intro proto u us st s e' ht
    simp only [apply_options, ht, Run.andThen]

/-- C16 (amended) on the to-ports call with the inverted range `80-70`. -/
theorem C16_failure_outcome_witness :
    (FULLCONENAT_parse true
        ⟨opt_to_ports, "80-70".toList, false, 0, IPPROTO_TCP, FULLCONENAT_init zero_filled⟩).isDone
      = false
    ∧ ((⟨1, ⟨2, 0, 0, 0, 0⟩, 0⟩ : nf_nat_ipv4_multi_range_compat_withtype).range.flags = 0
      ∨ (⟨1, ⟨2, 0, 0, 0, 0⟩, 0⟩ : nf_nat_ipv4_multi_range_compat_withtype).range.flags
          = 0 ||| own_bit O_TO_PORTS) :=
  have h := C16_failure_outcome true
    ⟨opt_to_ports, "80-70".toList, false, 0, IPPROTO_TCP, FULLCONENAT_init zero_filled⟩
    ⟨opt_to_ports, "80-70".toList, false, 1, IPPROTO_TCP, ⟨1, ⟨2, 0, 0, 0, 0⟩, 0⟩⟩
    (bad_to_ports "80-70".toList) (by decide)
  ⟨h.1, h.2.2.2.2.2.2.2.1⟩

end FullConeNat
